import Mathlib

/-!
# DataTransferKit: shared-domain map and point-in-element

A shallow embedding of `DTK_SharedDomainMap_def.hpp` and `DTK_TopologyTools.cpp`.

* `GlobalOrdinal` is a template parameter of the C++ code.  It is embedded as `Nat`
  together with the parameter `ordMax`, the value of
  `std::numeric_limits<GlobalOrdinal>::max()`; arithmetic in the ordinal type is
  taken modulo `ordMax + 1`.
* A communicator of `P` ranks is embedded as a list of length `P` indexed by rank;
  a collective operation is a function of the whole list.
* `Teuchos::Array` is embedded as `List`; `Array::remove(i)` is `List.eraseIdx`.
-/

namespace DTK

/-! ## Ordinals -/

/-- The invalid ordinal `std::numeric_limits<GlobalOrdinal>::max()`. -/
def invalidOrdinal (ordMax : Nat) : Nat := ordMax

/-- The collective `Teuchos::reduceAll` with `REDUCE_MAX` over the local sizes of all ranks. -/
def reduceAllMax (local_sizes : List Nat) : Nat :=
  local_sizes.foldl max 0

/-- The global-to-local map `d_target_g2l` (a `std::map`), as an association list;
`g2lInsert` is `d_target_g2l[key] = value`. -/
def g2lInsert (m : List (Nat × Nat)) (key value : Nat) : List (Nat × Nat) :=
  if m.any (fun kv => kv.1 == key) then
    m.map (fun kv => if kv.1 == key then (key, value) else kv)
  else m ++ [(key, value)]

/-- The lookup `d_target_g2l.find( key )`. -/
def g2lFind (m : List (Nat × Nat)) (key : Nat) : Option Nat :=
  (m.find? (fun kv => kv.1 == key)).map Prod.snd

/-- The loop of `computePointOrdinals` over `n = start, ..., start + count - 1`:
`target_ordinals[n] = comm_rank*global_max + n`, and
`d_target_g2l[ target_ordinals[n] ] = n` when missed points are stored. -/
def computePointOrdinalsLoop (ordMax comm_rank global_max : Nat) (store_missed_points : Bool) :
    (count start : Nat) → List (Nat × Nat) → List Nat × List (Nat × Nat)
  | 0, _, g2l => ([], g2l)
  | count + 1, n, g2l =>
    let ordinal := (comm_rank * global_max + n) % (ordMax + 1)
    let g2l1 := if store_missed_points then g2lInsert g2l ordinal n else g2l
    let rest := computePointOrdinalsLoop ordMax comm_rank global_max store_missed_points
      count (n + 1) g2l1
    (ordinal :: rest.1, rest.2)

/-- The function `SharedDomainMap::computePointOrdinals` on rank `comm_rank`:
`local_size` is the local number of target points (0 when the rank has no target),
`global_max` the result of the max-reduction.  Returns `target_ordinals` and the
updated `d_target_g2l`. -/
def computePointOrdinals (ordMax comm_rank global_max : Nat) (store_missed_points : Bool)
    (local_size : Nat) (g2l : List (Nat × Nat)) : List Nat × List (Nat × Nat) :=
  computePointOrdinalsLoop ordMax comm_rank global_max store_missed_points local_size 0 g2l

/-- The target ordinals of every rank, as computed in `setup`: rank `r` calls
`computePointOrdinals` with its own local size and the reduced maximum. -/
def allTargetOrdinals (ordMax : Nat) (store : Bool) (local_sizes : List Nat) : List (List Nat) :=
  (List.range local_sizes.length).map (fun r =>
    (computePointOrdinals ordMax r (reduceAllMax local_sizes) store
      (local_sizes.getD r 0) []).1)

/-- The global content of `d_target_map`, the map made by `createNonContigMap` from the
target ordinals of each rank: all ordinals, rank after rank. -/
def targetMapGlobal (ordMax : Nat) (store : Bool) (local_sizes : List Nat) : List Nat :=
  (allTargetOrdinals ordMax store local_sizes).flatten

/-! ## Failures -/

/-- The ways a call can fail: `testPrecondition` / `DTK_REQUIRE`, `testInvariant` /
`DTK_CHECK`, `DTK_ENSURE`, `DTK_INSIST`, an exception thrown by a library routine, and
an operation without defined behaviour (a division by zero, a dereferenced end iterator). -/
inductive Failure where
  | precondition
  | invariant
  | postcondition
  | insist
  | library
  | undefined
  deriving DecidableEq, Repr

/-! ## Point in element (`DTK_TopologyTools.cpp`) -/

/-- The entity types of `moab::EntityType`. -/
inductive EntityType where
  | MBVERTEX | MBEDGE | MBTRI | MBQUAD | MBPOLYGON | MBTET | MBPYRAMID | MBPRISM
  | MBKNIFE | MBHEX | MBPOLYHEDRON | MBENTITYSET | MBMAXTYPE
  deriving DecidableEq, Repr

/-- The result of `CellTopologyFactory::create( element_topology, num_element_vertices )`:
the cell topology is determined by the two arguments of the call. -/
structure CellTopology where
  element_topology : EntityType
  num_element_vertices : Nat
  deriving DecidableEq, Repr

/-- The two routines of `Intrepid::CellTools` that `pointInElement` calls.  They belong to
an external library and are parameters of the embedding.  A cell is handed over as the
flattened `(1, num_vertices, vertex_dim)` field container, vertex after vertex. -/
structure CellTools (α : Type) where
  mapToReferenceFrame : CellTopology → List α → List α → List α
  checkPointsetInclusion : CellTopology → List α → Bool

/-- The part of `moab::Interface` that `pointInElement` uses; `none` stands for an error
code different from `MB_SUCCESS`. -/
structure MoabInterface (α : Type) where
  type_from_handle : Nat → EntityType
  get_adjacencies : Nat → Option (List Nat)
  get_coords : Nat → Option (α × α × α)

/-- The call `moab->get_coords( &element_vertices[0], n, &cell_vertex_coords[0] )`: the
coordinates of the vertices, interleaved as x, y, z per vertex. -/
def getCoords {α : Type} (moab : MoabInterface α) : List Nat → Option (List α)
  | [] => some []
  | v :: vs =>
    match moab.get_coords v, getCoords moab vs with
    | some (x, y, z), some rest => some (x :: y :: z :: rest)
    | _, _ => none

/-- The inner loop of the coordinate reduction, for `n = count - 1` down to `0`:
`cell_vertex_coords.erase( cell_vertex_coords.begin() + (i+1)*n + i )`. -/
def reduceDimInner {α : Type} (i : Nat) : Nat → List α → List α
  | 0, xs => xs
  | n + 1, xs => reduceDimInner i n (xs.eraseIdx ((i + 1) * n + i))

/-- The outer loop `for ( int i = 2; i != vertex_dim-1 ; --i )` of the coordinate
reduction; the argument `j` is `i + 1`, so that the loop starts with `j = 3` and stops
when `j = vertex_dim`. -/
def reduceDim {α : Type} (vertex_dim num_vertices : Nat) : Nat → List α → List α
  | 0, xs => xs
  | j + 1, xs =>
    if j + 1 = vertex_dim then xs
    else reduceDim vertex_dim num_vertices j (reduceDimInner j num_vertices xs)

/-- The field container `cell_vertices( 0, v, c )` filled for "Tetrahederon 1":
entries 0..8 and 12..14 of `cell_vertex_coords`. -/
def pyramidTet1 {α : Type} [Inhabited α] (c : List α) : List α :=
  [c.getD 0 default, c.getD 1 default, c.getD 2 default,
   c.getD 3 default, c.getD 4 default, c.getD 5 default,
   c.getD 6 default, c.getD 7 default, c.getD 8 default,
   c.getD 12 default, c.getD 13 default, c.getD 14 default]

/-- The field container `cell_vertices( 0, v, c )` filled for "Tetrahederon 2":
entries 0..2 and 6..14 of `cell_vertex_coords`. -/
def pyramidTet2 {α : Type} [Inhabited α] (c : List α) : List α :=
  [c.getD 0 default, c.getD 1 default, c.getD 2 default,
   c.getD 6 default, c.getD 7 default, c.getD 8 default,
   c.getD 9 default, c.getD 10 default, c.getD 11 default,
   c.getD 12 default, c.getD 13 default, c.getD 14 default]

/-- The pair of calls `mapToReferenceFrame( reference_point, point, cell_vertices,
*cell_topo, 0 )` and `checkPointsetInclusion( reference_point, *cell_topo )` for the linear
tetrahedron topology `CellTopologyFactory::create( moab::MBTET, 4 )`. -/
def inTet {α : Type} (ct : CellTools α) (cell_vertices coords : List α) : Bool :=
  ct.checkPointsetInclusion ⟨EntityType.MBTET, 4⟩
    (ct.mapToReferenceFrame ⟨EntityType.MBTET, 4⟩ cell_vertices coords)

/-- The function `TopologyTools::pointInElement( coords, element, moab )`.  Besides the
boolean it returns the cells handed to `mapToReferenceFrame` and
`checkPointsetInclusion`, in the order of the calls. -/
def pointInElementTrace {α : Type} [Inhabited α] (ct : CellTools α) (moab : MoabInterface α)
    (coords : List α) (element : Nat) :
    Except Failure (Bool × List (CellTopology × List α)) :=
  let vertex_dim := coords.length
  if ¬ (vertex_dim ≤ 3) then .error .precondition
  else
    let element_topology := moab.type_from_handle element
    match moab.get_adjacencies element with
    | none => .error .invariant
    | some element_vertices =>
      let num_element_vertices := element_vertices.length
      match getCoords moab element_vertices with
      | none => .error .invariant
      | some cell_vertex_coords =>
        if element_topology ≠ EntityType.MBPYRAMID then
          let cell_topo : CellTopology := ⟨element_topology, num_element_vertices⟩
          let cell_vertices := reduceDim vertex_dim num_element_vertices 3 cell_vertex_coords
          let reference_point := ct.mapToReferenceFrame cell_topo cell_vertices coords
          .ok (ct.checkPointsetInclusion cell_topo reference_point, [(cell_topo, cell_vertices)])
        else
          let cell_topo : CellTopology := ⟨EntityType.MBTET, 4⟩
          if vertex_dim ≠ 3 then .error .invariant
          else
            let tet1 := pyramidTet1 cell_vertex_coords
            let in_tet_1 := inTet ct tet1 coords
            if in_tet_1 then .ok (true, [(cell_topo, tet1)])
            else
              let tet2 := pyramidTet2 cell_vertex_coords
              let in_tet_2 := inTet ct tet2 coords
              if in_tet_2 then .ok (true, [(cell_topo, tet1), (cell_topo, tet2)])
              else .ok (false, [(cell_topo, tet1), (cell_topo, tet2)])

/-- The boolean returned by `TopologyTools::pointInElement`. -/
def pointInElement {α : Type} [Inhabited α] (ct : CellTools α) (moab : MoabInterface α)
    (coords : List α) (element : Nat) : Except Failure Bool :=
  (pointInElementTrace ct moab coords element).map Prod.fst

/-- The determinant of the 3 x 3 matrix with rows `(a11 a12 a13)`, `(a21 a22 a23)`,
`(a31 a32 a33)`. -/
def det3 (a11 a12 a13 a21 a22 a23 a31 a32 a33 : ℚ) : ℚ :=
  a11 * (a22 * a33 - a23 * a32) - a12 * (a21 * a33 - a23 * a31)
    + a13 * (a21 * a32 - a22 * a31)

/-- Modelled from the spec: the external reference-frame routines of section 4.2 for the
linear tetrahedron, taken as exact over the rationals.  `mapToReferenceFrame` inverts the
affine map `xi -> v0 + xi1 (v1 - v0) + xi2 (v2 - v0) + xi3 (v3 - v0)` (Cramer's rule) and
`checkPointsetInclusion` tests the reference tetrahedron `xi_i >= 0`,
`xi1 + xi2 + xi3 <= 1` without tolerance. -/
def exactTetCellTools : CellTools ℚ where
  mapToReferenceFrame := fun _ cell p =>
    match cell, p with
    | [x0, y0, z0, x1, y1, z1, x2, y2, z2, x3, y3, z3], [x, y, z] =>
      let d := det3 (x1 - x0) (x2 - x0) (x3 - x0) (y1 - y0) (y2 - y0) (y3 - y0)
        (z1 - z0) (z2 - z0) (z3 - z0)
      [det3 (x - x0) (x2 - x0) (x3 - x0) (y - y0) (y2 - y0) (y3 - y0)
          (z - z0) (z2 - z0) (z3 - z0) / d,
       det3 (x1 - x0) (x - x0) (x3 - x0) (y1 - y0) (y - y0) (y3 - y0)
          (z1 - z0) (z - z0) (z3 - z0) / d,
       det3 (x1 - x0) (x2 - x0) (x - x0) (y1 - y0) (y2 - y0) (y - y0)
          (z1 - z0) (z2 - z0) (z - z0) / d]
    | _, _ => []
  checkPointsetInclusion := fun _ xi =>
    match xi with
    | [a, b, c] => decide (0 ≤ a) && decide (0 ≤ b) && decide (0 ≤ c) && decide (a + b + c ≤ 1)
    | _ => false

/-- The pyramid of `buildPyramidContainer`: element 12 with the vertices 0..4 at
(0,0,0), (1,0,0), (1,1,0), (0,1,0) and the apex (0.5,0.5,1). -/
def unitPyramidMoab : MoabInterface ℚ where
  type_from_handle := fun _ => EntityType.MBPYRAMID
  get_adjacencies := fun e => if e = 12 then some [0, 1, 2, 3, 4] else none
  get_coords := fun v =>
    match v with
    | 0 => some (0, 0, 0)
    | 1 => some (1, 0, 0)
    | 2 => some (1, 1, 0)
    | 3 => some (0, 1, 0)
    | 4 => some (1 / 2, 1 / 2, 1)
    | _ => none

/-! ## Bounding box, coordinate fields and the rendezvous decomposition -/

/-- The six bounds `(xmin, ymin, zmin, xmax, ymax, zmax)` of a `BoundingBox`. -/
structure BoundingBox (α : Type) where
  x_min : α
  y_min : α
  z_min : α
  x_max : α
  y_max : α
  z_max : α
  deriving DecidableEq, Repr

/-- Modelled from the spec: `BoundingBox::pointInBox`, the operation `contains(point)` of
the data model.  The point has one, two or three coordinates and is tested against the
closed box in as many dimensions. -/
def BoundingBox.pointInBox {α : Type} [LinearOrder α] (box : BoundingBox α) (p : List α) : Bool :=
  match p with
  | [x] => decide (box.x_min ≤ x) && decide (x ≤ box.x_max)
  | [x, y] =>
    decide (box.x_min ≤ x) && decide (x ≤ box.x_max) &&
      decide (box.y_min ≤ y) && decide (y ≤ box.y_max)
  | [x, y, z] =>
    decide (box.x_min ≤ x) && decide (x ≤ box.x_max) &&
      decide (box.y_min ≤ y) && decide (y ≤ box.y_max) &&
      decide (box.z_min ≤ z) && decide (z ≤ box.z_max)
  | _ => false

/-- Modelled from the spec: `BoundingBox::intersectBoxes`, section 4.1: the componentwise
`(max(a.min, b.min), min(a.max, b.max))` and a flag that is true iff the result has
nonnegative extent in every dimension (unused dimensions carry the widest bounds). -/
def BoundingBox.intersectBoxes {α : Type} [LinearOrder α] (a b : BoundingBox α) :
    Bool × BoundingBox α :=
  let box : BoundingBox α :=
    ⟨max a.x_min b.x_min, max a.y_min b.y_min, max a.z_min b.z_min,
     min a.x_max b.x_max, min a.y_max b.y_max, min a.z_max b.z_max⟩
  (decide (box.x_min ≤ box.x_max) && decide (box.y_min ≤ box.y_max)
    && decide (box.z_min ≤ box.z_max), box)

/-- A coordinate or data field seen through `FieldTraits`: `dim` and the values from
`begin` to `end`, stored in blocks by dimension. -/
structure Field (α : Type) where
  dim : Nat
  values : List α
  deriving DecidableEq, Repr

/-- Modelled from the spec: `FieldTools::dimSize`, the number of values of the field in
each dimension. -/
def Field.dimSize {α : Type} (f : Field α) : Nat := f.values.length / f.dim

/-- The block of dimension `d` of a block-strided array of `n` points, the view
`coords( d*n, n )`. -/
def dimBlock {α : Type} (coords : List α) (n d : Nat) : List α :=
  (coords.drop (d * n)).take n

/-- The point with local index `n` of a block-strided array of `num_points` points:
`point[d] = coords[ d*num_points + n ]`. -/
def pointAt {α : Type} [Inhabited α] (coords : List α) (dim num_points n : Nat) : List α :=
  (List.range dim).map (fun d => coords.getD (num_points * d + n) default)

/-- Modelled from the spec: `FieldTools::coordGlobalBoundingBox`, the componentwise
min/max reduction of the coordinates of all ranks of the target communicator.  `highest`
and `lowest` are the neutral elements of the two reductions, and an unused dimension
carries the bounds `(lowest, highest)`. -/
def coordGlobalBoundingBox {α : Type} [LinearOrder α] (lowest highest : α) (dim : Nat)
    (fields : List (Field α)) : BoundingBox α :=
  let block (d : Nat) : List α := fields.flatMap (fun f => dimBlock f.values f.dimSize d)
  let lo (d : Nat) : α := if d < dim then (block d).foldl min highest else lowest
  let hi (d : Nat) : α := if d < dim then (block d).foldl max lowest else highest
  ⟨lo 0, lo 1, lo 2, hi 0, hi 1, hi 2⟩

/-- The source mesh manager as `setup` sees it: `dim()` and `globalBoundingBox()`.  The
mesh itself enters `setup` only through the rendezvous decomposition. -/
structure MeshManager (α : Type) where
  dim : Nat
  globalBoundingBox : BoundingBox α

/-- Modelled from the spec: the queries of the `Rendezvous` decomposition built over the
shared-domain box (section 4.5).  `getBox` is the box of the decomposition,
`getDestinationProc` the RCB rank of a point and `findElement rank tolerance point` the
search of the kD-tree of a rendezvous rank, which gives the element handle and the source
rank of the element, or the invalid ordinal and `-1`. -/
structure Rendezvous (α : Type) where
  getBox : BoundingBox α
  getDestinationProc : List α → Int
  findElement : Nat → α → List α → Nat × Int

/-- Modelled from the spec: `Rendezvous::procsContainingPoints`, one rank per point of the
block-strided coordinate array. -/
def Rendezvous.procsContainingPoints {α : Type} [Inhabited α] (rendezvous : Rendezvous α)
    (dim : Nat) (coords : List α) : List Int :=
  (List.range (coords.length / dim)).map (fun n =>
    rendezvous.getDestinationProc (pointAt coords dim (coords.length / dim) n))

/-- Modelled from the spec: `Rendezvous::elementsContainingPoints` on rank `rank`: for each
point of the block-strided coordinate array the element handle and its source rank. -/
def Rendezvous.elementsContainingPoints {α : Type} [Inhabited α] (rendezvous : Rendezvous α)
    (dim rank : Nat) (tolerance : α) (coords : List α) : List Nat × List Int :=
  let found := (List.range (coords.length / dim)).map (fun n =>
    rendezvous.findElement rank tolerance (pointAt coords dim (coords.length / dim) n))
  (found.map Prod.fst, found.map Prod.snd)

/-! ## The distributor -/

/-- Modelled from the spec: the items that rank `q` receives from one sender, in send
order (section 4.6). -/
def recvFrom {β : Type} (q : Nat) (export_procs : List Int) (sendbuf : List β) : List β :=
  ((export_procs.zip sendbuf).filter (fun x => x.1 == (q : Int))).map Prod.snd

/-- Modelled from the spec: `Tpetra::Distributor::createFromSends` is valid when every
destination is a rank of the communicator. -/
def validSends (plan : List (List Int)) : Bool :=
  plan.all (fun export_procs => export_procs.all (fun p => decide (0 ≤ p) && decide (p < plan.length)))

/-- Modelled from the spec: `Tpetra::Distributor::doPostsAndWaits( sendbuf, 1, recvbuf )`
on all ranks.  `plan` holds the destination ranks given to `createFromSends` by each rank;
rank `q` receives the items sent to it ordered by sending rank, in send order for each
sender. -/
def doPostsAndWaits {β : Type} (plan : List (List Int)) (sendbufs : List (List β)) :
    List (List β) :=
  (List.range plan.length).map (fun q =>
    (plan.zip sendbufs).flatMap (fun ps => recvFrom q ps.1 ps.2))

/-- The send buffers fit the plan: each rank sends one item per destination it gave. -/
def sendsFit {β : Type} (plan : List (List Int)) (sendbufs : List (List β)) : Bool :=
  decide (plan.length = sendbufs.length) &&
    (plan.zip sendbufs).all (fun ps => decide (ps.1.length = ps.2.length))

/-- Modelled from the spec: the value returned by `createFromSends` on every rank, the
number of items the rank will receive. -/
def createFromSends (plan : List (List Int)) : List Nat :=
  (doPostsAndWaits plan plan).map List.length

/-- Modelled from the spec: `getImagesFrom` and `getLengthsFrom` of rank `q`: the ranks
that send to `q`, ascending, and the number of items of each. -/
def imagesAndLengthsFrom (plan : List (List Int)) (q : Nat) : List (Nat × Nat) :=
  ((List.range plan.length).map (fun r =>
    (r, (recvFrom q (plan.getD r []) (plan.getD r [])).length))).filter (fun x => x.2 != 0)

/-! ## The shared-domain map (`DTK_SharedDomainMap_def.hpp`) -/

/-- The members of `SharedDomainMap` on all ranks of `d_comm`.  The constructor arguments
`dimension` and `store_missed_points` are common to the ranks, `comm_size` is the size of
`d_comm`, and every other member is a list indexed by rank.  `d_source_map` and `d_target_map` hold the global ordinals each
rank gave to `Tpetra::createNonContigMap`, and `d_source_indexer` holds the value of
`d_source_indexer.l2g(0)`. -/
structure SharedDomainMap (α : Type) where
  comm_size : Nat
  d_dimension : Nat
  d_store_missed_points : Bool
  d_missed_points : List (List Nat)
  d_target_g2l : List (List (Nat × Nat))
  d_source_elements : List (List Nat)
  d_target_coords : List (List α)
  d_source_map : List (List Nat)
  d_target_map : List (List Nat)
  d_source_indexer : Option Nat

/-- The constructor `SharedDomainMap( comm, dimension, store_missed_points )` on a
communicator of `comm_size` ranks. -/
def SharedDomainMap.new {α : Type} (comm_size dimension : Nat) (store_missed_points : Bool) :
    SharedDomainMap α :=
  { comm_size := comm_size
    d_dimension := dimension
    d_store_missed_points := store_missed_points
    d_missed_points := List.replicate comm_size []
    d_target_g2l := List.replicate comm_size []
    d_source_elements := List.replicate comm_size []
    d_target_coords := List.replicate comm_size []
    d_source_map := List.replicate comm_size []
    d_target_map := List.replicate comm_size []
    d_source_indexer := none }

/-- What `setup` takes from its surroundings: the largest ordinal, the bounds of an
unused dimension of a bounding box, and the rendezvous decomposition that
`Rendezvous( d_comm, d_dimension, shared_domain_box ).build( source_mesh_manager )`
produces for a shared-domain box. -/
structure Env (α : Type) where
  ordMax : Nat
  lowest : α
  highest : α
  buildRendezvous : BoundingBox α → Rendezvous α

/-- Modelled from the spec: `CommIndexer::l2g(0)`, the rank in `d_comm` of rank 0 of the
communicator of a manager: the first rank on which the manager exists. -/
def l2g0 : List Bool → Option Nat
  | [] => none
  | b :: bs => if b then some 0 else (l2g0 bs).map (· + 1)

/-- The results of all ranks, or the first failure. -/
def allRanks {ε β : Type} : List (Except ε β) → Except ε (List β)
  | [] => .ok []
  | .error e :: _ => .error e
  | .ok b :: rest =>
    match allRanks rest with
    | .error e => .error e
    | .ok bs => .ok (b :: bs)

/-- The loop of `getTargetPointsInBox` over `n = start, ..., start + count - 1`; returns
the entries of `targets_in_box` and the list `d_missed_points`. -/
def getTargetPointsInBoxLoop {α : Type} [Inhabited α] [LinearOrder α] (ordMax : Nat)
    (store_missed_points : Bool) (box : BoundingBox α) (target_coords_view : List α)
    (field_dim dim_size : Nat) (target_ordinals : List Nat) :
    (count start : Nat) → List Nat → List Nat × List Nat
  | 0, _, missed => ([], missed)
  | count + 1, n, missed =>
    let target_point := pointAt target_coords_view field_dim dim_size n
    let entry :=
      if box.pointInBox target_point then target_ordinals.getD n 0 else invalidOrdinal ordMax
    let missed1 :=
      if store_missed_points && entry == invalidOrdinal ordMax then missed ++ [n] else missed
    let rest := getTargetPointsInBoxLoop ordMax store_missed_points box target_coords_view
      field_dim dim_size target_ordinals count (n + 1) missed1
    (entry :: rest.1, rest.2)

/-- The function `SharedDomainMap::getTargetPointsInBox` on one rank; returns
`targets_in_box` and the new `d_missed_points`. -/
def getTargetPointsInBox {α : Type} [Inhabited α] [LinearOrder α] (ordMax : Nat)
    (store_missed_points : Bool) (box : BoundingBox α) (target_coords : Field α)
    (target_ordinals : List Nat) (missed : List Nat) : Except Failure (List Nat × List Nat) :=
  let dim_size := target_coords.dimSize
  if dim_size ≠ target_ordinals.length then .error .precondition
  else .ok (getTargetPointsInBoxLoop ordMax store_missed_points box target_coords.values
    target_coords.dim dim_size target_ordinals dim_size 0 missed)

/-- The loop `for ( i = 0; i < xs.size(); ++i ) if ( xs[i] == v ) idx.push_back( i )`,
with `i` starting at `start`. -/
def indicesOf (v : Nat) : List Nat → Nat → List Nat
  | [], _ => []
  | x :: xs, i => if x == v then i :: indicesOf v xs (i + 1) else indicesOf v xs (i + 1)

/-- The loop `for ( int d = dim - 1; d >= 0; --d ) coords.remove( d*remove_stride + i )`;
the argument counts the dimensions still to be treated. -/
def removePointCoords {α : Type} (remove_stride i : Nat) : Nat → List α → List α
  | 0, coords => coords
  | d + 1, coords => removePointCoords remove_stride i d (coords.eraseIdx (d * remove_stride + i))

/-- The removal loop of `setup` over the reversed index list: the stride is read, entry
`i` of the per-point array is removed, then the coordinates of point `i`. -/
def pruneLoop {α ι : Type} (dim : Nat) : List Nat → List ι → List α → List ι × List α
  | [], per_point, coords => (per_point, coords)
  | i :: rest, per_point, coords =>
    let remove_stride := per_point.length
    pruneLoop dim rest (per_point.eraseIdx i) (removePointCoords remove_stride i dim coords)

/-- The idiom `std::remove( begin, end, v )` followed by `resize` to the new end. -/
def stdRemove {ι : Type} [DecidableEq ι] (v : ι) (xs : List ι) : List ι :=
  xs.filter (fun x => decide (x ≠ v))

/-- The local arrays of a rank after the out-of-box pruning of `setup`. -/
structure TargetSide (α : Type) where
  target_ordinals : List Nat
  d_target_g2l : List (Nat × Nat)
  d_missed_points : List Nat
  targets_in_box : List Nat
  rendezvous_procs : List Int
  coords_copy : List α

/-- Lines 190-260 of `setup` on rank `comm_rank`: ordinals, target map, box test, rendezvous
ranks and the pruning of the out-of-box points. -/
def targetSide {α : Type} [Inhabited α] [LinearOrder α] (ordMax d_dimension : Nat)
    (store_missed_points : Bool) (rendezvous : Rendezvous α) (comm_rank global_max : Nat)
    (target_coord_manager : Option (Field α)) (g2l : List (Nat × Nat)) (missed : List Nat) :
    Except Failure (TargetSide α) :=
  if d_dimension = 0 then .error .undefined
  else
  let local_size := match target_coord_manager with
    | some field => field.values.length / field.dim
    | none => 0
  let ordinals := computePointOrdinals ordMax comm_rank global_max store_missed_points
    local_size g2l
  let target_ordinals := ordinals.1
  let in_box : Except Failure (List α × List Nat × List Nat) :=
    match target_coord_manager with
    | some field =>
      match getTargetPointsInBox ordMax store_missed_points rendezvous.getBox field
          target_ordinals missed with
      | .ok r => .ok (field.values, r.1, r.2)
      | .error e => .error e
    | none => .ok ([], [], missed)
  match in_box with
  | .error e => .error e
  | .ok (coords_copy, targets_in_box, missed1) =>
    let rendezvous_procs := rendezvous.procsContainingPoints d_dimension coords_copy
    let not_in_box := (indicesOf (invalidOrdinal ordMax) targets_in_box 0).reverse
    let pruned := pruneLoop d_dimension not_in_box rendezvous_procs coords_copy
    if pruned.2.length % d_dimension ≠ 0 then .error .invariant
    else if pruned.1.length ≠ pruned.2.length / d_dimension then .error .invariant
    else
      .ok { target_ordinals := target_ordinals
            d_target_g2l := ordinals.2
            d_missed_points := missed1
            targets_in_box := stdRemove (invalidOrdinal ordMax) targets_in_box
            rendezvous_procs := pruned.1
            coords_copy := pruned.2 }

/-- The local arrays of a rendezvous rank after the search for the target points
(lines 290-347 of `setup`). -/
structure RendezvousSearch where
  rendezvous_elements : List Nat
  rendezvous_element_src_procs : List Int
  not_in_mesh : List Nat
  missed_in_mesh_ordinal : List Nat
  missed_target_procs : List Int

/-- Lines 290-347 of `setup` on rank `comm_rank`: the search of the rendezvous
decomposition, the indices of the points found in no element and, when missed points are
stored, their ordinals and the target ranks they came from (`images_lengths` is the
content of `getImagesFrom` and `getLengthsFrom`). -/
def rendezvousSearch {α : Type} [Inhabited α] (ordMax d_dimension : Nat)
    (store_missed_points : Bool) (rendezvous : Rendezvous α) (tolerance : α) (comm_rank : Nat)
    (images_lengths : List (Nat × Nat)) (num_rendezvous_points : Nat)
    (rendezvous_points : List Nat) (rendezvous_coords : List α) :
    Except Failure RendezvousSearch :=
  let found := rendezvous.elementsContainingPoints d_dimension comm_rank tolerance
    rendezvous_coords
  let rendezvous_elements := found.1
  let not_in_mesh := indicesOf (invalidOrdinal ordMax) rendezvous_elements 0
  if store_missed_points then
    let missed_in_mesh_idx := not_in_mesh
    let missed_in_mesh_ordinal := missed_in_mesh_idx.map (fun i => rendezvous_points.getD i 0)
    let point_target_procs : List Int :=
      images_lengths.flatMap (fun il => List.replicate il.2 (il.1 : Int))
    if point_target_procs.length ≠ num_rendezvous_points then .error .invariant
    else
      .ok { rendezvous_elements := rendezvous_elements
            rendezvous_element_src_procs := found.2
            not_in_mesh := not_in_mesh
            missed_in_mesh_ordinal := missed_in_mesh_ordinal
            missed_target_procs := missed_in_mesh_idx.map (fun i => point_target_procs.getD i 0) }
  else
    .ok { rendezvous_elements := rendezvous_elements
          rendezvous_element_src_procs := found.2
          not_in_mesh := not_in_mesh
          missed_in_mesh_ordinal := []
          missed_target_procs := [] }

/-- Lines 364-370 of `setup`: the received ordinals of missed points are converted to
local indices with `d_target_g2l.find( ordinal )->second` and appended to
`d_missed_points`. -/
def addMissedPoints (g2l : List (Nat × Nat)) (missed : List Nat) (received : List Nat) :
    Except Failure (List Nat) :=
  if received.all (fun g => (g2lFind g2l g).isSome) then
    .ok (missed ++ received.map (fun g => (g2lFind g2l g).getD 0))
  else .error .undefined

/-- The local arrays of a rendezvous rank after the pruning of the points found in no
element (lines 375-414 of `setup`). -/
structure RendezvousSide (α : Type) where
  rendezvous_points : List Nat
  rendezvous_coords : List α
  rendezvous_elements : List Nat
  rendezvous_element_src_procs : List Int

/-- Lines 375-414 of `setup` on one rank: the removal loop over the reversed `not_in_mesh`,
the two size checks, `std::remove` of the invalid ordinal and of `-1`, and the check that
as many elements as source ranks remain. -/
def rendezvousPrune {α : Type} (ordMax d_dimension : Nat) (search : RendezvousSearch)
    (rendezvous_points : List Nat) (rendezvous_coords : List α) :
    Except Failure (RendezvousSide α) :=
  let pruned := pruneLoop d_dimension search.not_in_mesh.reverse rendezvous_points
    rendezvous_coords
  if pruned.2.length % d_dimension ≠ 0 then .error .invariant
  else if pruned.1.length ≠ pruned.2.length / d_dimension then .error .invariant
  else
    let rendezvous_elements := stdRemove (invalidOrdinal ordMax) search.rendezvous_elements
    let rendezvous_element_src_procs := stdRemove (-1) search.rendezvous_element_src_procs
    if rendezvous_elements.length ≠ rendezvous_element_src_procs.length then .error .invariant
    else
      .ok { rendezvous_points := pruned.1
            rendezvous_coords := pruned.2
            rendezvous_elements := rendezvous_elements
            rendezvous_element_src_procs := rendezvous_element_src_procs }

/-- One `doPostsAndWaits` per dimension, as in the two coordinate loops of `setup`: the
block `coords( d*num_points, num_points )` of every rank is sent along the plan
(`num_points` holds the number of points of every rank), and the received blocks of a
rank, dimension after dimension, make its new block-strided array. -/
def sendCoords {α : Type} (d_dimension : Nat) (plan : List (List Int)) (num_points : List Nat)
    (coords : List (List α)) : List (List α) :=
  (List.range plan.length).map (fun q =>
    (List.range d_dimension).flatMap (fun d =>
      (doPostsAndWaits plan
        ((num_points.zip coords).map (fun nc => dimBlock nc.2 nc.1 d))).getD q []))

/-- Every block `coords( d*num_points, num_points )` has as many entries as the plan has
destinations on the rank. -/
def coordsFit {α : Type} (d_dimension : Nat) (plan : List (List Int)) (num_points : List Nat)
    (coords : List (List α)) : Bool :=
  (List.range d_dimension).all (fun d =>
    sendsFit plan ((num_points.zip coords).map (fun nc => dimBlock nc.2 nc.1 d)))

/-- The shared-domain box of lines 136-184 of `setup`: the source box of source rank 0 and
the target box of target rank 0 are intersected on source rank 0, `DTK_INSIST` demands an
intersection, and the result is broadcast. -/
def sharedDomainBox {α : Type} [LinearOrder α] (env : Env α) (d_dimension : Nat)
    (source_mesh_manager : List (Option (MeshManager α)))
    (target_coord_manager : List (Option (Field α))) : Except Failure (BoundingBox α) :=
  match l2g0 (source_mesh_manager.map Option.isSome),
      l2g0 (target_coord_manager.map Option.isSome) with
  | some source_root, some _ =>
    match source_mesh_manager.getD source_root none with
    | some manager =>
      let source_box := manager.globalBoundingBox
      let target_box := coordGlobalBoundingBox env.lowest env.highest d_dimension
        (target_coord_manager.filterMap id)
      let intersection := BoundingBox.intersectBoxes source_box target_box
      if intersection.1 then .ok intersection.2 else .error .insist
    | none => .error .library
  | _, _ => .error .library

/-- The local number of target points of `computePointOrdinals` on every rank: the number
of coordinates divided by the point dimension, 0 on a rank without target. -/
def localSizes {α : Type} (comm_size : Nat) (target_coord_manager : List (Option (Field α))) :
    List Nat :=
  (List.range comm_size).map (fun r =>
    match target_coord_manager.getD r none with
    | some field => field.values.length / field.dim
    | none => 0)

/-- Lines 190-260 of `setup` on all ranks. -/
def setupTargetSides {α : Type} [Inhabited α] [LinearOrder α] (env : Env α)
    (map : SharedDomainMap α) (rendezvous : Rendezvous α)
    (target_coord_manager : List (Option (Field α))) : Except Failure (List (TargetSide α)) :=
  allRanks ((List.range map.comm_size).map (fun r =>
    targetSide env.ordMax map.d_dimension map.d_store_missed_points rendezvous r
      (reduceAllMax (localSizes map.comm_size target_coord_manager))
      (target_coord_manager.getD r none) (map.d_target_g2l.getD r [])
      (map.d_missed_points.getD r [])))

/-- The arrays on the rendezvous ranks after the target-to-rendezvous distributor
(lines 262-288 of `setup`): the received ordinals and the received coordinates. -/
structure Received (α : Type) where
  plan : List (List Int)
  rendezvous_points : List (List Nat)
  rendezvous_coords : List (List α)

/-- Lines 262-288 of `setup`: `createFromSends( rendezvous_procs() )`, then the ordinals
and, dimension by dimension, the coordinates are moved to the rendezvous decomposition. -/
def setupDistribute {α : Type} (d_dimension : Nat) (tsides : List (TargetSide α)) :
    Except Failure (Received α) :=
  let plan := tsides.map (·.rendezvous_procs)
  if validSends plan && sendsFit plan (tsides.map (·.targets_in_box))
      && coordsFit d_dimension plan (tsides.map (·.rendezvous_procs.length))
        (tsides.map (·.coords_copy)) then
    .ok { plan := plan
          rendezvous_points := doPostsAndWaits plan (tsides.map (·.targets_in_box))
          rendezvous_coords := sendCoords d_dimension plan
            (tsides.map (·.rendezvous_procs.length)) (tsides.map (·.coords_copy)) }
  else .error .library

/-- Lines 290-347 of `setup` on all ranks. -/
def setupSearches {α : Type} [Inhabited α] (env : Env α) (map : SharedDomainMap α)
    (rendezvous : Rendezvous α) (tolerance : α) (received : Received α) :
    Except Failure (List RendezvousSearch) :=
  allRanks ((List.range map.comm_size).map (fun q =>
    rendezvousSearch env.ordMax map.d_dimension map.d_store_missed_points rendezvous tolerance
      q (imagesAndLengthsFrom received.plan q) ((createFromSends received.plan).getD q 0)
      (received.rendezvous_points.getD q []) (received.rendezvous_coords.getD q [])))

/-- Lines 320-371 of `setup` on all ranks: when missed points are stored, the ordinals of
the points found in no element go back to their target ranks through a second distributor
and are added, as local indices, to `d_missed_points`. -/
def setupMissed {α : Type} (map : SharedDomainMap α) (tsides : List (TargetSide α))
    (searches : List RendezvousSearch) : Except Failure (List (List Nat)) :=
  let missed_plan := searches.map (·.missed_target_procs)
  let missed_received := doPostsAndWaits missed_plan (searches.map (·.missed_in_mesh_ordinal))
  if map.d_store_missed_points then
    if validSends missed_plan
        && sendsFit missed_plan (searches.map (·.missed_in_mesh_ordinal)) then
      allRanks ((List.range map.comm_size).map (fun r =>
        addMissedPoints ((tsides.map (·.d_target_g2l)).getD r [])
          ((tsides.map (·.d_missed_points)).getD r []) (missed_received.getD r [])))
    else .error .library
  else .ok (tsides.map (·.d_missed_points))

/-- Lines 375-414 of `setup` on all ranks. -/
def setupPrunes {α : Type} (env : Env α) (map : SharedDomainMap α)
    (received : Received α) (searches : List RendezvousSearch) :
    Except Failure (List (RendezvousSide α)) :=
  allRanks ((List.range map.comm_size).map (fun q =>
    match searches.get? q with
    | some search => rendezvousPrune env.ordMax map.d_dimension search
        (received.rendezvous_points.getD q []) (received.rendezvous_coords.getD q [])
    | none => .error .library))

/-- Lines 416-464 of `setup`: the rendezvous-to-source distributor moves the element
handles, the ordinals and the coordinates to the source decomposition; the source map is
made from the received ordinals. -/
def setupFinish {α : Type} (map : SharedDomainMap α) (source_root : Option Nat)
    (tsides : List (TargetSide α)) (d_missed_points : List (List Nat))
    (rsides : List (RendezvousSide α)) : Except Failure (SharedDomainMap α) :=
  let plan := rsides.map (·.rendezvous_element_src_procs)
  if validSends plan && sendsFit plan (rsides.map (·.rendezvous_elements))
      && sendsFit plan (rsides.map (·.rendezvous_points))
      && coordsFit map.d_dimension plan (rsides.map (·.rendezvous_points.length))
        (rsides.map (·.rendezvous_coords)) then
    .ok { comm_size := map.comm_size
          d_dimension := map.d_dimension
          d_store_missed_points := map.d_store_missed_points
          d_missed_points := d_missed_points
          d_target_g2l := tsides.map (·.d_target_g2l)
          d_source_elements := doPostsAndWaits plan (rsides.map (·.rendezvous_elements))
          d_target_coords := sendCoords map.d_dimension plan
            (rsides.map (·.rendezvous_points.length)) (rsides.map (·.rendezvous_coords))
          d_source_map := doPostsAndWaits plan (rsides.map (·.rendezvous_points))
          d_target_map := tsides.map (·.target_ordinals)
          d_source_indexer := source_root }
  else .error .library

/-- The checks `DTK_REQUIRE( source_mesh_manager->dim() == d_dimension )` and
`DTK_REQUIRE( CFT::dim( *target_coord_manager->field() ) == d_dimension )` of the ranks
that have a source or a target. -/
def dimensionsAgree {α : Type} (map : SharedDomainMap α)
    (source_mesh_manager : List (Option (MeshManager α)))
    (target_coord_manager : List (Option (Field α))) : Bool :=
  (List.range map.comm_size).all (fun r =>
    (match source_mesh_manager.getD r none with
      | some manager => decide (manager.dim = map.d_dimension)
      | none => true) &&
    (match target_coord_manager.getD r none with
      | some field => decide (field.dim = map.d_dimension)
      | none => true))

/-- The function `SharedDomainMap::setup( source_mesh_manager, target_coord_manager,
tolerance )` on all ranks of the communicator; the two managers are given per rank, `none`
being the null `RCP`. -/
def setup {α : Type} [Inhabited α] [LinearOrder α] (env : Env α) (map : SharedDomainMap α)
    (source_mesh_manager : List (Option (MeshManager α)))
    (target_coord_manager : List (Option (Field α))) (tolerance : α) :
    Except Failure (SharedDomainMap α) :=
  let source := (List.range map.comm_size).map (fun r => source_mesh_manager.getD r none)
  let target := (List.range map.comm_size).map (fun r => target_coord_manager.getD r none)
  if ¬ dimensionsAgree map source_mesh_manager target_coord_manager then .error .precondition
  else
    match sharedDomainBox env map.d_dimension source target with
    | .error e => .error e
    | .ok shared_domain_box =>
      let rendezvous := env.buildRendezvous shared_domain_box
      match setupTargetSides env map rendezvous target_coord_manager with
      | .error e => .error e
      | .ok tsides =>
        match setupDistribute map.d_dimension tsides with
        | .error e => .error e
        | .ok received =>
          match setupSearches env map rendezvous tolerance received with
          | .error e => .error e
          | .ok searches =>
            match setupMissed map tsides searches with
            | .error e => .error e
            | .ok d_missed_points =>
              match setupPrunes env map received searches with
              | .error e => .error e
              | .ok rsides =>
                setupFinish map (l2g0 (source.map Option.isSome)) tsides d_missed_points rsides

/-- Modelled from the spec: the argument checks of `Tpetra::createMultiVectorFromView(
map, view, LDA, numVectors )`, an external routine: at least one vector, a leading
dimension that covers the local entries of the map, and a view long enough for them. -/
def multiVectorFits (local_length view_size lda num_vectors : Nat) : Bool :=
  decide (1 ≤ num_vectors) && decide (local_length ≤ lda)
    && decide (lda * (num_vectors - 1) + local_length ≤ view_size)

/-- Modelled from the spec: the entries that `doExport` with `Tpetra::INSERT` writes on a
target rank (step 4 of section 4.8): for every source rank `s`, every local index `i` of
its source map and every vector `d`, the value `source[d*lda_s + i]` goes to the slot
`d*target_lda + j` where `j` is the local index of the same global ordinal in the target
map of the rank; an ordinal the rank does not own gives no entry. -/
def exportEntries {β : Type} [Inhabited β] (source_maps : List (List Nat))
    (source_views : List (List β)) (source_ldas : List Nat) (num_vectors : Nat)
    (target_map : List Nat) (target_lda : Nat) : List (Nat × β) :=
  (List.range source_maps.length).flatMap (fun s =>
    (List.range (source_maps.getD s []).length).flatMap (fun i =>
      if (source_maps.getD s []).getD i 0 ∈ target_map then
        (List.range num_vectors).map (fun d =>
          (d * target_lda + target_map.indexOf ((source_maps.getD s []).getD i 0),
            (source_views.getD s []).getD (d * source_ldas.getD s 0 + i) default))
      else []))

/-- Modelled from the spec: `target_vector->doExport( *source_vector, exporter,
Tpetra::INSERT )` on a target rank: the entries are written into the target view one
after the other. -/
def doExport {β : Type} [Inhabited β] (source_maps : List (List Nat))
    (source_views : List (List β)) (source_ldas : List Nat) (num_vectors : Nat)
    (target_map : List Nat) (target_lda : Nat) (target_view : List β) : List β :=
  (exportEntries source_maps source_views source_ldas num_vectors target_map target_lda).foldl
    (fun view entry => view.set entry.1 entry.2) target_view

/-- The field `function_evaluations` of rank `r` in `apply`: the evaluator of the rank
called with `d_source_elements` and `d_target_coords`; `none` on a rank without source. -/
def functionEvaluations {α β : Type} (map : SharedDomainMap α)
    (source_evaluator : List (Option (List Nat → List α → Field β))) (r : Nat) :
    Option (Field β) :=
  (source_evaluator.getD r none).map (fun evaluate =>
    evaluate (map.d_source_elements.getD r []) (map.d_target_coords.getD r []))

/-- The array `source_field_copy` of rank `r` in `apply`: the copy of the function
evaluations, empty on a rank without source. -/
def sourceFieldCopy {α β : Type} (map : SharedDomainMap α)
    (source_evaluator : List (Option (List Nat → List α → Field β))) (r : Nat) : List β :=
  match functionEvaluations map source_evaluator r with
  | some field => field.values
  | none => []

/-- The value of `field_dim` on every rank after `Teuchos::broadcast` from source rank 0:
the dimension of the function evaluations of that rank, 0 if it has no evaluator; `none`
when there is no source rank 0. -/
def broadcastFieldDim {α β : Type} (map : SharedDomainMap α)
    (source_evaluator : List (Option (List Nat → List α → Field β))) : Option Nat :=
  map.d_source_indexer.map (fun source_root =>
    match functionEvaluations map source_evaluator source_root with
    | some field => field.dim
    | none => 0)

/-- The function `SharedDomainMap::apply( source_evaluator, target_space_manager )` on all
ranks.  An evaluator is the function `evaluate( elements, coords )`; the arguments are
given per rank, `none` being the null `RCP`.  Returns the target field of every rank. -/
def apply {α β : Type} [Inhabited β] [Zero β] (map : SharedDomainMap α)
    (source_evaluator : List (Option (List Nat → List α → Field β)))
    (target_space_manager : List (Option (Field β))) :
    Except Failure (List (Option (Field β))) :=
  let ranks := List.range map.comm_size
  match broadcastFieldDim map source_evaluator with
  | none => .error .library
  | some field_dim =>
  -- GlobalOrdinal source_size = source_field_copy.size() / field_dim
  if field_dim = 0 then .error .undefined
  else
  let source_size : Nat → Nat := fun r =>
    (sourceFieldCopy map source_evaluator r).length / field_dim
  if ranks.any (fun r => ! multiVectorFits (map.d_source_map.getD r []).length
      (sourceFieldCopy map source_evaluator r).length (source_size r) field_dim) then
    .error .library
  else
  let target_size : Nat → Nat := fun r =>
    match target_space_manager.getD r none with
    | some field => field.values.length / field_dim
    | none => 0
  -- DTK_CHECK( target_size == d_target_map->getNodeNumElements() )
  if ranks.any (fun r => (target_space_manager.getD r none).isSome
      && decide (target_size r ≠ (map.d_target_map.getD r []).length)) then .error .invariant
  else if ranks.any (fun r => ! multiVectorFits (map.d_target_map.getD r []).length
      (match target_space_manager.getD r none with
        | some field => field.values.length
        | none => 0)
      (target_size r) field_dim) then .error .library
  else
  .ok (ranks.map (fun r =>
    (target_space_manager.getD r none).map (fun field =>
      { field with
        values := doExport map.d_source_map (ranks.map (sourceFieldCopy map source_evaluator))
          (ranks.map source_size) field_dim (map.d_target_map.getD r []) (target_size r)
          -- FieldTools::putScalar( field, 0.0 )
          (List.replicate field.values.length 0) })))

/-! ## Specification functions used by the theorems -/

/-- The block-strided array of a list of points: for each dimension `d < dim` in turn, the
coordinate `c d k` of every point `k` of the list. -/
def blockStrided {α κ : Type} (dim : Nat) (idx : List κ) (c : Nat → κ → α) : List α :=
  (List.range dim).flatMap (fun d => idx.map (c d))

/-- The ordinal that `computePointOrdinals` gives to the local index `n` on rank `r`. -/
def pointOrdinal (ordMax r global_max n : Nat) : Nat := (r * global_max + n) % (ordMax + 1)

/-- The number of target points of a rank: `dimSize` of its field, 0 without target. -/
def targetCount {α : Type} (target : Option (Field α)) : Nat :=
  match target with
  | some field => field.dimSize
  | none => 0

/-- The coordinate `d` of the target point `n` of a rank, read from the block-strided
field of the rank. -/
def targetCoord {α : Type} [Inhabited α] (target : Option (Field α)) (d n : Nat) : α :=
  match target with
  | some field => field.values.getD (field.dimSize * d + n) default
  | none => default

/-- The target point `n` of a rank, with `dim` coordinates. -/
def targetPoint {α : Type} [Inhabited α] (target : Option (Field α)) (dim n : Nat) : List α :=
  (List.range dim).map (fun d => targetCoord target d n)

/-- The entry `n` of `targets_in_box`: the ordinal of the point if it is in the box, the
invalid ordinal otherwise. -/
def inBoxEntry {α : Type} [Inhabited α] [LinearOrder α] (ordMax dim : Nat) (box : BoundingBox α)
    (r global_max : Nat) (target : Option (Field α)) (n : Nat) : Nat :=
  if box.pointInBox (targetPoint target dim n) then pointOrdinal ordMax r global_max n
  else invalidOrdinal ordMax

/-- The local indices of the target points of a rank that survive the out-of-box pruning,
in increasing order. -/
def keptPoints {α : Type} [Inhabited α] [LinearOrder α] (ordMax dim : Nat) (box : BoundingBox α)
    (r global_max : Nat) (target : Option (Field α)) : List Nat :=
  (List.range (targetCount target)).filter (fun n =>
    inBoxEntry ordMax dim box r global_max target n != invalidOrdinal ordMax)

/-- The target points that arrive on the rendezvous rank `q`, as pairs (target rank, local
index), in the order of arrival: by target rank, then by local index. -/
def atRendezvous {α : Type} [Inhabited α] [LinearOrder α] (ordMax dim comm_size global_max : Nat)
    (rv : Rendezvous α) (target : List (Option (Field α))) (q : Nat) : List (Nat × Nat) :=
  (List.range comm_size).flatMap (fun r =>
    ((keptPoints ordMax dim rv.getBox r global_max (target.getD r none)).filter
      (fun n => rv.getDestinationProc (targetPoint (target.getD r none) dim n) == (q : Int))).map
      (fun n => (r, n)))

/-- The result of the element search of the rendezvous rank `q` for the target point
`x = (target rank, local index)`. -/
def searchResult {α : Type} [Inhabited α] (dim : Nat) (rv : Rendezvous α)
    (target : List (Option (Field α))) (tolerance : α) (q : Nat) (x : Nat × Nat) : Nat × Int :=
  rv.findElement q tolerance (targetPoint (target.getD x.1 none) dim x.2)

/-- The target points on the rendezvous rank `q` that were found in an element. -/
def foundAtRendezvous {α : Type} [Inhabited α] [LinearOrder α]
    (ordMax dim comm_size global_max : Nat) (rv : Rendezvous α)
    (target : List (Option (Field α))) (tolerance : α) (q : Nat) : List (Nat × Nat) :=
  (atRendezvous ordMax dim comm_size global_max rv target q).filter
    (fun x => (searchResult dim rv target tolerance q x).1 != invalidOrdinal ordMax)

/-- The target points that arrive on the source rank `s`, as triples (rendezvous rank,
target rank, local index), in the order of arrival. -/
def atSource {α : Type} [Inhabited α] [LinearOrder α] (ordMax dim comm_size global_max : Nat)
    (rv : Rendezvous α) (target : List (Option (Field α))) (tolerance : α) (s : Nat) :
    List (Nat × Nat × Nat) :=
  (List.range comm_size).flatMap (fun q =>
    ((foundAtRendezvous ordMax dim comm_size global_max rv target tolerance q).filter
      (fun x => (searchResult dim rv target tolerance q x).2 == (s : Int))).map
      (fun x => (q, x)))

/-- The rendezvous rank to which `setup` sends the target point `n` of rank `r`. -/
def rendezvousRank {α : Type} [Inhabited α] (dim : Nat) (rv : Rendezvous α)
    (target : List (Option (Field α))) (r n : Nat) : Nat :=
  (rv.getDestinationProc (targetPoint (target.getD r none) dim n)).toNat

/-- The target point `n` of rank `r` is mapped: it lies in the box of the rendezvous
decomposition and the search on its rendezvous rank finds an element for it. -/
def isMapped {α : Type} [Inhabited α] [LinearOrder α] (ordMax dim : Nat) (rv : Rendezvous α)
    (target : List (Option (Field α))) (tolerance : α) (r n : Nat) : Bool :=
  rv.getBox.pointInBox (targetPoint (target.getD r none) dim n) &&
    (searchResult dim rv target tolerance (rendezvousRank dim rv target r n) (r, n)).1
      != invalidOrdinal ordMax

/-! ## A two-rank example

Rank 0 holds the source mesh, one element with the handle 7 in the box `[0,10]^3`; rank 1
holds four target points.  The rendezvous decomposition keeps the shared-domain box, sends
a point to rank 0 when `x <= 5` and to rank 1 otherwise, and finds element 7 of source
rank 0 for the points with `z <= 8`. -/

/-- The rendezvous decomposition of the example. -/
def exampleRendezvous (box : BoundingBox ℤ) : Rendezvous ℤ where
  getBox := box
  getDestinationProc := fun p => if p.getD 0 0 ≤ 5 then 0 else 1
  findElement := fun _ _ p => if p.getD 2 0 ≤ 8 then (7, 0) else (2 ^ 64 - 1, -1)

/-- The surroundings of the example: 64-bit ordinals. -/
def exampleEnv : Env ℤ where
  ordMax := 2 ^ 64 - 1
  lowest := -1000000
  highest := 1000000
  buildRendezvous := exampleRendezvous

/-- The source mesh managers of the example. -/
def exampleSource : List (Option (MeshManager ℤ)) := [some ⟨3, ⟨0, 0, 0, 10, 10, 10⟩⟩, none]

/-- The target points of the example: (5,5,5), (20,20,20), (1,1,9) and (7,2,3) on rank 1. -/
def exampleTarget : List (Option (Field ℤ)) :=
  [none, some ⟨3, [5, 20, 1, 7, 5, 20, 1, 2, 5, 20, 9, 3]⟩]

/-- The map of the example after `setup`. -/
def exampleMap : SharedDomainMap ℤ where
  comm_size := 2
  d_dimension := 3
  d_store_missed_points := true
  d_missed_points := [[], [1, 2]]
  d_target_g2l := [[], [(4, 0), (5, 1), (6, 2), (7, 3)]]
  d_source_elements := [[7, 7], []]
  d_target_coords := [[5, 7, 5, 2, 5, 3], []]
  d_source_map := [[4, 7], []]
  d_target_map := [[], [4, 5, 6, 7]]
  d_source_indexer := some 0

/-- The function `SharedDomainMap::getMissedTargetPoints` on rank `rank` (both
overloads): `DTK_REQUIRE( d_store_missed_points )`, then the view `d_missed_points()`. -/
def getMissedTargetPoints {α : Type} (map : SharedDomainMap α) (rank : Nat) :
    Except Failure (List Nat) :=
  if map.d_store_missed_points then .ok (map.d_missed_points.getD rank [])
  else .error .precondition

/-! ## The out-of-box scenario

One rank holds a source mesh that fills `[0,1]^3`, a single element with the handle 1, and
the target points. -/

/-- The source mesh manager of the scenario: dimension 3, global box `[0,1]^3`. -/
def unitCubeSource : List (Option (MeshManager ℚ)) := [some ⟨3, ⟨0, 0, 0, 1, 1, 1⟩⟩]

/-- The rendezvous decomposition of the scenario: the box is kept, every point goes to
rank 0, and the search finds element 1 of source rank 0 for the points of `[0,1]^3`. -/
def unitCubeRendezvous (box : BoundingBox ℚ) : Rendezvous ℚ where
  getBox := box
  getDestinationProc := fun _ => 0
  findElement := fun _ _ p =>
    if BoundingBox.pointInBox ⟨0, 0, 0, 1, 1, 1⟩ p then (1, 0) else (2 ^ 64 - 1, -1)

/-- The surroundings of the scenario: 64-bit ordinals. -/
def unitCubeEnv : Env ℚ where
  ordMax := 2 ^ 64 - 1
  lowest := -1000000
  highest := 1000000
  buildRendezvous := unitCubeRendezvous

/-- The map of the scenario after `setup` with the target points (2,2,2) and (1,1,1). -/
def unitCubeMap : SharedDomainMap ℚ where
  comm_size := 1
  d_dimension := 3
  d_store_missed_points := true
  d_missed_points := [[0]]
  d_target_g2l := [[(0, 0), (1, 1)]]
  d_source_elements := [[1]]
  d_target_coords := [[1, 1, 1]]
  d_source_map := [[1]]
  d_target_map := [[0, 1]]
  d_source_indexer := some 0

/-! ## The box exchange of `setup` on one rank -/

/-- The operations on `d_comm` that lines 151-184 of `setup` post for the bounding boxes:
the receive and the send of the target box, the wait for the receive, and the broadcast of
the shared-domain box. -/
inductive BoxOperation where
  | ireceive
  | isend
  | wait
  | broadcast
  deriving DecidableEq, Repr

/-- Lines 118-184 of `setup` on rank `comm_rank`: the indexers are assigned, the dimensions
of the managers of the rank are checked with `DTK_REQUIRE`, the receive is posted on source
rank 0 and the send on target rank 0, source rank 0 waits, intersects the boxes and insists
on an intersection, and the shared-domain box is broadcast.  Returns the outcome (the
shared-domain box), the box operations the rank has posted, in order, and the members of
the map when the rank leaves these lines. -/
def setupBoxExchange {α : Type} [LinearOrder α] (env : Env α) (map : SharedDomainMap α)
    (comm_rank : Nat) (source_mesh_manager : List (Option (MeshManager α)))
    (target_coord_manager : List (Option (Field α))) :
    Except Failure (BoundingBox α) × List BoxOperation × SharedDomainMap α :=
  let source := (List.range map.comm_size).map (fun r => source_mesh_manager.getD r none)
  let target := (List.range map.comm_size).map (fun r => target_coord_manager.getD r none)
  let source_root := l2g0 (source.map Option.isSome)
  let target_root := l2g0 (target.map Option.isSome)
  -- d_source_indexer = CommIndexer( d_comm, source_comm )
  let map1 := { map with d_source_indexer := source_root }
  let source_agrees : Bool := match source.getD comm_rank none with
    | some manager => decide (manager.dim = map.d_dimension)
    | none => true
  let target_agrees : Bool := match target.getD comm_rank none with
    | some field => decide (field.dim = map.d_dimension)
    | none => true
  if ¬ source_agrees then (.error .precondition, [], map1)
  else if ¬ target_agrees then (.error .precondition, [], map1)
  else
    let receive := if some comm_rank = source_root then [BoxOperation.ireceive] else []
    let send := if some comm_rank = target_root then [BoxOperation.isend] else []
    let shared_domain_box := sharedDomainBox env map.d_dimension source target
    if some comm_rank = source_root then
      match shared_domain_box with
      | .ok box => (.ok box, receive ++ send ++ [.wait, .broadcast], map1)
      | .error e => (.error e, receive ++ send ++ [.wait], map1)
    else (shared_domain_box, receive ++ send ++ [.broadcast], map1)

/-! ## The spline interpolator (`DTK_SplineInterpolator_impl.hpp`) -/

/-- The status `Belos::ReturnType` of a solve. -/
inductive ReturnType where
  | Converged
  | Unconverged
  deriving DecidableEq, Repr

/-- The call `std::copy( source_data.begin(), source_data.end(), vec_data.begin() + offset )`
on a column of the right-hand side; `none` when the copy would write past the end of the
column, which is undefined. -/
def copyInto {β : Type} (vec_data : List β) (offset : Nat) (source_data : List β) :
    Option (List β) :=
  if offset + source_data.length ≤ vec_data.length then
    some (vec_data.take offset ++ source_data ++ vec_data.drop (offset + source_data.length))
  else none

/-- The loop `for ( int i = 0; i < num_source_dims; ++i )` of `interpolate` over the columns
of `source_vec`: the whole of `source_data` is copied into every column at `offset`. -/
def copyColumns {β : Type} (offset : Nat) (source_data : List β) :
    List (List β) → Option (List (List β))
  | [] => some []
  | vec_data :: rest =>
    match copyInto vec_data offset source_data with
    | none => none
    | some column =>
      match copyColumns offset source_data rest with
      | none => none
      | some columns => some (column :: columns)

/-- The members of a `SplineInterpolator<Basis,GO,DIM>` as one rank sees them: the rank in
`d_comm`, the local lengths of the domain map of `d_C` and of the range map of `d_A`, the
GMRES solve of `d_C x = b` (from the columns of the right-hand side to the status and the
columns of the solution) and the product with `d_A`. -/
structure SplineInterpolator (β : Type) where
  DIM : Nat
  comm_rank : Nat
  domain_length : Nat
  range_length : Nat
  solve : List (List β) → ReturnType × List (List β)
  applyA : List (List β) → List (List β)

/-- The multivector `source_vec` of `interpolate` after the copy loop: `num_source_dims`
zero columns over the domain map of `d_C`, each overwritten from position `1 + DIM` on
rank 0 and from position 0 on the other ranks. -/
def rightHandSide {β : Type} [Zero β] (s : SplineInterpolator β) (source_data : List β)
    (num_source_dims : Nat) : Option (List (List β)) :=
  copyColumns (if s.comm_rank = 0 then 1 + s.DIM else 0) source_data
    (List.replicate num_source_dims (List.replicate s.domain_length 0))

/-- The entries that a multivector over a view with the leading dimension `lda` writes:
entry `j` of column `d` goes to the slot `d*lda + j`. -/
def writeView {β : Type} (lda : Nat) (columns : List (List β)) (view : List β) : List β :=
  (columns.enum.flatMap (fun dc => dc.2.enum.map (fun jv => (dc.1 * lda + jv.1, jv.2)))).foldl
    (fun v entry => v.set entry.1 entry.2) view

/-- The function `SplineInterpolator::interpolate` on one rank; the three `int` arguments
are taken non-negative.  Returns the outcome and the content of `target_data` when the
function is left.  The multivectors need at least one column (the argument checks of
Tpetra), the copy into the right-hand side must stay inside its columns, and
`DTK_INSIST( Belos::Converged == rt )` follows the solve. -/
def interpolate {β : Type} [Zero β] (s : SplineInterpolator β) (source_data : List β)
    (num_source_dims source_lda : Nat) (target_data : List β)
    (num_target_dims target_lda : Nat) : Except Failure Unit × List β :=
  if num_source_dims ≠ num_target_dims then (.error .precondition, target_data)
  else if source_data.length ≠ source_lda * num_source_dims then
    (.error .precondition, target_data)
  else if target_data.length ≠ target_lda * num_target_dims then
    (.error .precondition, target_data)
  else if num_source_dims < 1 then (.error .library, target_data)
  else
    match rightHandSide s source_data num_source_dims with
    | none => (.error .undefined, target_data)
    | some source_vec =>
      let solved := s.solve source_vec
      if solved.1 ≠ .Converged then (.error .insist, target_data)
      else if ! multiVectorFits s.range_length target_data.length target_lda num_target_dims
      then (.error .library, target_data)
      else
        (.ok (), writeView target_lda
          (((s.applyA solved.2).take num_target_dims).map (·.take s.range_length)) target_data)

/-- An interpolator on rank 0 with `DIM = 1`, two source centres and two target centres; the
solve returns the right-hand side as the solution and converges exactly when the value of
the first centre is 5, and `d_A` picks the entries of the two centres. -/
def exampleInterpolator : SplineInterpolator ℤ where
  DIM := 1
  comm_rank := 0
  domain_length := 4
  range_length := 2
  solve := fun b => (if (b.getD 0 []).getD 2 0 = 5 then .Converged else .Unconverged, b)
  applyA := fun x => x.map (·.drop 2)

/-- The collective `Teuchos::reduceAll` with `REDUCE_SUM` over the values of type `GO` of all
ranks. -/
def reduceAllSum (ordMax : Nat) (values : List Nat) : Nat :=
  values.sum % (ordMax + 1)

/-- Modelled from the spec: the map that `Tpetra::createContigMap( global, local, comm )`
returns, a routine outside the repository: the global number of rows and the local number
of every rank; the rows of a rank are consecutive and follow those of the lower ranks. -/
structure ContigMap where
  global_num : Nat
  local_num : List Nat
  deriving DecidableEq, Repr

/-- Modelled from the spec: `Tpetra::Map::getMinGlobalIndex()` of a contiguous map on rank
`comm_rank`: the number of rows of the lower ranks. -/
def ContigMap.getMinGlobalIndex (ordMax : Nat) (m : ContigMap) (comm_rank : Nat) : Nat :=
  (m.local_num.take comm_rank).sum % (ordMax + 1)

/-- The value of `offset` in `buildOperators` on rank `comm_rank`: `DIM + 1` on rank 0 and
0 elsewhere. -/
def sourceOffset (ordMax DIM comm_rank : Nat) : Nat :=
  if comm_rank = 0 then (DIM + 1) % (ordMax + 1) else 0

/-- The maps and global ids that `buildOperators` makes, on all ranks, and the numbers of
rows and columns of the two operators. -/
structure SplineOperators where
  source_map : ContigMap
  source_gids : List (List Nat)
  target_map : ContigMap
  target_gids : List (List Nat)
  C_rows : Nat
  C_cols : Nat
  A_rows : Nat
  A_cols : Nat
  deriving DecidableEq, Repr

/-- The maps of `SplineInterpolator::buildOperators` on a communicator of `comm_size`
ranks; `source_centers` and `target_centers` hold the coordinate arrays of every rank and
`GO` has the largest value `ordMax`.  `SplineOperatorC` is an operator on the source map,
and `SplineOperatorA::create( target_map, source_map, ... )` has the target map as range
and the source map as domain. -/
def buildOperators {α : Type} (ordMax DIM comm_size : Nat)
    (source_centers target_centers : List (List α)) : SplineOperators :=
  let ranks := List.range comm_size
  -- local_num_src = source_centers.size() / DIM; local_num_src += offset
  let local_num_src := ranks.map (fun r =>
    (((source_centers.getD r []).length / DIM) % (ordMax + 1) + sourceOffset ordMax DIM r)
      % (ordMax + 1))
  let global_num_src := reduceAllSum ordMax local_num_src
  let source_map : ContigMap := ⟨global_num_src, local_num_src⟩
  let source_gids := ranks.map (fun r =>
    (List.range (local_num_src.getD r 0 - sourceOffset ordMax DIM r)).map (fun j =>
      (source_map.getMinGlobalIndex ordMax r + sourceOffset ordMax DIM r + j) % (ordMax + 1)))
  let local_num_tgt := ranks.map (fun r =>
    ((target_centers.getD r []).length / DIM) % (ordMax + 1))
  let global_num_tgt := reduceAllSum ordMax local_num_tgt
  let target_map : ContigMap := ⟨global_num_tgt, local_num_tgt⟩
  let target_gids := ranks.map (fun r =>
    (List.range (local_num_tgt.getD r 0)).map (fun j =>
      (target_map.getMinGlobalIndex ordMax r + j) % (ordMax + 1)))
  { source_map := source_map
    source_gids := source_gids
    target_map := target_map
    target_gids := target_gids
    C_rows := source_map.global_num
    C_cols := source_map.global_num
    A_rows := target_map.global_num
    A_cols := source_map.global_num }

/-- The number of centres of rank `r`: the length of its coordinate array over `DIM`. -/
def numCenters {α : Type} (DIM : Nat) (centers : List (List α)) (r : Nat) : Nat :=
  (centers.getD r []).length / DIM

/-- The global number of centres on `comm_size` ranks. -/
def globalNumCenters {α : Type} (DIM comm_size : Nat) (centers : List (List α)) : Nat :=
  ((List.range comm_size).map (numCenters DIM centers)).sum

/-! ## The number of linear nodes (`mesh/src/DTK_TopologyTools.cpp`) -/

/-- The function `TopologyTools::numLinearNodes( element_topology )` of
`mesh/src/DTK_TopologyTools.cpp`: the `switch` over the topology; the `default` case tests
the precondition with the message `"Invalid mesh topology"` and, if the test passed, would
return the initial value 0 of `num_nodes`.  A failure carries its kind and its message. -/
def numLinearNodes (element_topology : EntityType) : Except (Failure × String) Nat :=
  match element_topology with
  | .MBVERTEX => .ok 1
  | .MBEDGE => .ok 2
  | .MBTRI => .ok 3
  | .MBQUAD => .ok 4
  | .MBTET => .ok 4
  | .MBHEX => .ok 8
  | .MBPYRAMID => .ok 5
  | _ =>
    if element_topology = .MBEDGE ∨ element_topology = .MBTRI ∨ element_topology = .MBQUAD
        ∨ element_topology = .MBTET ∨ element_topology = .MBHEX
        ∨ element_topology = .MBPYRAMID then .ok 0
    else .error (.precondition, "Invalid mesh topology")

/-! ## Mesh blocks, their views and their bounding boxes

`MeshContainer`, `MeshTraits< MeshContainer >`, `MeshTools`, the field adapter of a mesh
and `MeshManager` are exercised by the unit tests of the repository; the definitions below
are made from the data model and the adapter contracts (sections 3, 4.1 and 6). -/

/-- The element topologies of a mesh block. -/
inductive ElementTopology where
  | DTK_LINE_SEGMENT
  | DTK_TRIANGLE
  | DTK_QUADRILATERAL
  | DTK_TETRAHEDRON
  | DTK_PYRAMID
  | DTK_WEDGE
  | DTK_HEXAHEDRON
  deriving DecidableEq, Repr

/-- Modelled from the spec: the mesh block `MeshContainer< GlobalOrdinal >`, whose class is
not part of the sources: the vertex dimension, the vertex handles, the block-strided
coordinates, the topology, the vertices per element, the element handles, the connectivity
and the permutation list, as the constructor receives them. -/
structure MeshContainer (α : Type) where
  d_vertex_dim : Nat
  d_vertices : List Nat
  d_coords : List α
  d_element_topology : ElementTopology
  d_vertices_per_element : Nat
  d_elements : List Nat
  d_connectivity : List Nat
  d_permutation_list : List Nat
  deriving DecidableEq, Repr

/-- A random access iterator into an array: the array and a position. -/
structure ArrayIterator (β : Type) where
  array : List β
  position : Nat
  deriving DecidableEq, Repr

/-- The iterator `it + i`. -/
def ArrayIterator.advance {β : Type} (it : ArrayIterator β) (i : Nat) : ArrayIterator β :=
  { it with position := it.position + i }

/-- The value `*it`, absent at the end of the array and beyond. -/
def ArrayIterator.deref {β : Type} (it : ArrayIterator β) : Option β :=
  it.array[it.position]?

/-- The values from `first` up to `last`: `*first`, `*(first + 1)`, ... -/
def ArrayIterator.values {β : Type} (first last : ArrayIterator β) : List β :=
  (List.range (last.position - first.position)).filterMap (fun i => (first.advance i).deref)

/-- Modelled from the spec: the accessors of `MeshContainer` (mesh adapter contract of
section 6): the three scalars and the begin and end iterators over the five arrays. -/
def MeshContainer.getVertexDim {α : Type} (mesh : MeshContainer α) : Nat := mesh.d_vertex_dim

/-- Modelled from the spec: `MeshContainer::getVerticesPerElement`. -/
def MeshContainer.getVerticesPerElement {α : Type} (mesh : MeshContainer α) : Nat :=
  mesh.d_vertices_per_element

/-- Modelled from the spec: `MeshContainer::getElementTopology`. -/
def MeshContainer.getElementTopology {α : Type} (mesh : MeshContainer α) : ElementTopology :=
  mesh.d_element_topology

/-- Modelled from the spec: `MeshContainer::verticesBegin`. -/
def MeshContainer.verticesBegin {α : Type} (mesh : MeshContainer α) : ArrayIterator Nat :=
  ⟨mesh.d_vertices, 0⟩

/-- Modelled from the spec: `MeshContainer::verticesEnd`. -/
def MeshContainer.verticesEnd {α : Type} (mesh : MeshContainer α) : ArrayIterator Nat :=
  ⟨mesh.d_vertices, mesh.d_vertices.length⟩

/-- Modelled from the spec: `MeshContainer::coordsBegin`. -/
def MeshContainer.coordsBegin {α : Type} (mesh : MeshContainer α) : ArrayIterator α :=
  ⟨mesh.d_coords, 0⟩

/-- Modelled from the spec: `MeshContainer::coordsEnd`. -/
def MeshContainer.coordsEnd {α : Type} (mesh : MeshContainer α) : ArrayIterator α :=
  ⟨mesh.d_coords, mesh.d_coords.length⟩

/-- Modelled from the spec: `MeshContainer::elementsBegin`. -/
def MeshContainer.elementsBegin {α : Type} (mesh : MeshContainer α) : ArrayIterator Nat :=
  ⟨mesh.d_elements, 0⟩

/-- Modelled from the spec: `MeshContainer::elementsEnd`. -/
def MeshContainer.elementsEnd {α : Type} (mesh : MeshContainer α) : ArrayIterator Nat :=
  ⟨mesh.d_elements, mesh.d_elements.length⟩

/-- Modelled from the spec: `MeshContainer::connectivityBegin`. -/
def MeshContainer.connectivityBegin {α : Type} (mesh : MeshContainer α) : ArrayIterator Nat :=
  ⟨mesh.d_connectivity, 0⟩

/-- Modelled from the spec: `MeshContainer::connectivityEnd`. -/
def MeshContainer.connectivityEnd {α : Type} (mesh : MeshContainer α) : ArrayIterator Nat :=
  ⟨mesh.d_connectivity, mesh.d_connectivity.length⟩

/-- Modelled from the spec: `MeshContainer::permutationBegin`. -/
def MeshContainer.permutationBegin {α : Type} (mesh : MeshContainer α) : ArrayIterator Nat :=
  ⟨mesh.d_permutation_list, 0⟩

/-- Modelled from the spec: `MeshContainer::permutationEnd`. -/
def MeshContainer.permutationEnd {α : Type} (mesh : MeshContainer α) : ArrayIterator Nat :=
  ⟨mesh.d_permutation_list, mesh.d_permutation_list.length⟩

/-- Modelled from the spec: the specialisation `MeshTraits< MeshContainer >`, which is not
part of the sources (the general `MeshTraits` of `DTK_MeshTraits.hpp` is undefined for
every type): each function hands the call to the accessor of the container. -/
structure MeshTraits (α : Type) where
  vertexDim : MeshContainer α → Nat
  verticesPerElement : MeshContainer α → Nat
  elementTopology : MeshContainer α → ElementTopology
  verticesBegin : MeshContainer α → ArrayIterator Nat
  verticesEnd : MeshContainer α → ArrayIterator Nat
  coordsBegin : MeshContainer α → ArrayIterator α
  coordsEnd : MeshContainer α → ArrayIterator α
  elementsBegin : MeshContainer α → ArrayIterator Nat
  elementsEnd : MeshContainer α → ArrayIterator Nat
  connectivityBegin : MeshContainer α → ArrayIterator Nat
  connectivityEnd : MeshContainer α → ArrayIterator Nat
  permutationBegin : MeshContainer α → ArrayIterator Nat
  permutationEnd : MeshContainer α → ArrayIterator Nat

/-- Modelled from the spec: the traits of `MeshContainer`. -/
def MT {α : Type} : MeshTraits α where
  vertexDim := MeshContainer.getVertexDim
  verticesPerElement := MeshContainer.getVerticesPerElement
  elementTopology := MeshContainer.getElementTopology
  verticesBegin := MeshContainer.verticesBegin
  verticesEnd := MeshContainer.verticesEnd
  coordsBegin := MeshContainer.coordsBegin
  coordsEnd := MeshContainer.coordsEnd
  elementsBegin := MeshContainer.elementsBegin
  elementsEnd := MeshContainer.elementsEnd
  connectivityBegin := MeshContainer.connectivityBegin
  connectivityEnd := MeshContainer.connectivityEnd
  permutationBegin := MeshContainer.permutationBegin
  permutationEnd := MeshContainer.permutationEnd

/-- Modelled from the spec: the views of `MeshTools` (its class is not part of the
sources), const and non-const alike: the values between the begin and the end iterator of
the traits. -/
def verticesView {α : Type} (mesh : MeshContainer α) : List Nat :=
  ArrayIterator.values (MT.verticesBegin mesh) (MT.verticesEnd mesh)

/-- Modelled from the spec: `MeshTools::verticesNonConstView`. -/
def verticesNonConstView {α : Type} (mesh : MeshContainer α) : List Nat :=
  ArrayIterator.values (MT.verticesBegin mesh) (MT.verticesEnd mesh)

/-- Modelled from the spec: `MeshTools::coordsView`. -/
def coordsView {α : Type} (mesh : MeshContainer α) : List α :=
  ArrayIterator.values (MT.coordsBegin mesh) (MT.coordsEnd mesh)

/-- Modelled from the spec: `MeshTools::coordsNonConstView`. -/
def coordsNonConstView {α : Type} (mesh : MeshContainer α) : List α :=
  ArrayIterator.values (MT.coordsBegin mesh) (MT.coordsEnd mesh)

/-- Modelled from the spec: `MeshTools::elementsView`. -/
def elementsView {α : Type} (mesh : MeshContainer α) : List Nat :=
  ArrayIterator.values (MT.elementsBegin mesh) (MT.elementsEnd mesh)

/-- Modelled from the spec: `MeshTools::elementsNonConstView`. -/
def elementsNonConstView {α : Type} (mesh : MeshContainer α) : List Nat :=
  ArrayIterator.values (MT.elementsBegin mesh) (MT.elementsEnd mesh)

/-- Modelled from the spec: `MeshTools::connectivityView`. -/
def connectivityView {α : Type} (mesh : MeshContainer α) : List Nat :=
  ArrayIterator.values (MT.connectivityBegin mesh) (MT.connectivityEnd mesh)

/-- Modelled from the spec: `MeshTools::connectivityNonConstView`. -/
def connectivityNonConstView {α : Type} (mesh : MeshContainer α) : List Nat :=
  ArrayIterator.values (MT.connectivityBegin mesh) (MT.connectivityEnd mesh)

/-- Modelled from the spec: `MeshTools::permutationView`. -/
def permutationView {α : Type} (mesh : MeshContainer α) : List Nat :=
  ArrayIterator.values (MT.permutationBegin mesh) (MT.permutationEnd mesh)

/-- Modelled from the spec: `MeshTools::permutationNonConstView`. -/
def permutationNonConstView {α : Type} (mesh : MeshContainer α) : List Nat :=
  ArrayIterator.values (MT.permutationBegin mesh) (MT.permutationEnd mesh)

/-- Modelled from the spec: `MeshTools::numVertices`, the distance of the vertex
iterators. -/
def numVertices {α : Type} (mesh : MeshContainer α) : Nat :=
  (MT.verticesEnd mesh).position - (MT.verticesBegin mesh).position

/-- Modelled from the spec: the field adapter `FieldTraits< MeshContainer >` (field adapter
contract of section 6), which presents the coordinates of the block as a field: `dim`,
`size`, `empty` and `begin`. -/
structure FieldTraits (α : Type) where
  dim : MeshContainer α → Nat
  size : MeshContainer α → Nat
  empty : MeshContainer α → Bool
  begin : MeshContainer α → ArrayIterator α

/-- Modelled from the spec: the field traits of `MeshContainer`. -/
def FT {α : Type} : FieldTraits α where
  dim := MeshContainer.getVertexDim
  size := fun mesh => mesh.coordsEnd.position - mesh.coordsBegin.position
  empty := fun mesh => mesh.coordsEnd.position - mesh.coordsBegin.position == 0
  begin := MeshContainer.coordsBegin
/-- The tuple `BoundingBox::getBounds()`: the six bounds in the order
`(xmin, ymin, zmin, xmax, ymax, zmax)`. -/
def BoundingBox.getBounds {α : Type} (box : BoundingBox α) : List α :=
  [box.x_min, box.y_min, box.z_min, box.x_max, box.y_max, box.z_max]

/-- The neutral box of the global reduction (section 4.1), `rmax` being the largest finite
value of the coordinates. -/
def neutralBox {α : Type} [Neg α] (rmax : α) : BoundingBox α :=
  ⟨rmax, rmax, rmax, -rmax, -rmax, -rmax⟩

/-- The vertex coordinates of a mesh block in dimension `k`: block `k` of the block-strided
coordinate array. -/
def vertexCoords {α : Type} (mesh : MeshContainer α) (k : Nat) : List α :=
  dimBlock (coordsView mesh) (numVertices mesh) k

/-- The smallest entry of a list of coordinates (`std::min_element`); the neutral value
`rmax` of the minimum for a list without entry. -/
def minCoord {α : Type} [LinearOrder α] (rmax : α) : List α → α
  | [] => rmax
  | c :: cs => cs.foldl min c

/-- The largest entry of a list of coordinates (`std::max_element`); the neutral value
`-rmax` of the maximum for a list without entry. -/
def maxCoord {α : Type} [LinearOrder α] [Neg α] (rmax : α) : List α → α
  | [] => -rmax
  | c :: cs => cs.foldl max c

/-- Modelled from the spec: `MeshTools::localBoundingBox( mesh )`, whose definition is not
part of the sources: in every dimension of the block the smallest and the largest vertex
coordinate, and the bounds `(-rmax, rmax)` in an unused dimension. -/
def localBoundingBox {α : Type} [LinearOrder α] [Neg α] (rmax : α) (mesh : MeshContainer α) :
    BoundingBox α :=
  let lo (k : Nat) : α :=
    if k < MT.vertexDim mesh then minCoord rmax (vertexCoords mesh k) else -rmax
  let hi (k : Nat) : α :=
    if k < MT.vertexDim mesh then maxCoord rmax (vertexCoords mesh k) else rmax
  ⟨lo 0, lo 1, lo 2, hi 0, hi 1, hi 2⟩

/-- Modelled from the spec: the global reduction of bounding boxes (sections 3 and 4.1): the
componentwise minimum of the lower bounds and maximum of the upper bounds, from the neutral
box on. -/
def reduceBoxes {α : Type} [LinearOrder α] [Neg α] (rmax : α) (boxes : List (BoundingBox α)) :
    BoundingBox α :=
  boxes.foldl (fun g b =>
    ⟨min g.x_min b.x_min, min g.y_min b.y_min, min g.z_min b.z_min,
     max g.x_max b.x_max, max g.y_max b.y_max, max g.z_max b.z_max⟩) (neutralBox rmax)

/-- The box that a mesh block contributes to the global reduction: its local bounding box,
and the neutral box when the block has no vertex (section 4.1). -/
def blockBox {α : Type} [LinearOrder α] [Neg α] (rmax : α) (mesh : MeshContainer α) :
    BoundingBox α :=
  if numVertices mesh = 0 then neutralBox rmax else localBoundingBox rmax mesh

/-- Modelled from the spec: `MeshTools::globalBoundingBox( mesh, comm )`, whose definition is
not part of the sources: the reduction of the boxes of the blocks that the ranks of the
communicator pass, one block per rank. -/
def globalBoundingBox {α : Type} [LinearOrder α] [Neg α] (rmax : α)
    (meshes : List (MeshContainer α)) : BoundingBox α :=
  reduceBoxes rmax (meshes.map (blockBox rmax))

/-- Modelled from the spec: `MeshManager::globalBoundingBox()`, whose definition is not part
of the sources: the reduction over all blocks of all ranks; `mesh_blocks` holds the blocks
of every rank. -/
def managerGlobalBoundingBox {α : Type} [LinearOrder α] [Neg α] (rmax : α)
    (mesh_blocks : List (List (MeshContainer α))) : BoundingBox α :=
  reduceBoxes rmax (mesh_blocks.flatten.map (blockBox rmax))

/-- The mesh block of rank `r` in `buildParallelHexContainer`: the unit square in `x` and
`y`, and `z` from `r` to `r + 1`. -/
def parallelHexContainer {α : Type} [NatCast α] (r : Nat) : MeshContainer α where
  d_vertex_dim := 3
  d_vertices := [0, 1, 2, 3, 4, 5, 6, 7]
  d_coords := [(0 : Nat), (1 : Nat), (1 : Nat), (0 : Nat), (0 : Nat), (1 : Nat), (1 : Nat),
      (0 : Nat),
    (0 : Nat), (0 : Nat), (1 : Nat), (1 : Nat), (0 : Nat), (0 : Nat), (1 : Nat), (1 : Nat),
    r, r, r, r, r + 1, r + 1, r + 1, r + 1].map Nat.cast
  d_element_topology := .DTK_HEXAHEDRON
  d_vertices_per_element := 8
  d_elements := [12]
  d_connectivity := [0, 1, 2, 3, 4, 5, 6, 7]
  d_permutation_list := [0, 1, 2, 3, 4, 5, 6, 7]

/-- The mesh block of `buildLineContainer`. -/
def lineContainer : MeshContainer ℤ where
  d_vertex_dim := 1
  d_vertices := [0, 1]
  d_coords := [0, 1]
  d_element_topology := .DTK_LINE_SEGMENT
  d_vertices_per_element := 2
  d_elements := [12]
  d_connectivity := [0, 1]
  d_permutation_list := [0, 1]

/-- The mesh block of `buildTriContainer`. -/
def triContainer : MeshContainer ℤ where
  d_vertex_dim := 2
  d_vertices := [0, 1, 2]
  d_coords := [0, 1, 1, 0, 0, 1]
  d_element_topology := .DTK_TRIANGLE
  d_vertices_per_element := 3
  d_elements := [12]
  d_connectivity := [0, 1, 2]
  d_permutation_list := [0, 1, 2]

/-- The local indices `n < N` of the points whose entry `mark n` is not the sentinel, in
increasing order. -/
def nonSentinel (ordMax N : Nat) (mark : Nat → Nat) : List Nat :=
  (List.range N).filter (fun n => mark n != invalidOrdinal ordMax)

/-- The erase positions of the inner loop of the coordinate reduction, in the order of the
erasures, each with the size of the array at the time. -/
def reduceDimInnerTrace {α : Type} (i : Nat) : Nat → List α → List (Nat × Nat)
  | 0, _ => []
  | n + 1, xs =>
    ((i + 1) * n + i, xs.length) :: reduceDimInnerTrace i n (xs.eraseIdx ((i + 1) * n + i))

/-- The erase positions of the coordinate reduction, one list per pass of the outer loop
(the argument `j` is `i + 1`, as in `reduceDim`). -/
def reduceDimTrace {α : Type} (vertex_dim num_vertices : Nat) :
    Nat → List α → List (List (Nat × Nat))
  | 0, _ => []
  | j + 1, xs =>
    if j + 1 = vertex_dim then []
    else reduceDimInnerTrace j num_vertices xs
      :: reduceDimTrace vertex_dim num_vertices j (reduceDimInner j num_vertices xs)

/-- The interleaved coordinates of `m` vertices in `j` dimensions: for each vertex `k` in
order the coordinates `v k 0, ..., v k (j-1)`. -/
def interleaved {α : Type} (j m : Nat) (v : Nat → Nat → α) : List α :=
  (List.range m).flatMap (fun k => (List.range j).map (v k))

/-! ## The coordinate reduction of the MOAB version (`mesh/src/DTK_TopologyTools.cpp`) -/

/-- The call `cell_node_coords.erase( cell_node_coords.begin() + k )`; `none` when position
`k` holds no element of the array, where the erasure is undefined. -/
def eraseAt {α : Type} (xs : List α) (k : Nat) : Option (List α) :=
  if k < xs.length then some (xs.eraseIdx k) else none

/-- The inner loop of the MOAB version of `pointInElement`, for `n = count - 1` down to `0`:
`cell_node_coords.erase( cell_node_coords.begin() + 3*n + i )`. -/
def reduceNodeDimInner {α : Type} (i : Nat) : Nat → List α → Option (List α)
  | 0, xs => some xs
  | n + 1, xs =>
    match eraseAt xs (3 * n + i) with
    | none => none
    | some ys => reduceNodeDimInner i n ys

/-- The outer loop `for ( int i = 2; i != node_dim-1 ; --i )` of the MOAB version of
`pointInElement`; the argument `j` is `i + 1`, so that the loop starts with `j = 3` and
stops when `j = node_dim`. -/
def reduceNodeDim {α : Type} (node_dim num_element_nodes : Nat) : Nat → List α → Option (List α)
  | 0, xs => some xs
  | j + 1, xs =>
    if j + 1 = node_dim then some xs
    else
      match reduceNodeDimInner j num_element_nodes xs with
      | none => none
      | some ys => reduceNodeDim node_dim num_element_nodes j ys

/-! ## The nearest-neighbour operator
(`packages/Meshfree/src/DTK_NearestNeighborOperator_def.hpp`) -/

/-- Modelled from the spec: the three views filled by `DistributedSearchTree::query`.  The
results of query `i` are the entries `offset[i], ..., offset[i+1] - 1` of `indices` (the
index of a source point on the rank that owns it) and of `ranks` (that rank). -/
structure QueryResult where
  indices : List Int
  offset : List Int
  ranks : List Int

/-- Modelled from the spec: the tree returned by `makeDistributedSearchTree( _comm,
source_points )`, whose class is not part of the sources: its `empty()` and the views that
its `query` fills for the nearest-neighbour queries of a list of target points. -/
structure DistributedSearchTree (Point : Type) where
  empty : Bool
  query : List Point → QueryResult

/-- Modelled from the spec: `lastElement( view )`, the last entry of a view, which requires
the view to have an entry. -/
def lastElement (v : List Int) : Except Failure Int :=
  match v.getLast? with
  | none => .error .precondition
  | some last => .ok last

/-- Modelled from the spec: what `DistributedSearchTree::query` guarantees for `n` queries
that each ask for one nearest neighbour: `offset` has `n + 1` entries and starts at 0, every
query has no or one result, and `indices` and `ranks` have `lastElement( offset )`
entries. -/
def nearestQueryContract (result : QueryResult) (n : Nat) : Prop :=
  result.offset.length = n + 1 ∧ result.offset.getD 0 0 = 0 ∧
  (∀ i, i < n → result.offset.getD i 0 ≤ result.offset.getD (i + 1) 0 ∧
    result.offset.getD (i + 1) 0 ≤ result.offset.getD i 0 + 1) ∧
  (result.indices.length : Int) = result.offset.getD n 0 ∧
  (result.ranks.length : Int) = result.offset.getD n 0

instance (result : QueryResult) (n : Nat) : Decidable (nearestQueryContract result n) := by
  unfold nearestQueryContract
  infer_instance

/-- The members `_indices` and `_ranks` of `NearestNeighborOperator`. -/
structure NearestNeighborOperator where
  _indices : List Int
  _ranks : List Int

/-- The constructor of `NearestNeighborOperator`: `search_tree` is the tree built over the
source points; `target_points` has one entry per target point (one row of the view). -/
def NearestNeighborOperator.construct {Point : Type}
    (search_tree : DistributedSearchTree Point) (target_points : List Point) :
    Except Failure NearestNeighborOperator :=
  if search_tree.empty then .error .invariant
  else
    let nearest_queries := target_points
    let result := search_tree.query nearest_queries
    match lastElement result.offset with
    | .error e => .error e
    | .ok last =>
      if last ≠ (target_points.length : Int) then .error .postcondition
      else .ok { _indices := result.indices, _ranks := result.ranks }

/-- Modelled from the spec: `NearestNeighborOperatorImpl::fetch( _comm, _ranks, _indices,
source_values )`, one value per stored pair: the source value with index `_indices[i]` on
rank `_ranks[i]` (`source_values` lists the local values of every rank). -/
def fetch {β : Type} [Inhabited β] (ranks indices : List Int) (source_values : List (List β)) :
    List β :=
  List.zipWith (fun r i => (source_values.getD r.toNat []).getD i.toNat default) ranks indices

/-- Modelled from the spec: `Kokkos::deep_copy( dst, src )` of two views, which must have
the same extent; the content of `dst` afterwards. -/
def deep_copy {β : Type} (dst src : List β) : Except Failure (List β) :=
  if dst.length = src.length then .ok src else .error .library

/-- The function `NearestNeighborOperator::apply`; returns the content of `target_values`
after the call. -/
def NearestNeighborOperator.apply {β : Type} [Inhabited β] (op : NearestNeighborOperator)
    (source_values : List (List β)) (target_values : List β) : Except Failure (List β) :=
  if op._indices.length ≠ target_values.length then .error .precondition
  else
    let values := fetch op._ranks op._indices source_values
    deep_copy target_values values

/-- A tree over three source points of two ranks: the target point `t` has the nearest
neighbour with index `t % 2` on rank `t / 2 % 2`. -/
def exampleSearchTree : DistributedSearchTree Nat where
  empty := false
  query := fun targets =>
    { indices := targets.map (fun t => ((t % 2 : Nat) : Int))
      offset := (List.range (targets.length + 1)).map Int.ofNat
      ranks := targets.map (fun t => ((t / 2 % 2 : Nat) : Int)) }

/-! ## The abstract iterator (`packages/Utils/test/tstAbstractIterator.cpp`) -/

/-- The predicate `even_func` of the test (`%` of C++ truncates). -/
def even_func (n : Int) : Bool := Int.tmod n 2 == 0

/-- The predicate `odd_func` of the test. -/
def odd_func (n : Int) : Bool := Int.tmod n 2 == 1

/-- The predicate `two_func` of the test. -/
def two_func (n : Int) : Bool := Int.tmod n 10 == 2

/-- The class `VectorIterator<T>` of the test: the vector `d_values`, the position of the
vector iterator `d_vec_it` and the inherited predicate `b_predicate`. -/
structure VectorIterator (T : Type) where
  d_values : List T
  d_vec_it : Nat
  b_predicate : T → Bool

/-- Modelled from the spec: the predicate that an `AbstractIterator` has when none is given
(the class `AbstractIterator` is not part of the sources); it selects every element. -/
def selectAll {T : Type} (_ : T) : Bool := true

/-- The constructor `VectorIterator( values )`. -/
def VectorIterator.ofValues {T : Type} (values : List T) : VectorIterator T :=
  { d_values := values, d_vec_it := 0, b_predicate := selectAll }

/-- The predicate constructor `VectorIterator( values, predicate )`. -/
def VectorIterator.ofPredicate {T : Type} (values : List T) (predicate : T → Bool) :
    VectorIterator T :=
  { d_values := values, d_vec_it := 0, b_predicate := predicate }

/-- The pre-increment `VectorIterator::operator++`. -/
def VectorIterator.preIncrement {T : Type} (it : VectorIterator T) : VectorIterator T :=
  { it with d_vec_it := it.d_vec_it + 1 }

/-- The dereference `VectorIterator::operator*`; `none` past the last element. -/
def VectorIterator.dereference {T : Type} (it : VectorIterator T) : Option T :=
  it.d_values[it.d_vec_it]?

/-- The comparison `VectorIterator::operator==` with the implementation of `rhs`. -/
def VectorIterator.equal {T : Type} (it rhs_vec_impl : VectorIterator T) : Bool :=
  rhs_vec_impl.d_vec_it == it.d_vec_it

/-- The function `VectorIterator::size`. -/
def VectorIterator.size {T : Type} (it : VectorIterator T) : Nat :=
  it.d_values.length

/-- The function `VectorIterator::begin`. -/
def VectorIterator.begin {T : Type} (it : VectorIterator T) : VectorIterator T :=
  VectorIterator.ofPredicate it.d_values it.b_predicate

/-- The function `VectorIterator::end`. -/
def VectorIterator.end_ {T : Type} (it : VectorIterator T) : VectorIterator T :=
  { d_values := it.d_values, d_vec_it := it.d_values.length, b_predicate := it.b_predicate }

/-- Modelled from the spec: the class `AbstractIterator<T>`, whose header
`DTK_AbstractIterator.hpp` is not part of the sources: the implementation
`b_iterator_impl` it forwards to and the predicate `b_predicate` it filters with. -/
structure AbstractIterator (T : Type) where
  b_iterator_impl : VectorIterator T
  b_predicate : T → Bool

/-- Modelled from the spec: the conversion of the test,
`AbstractIterator<T> it = VectorIterator<T>( ... )`: a copy of the implementation and of
its predicate. -/
def AbstractIterator.ofImpl {T : Type} (impl : VectorIterator T) : AbstractIterator T :=
  { b_iterator_impl := impl, b_predicate := impl.b_predicate }

/-- Modelled from the spec: the loop that moves the implementation on while it is not at
its end and its element fails the predicate; `fuel` bounds the number of steps. -/
def advanceLoop {T : Type} (predicate : T → Bool) : Nat → VectorIterator T → VectorIterator T
  | 0, impl => impl
  | fuel + 1, impl =>
    if impl.equal impl.end_ then impl
    else
      match impl.dereference with
      | none => impl
      | some value =>
        if predicate value then impl else advanceLoop predicate fuel impl.preIncrement

/-- Modelled from the spec: the increment of `AbstractIterator`: one step of the
implementation, then on to the next element that satisfies the predicate (or to the
end). -/
def AbstractIterator.increment {T : Type} (it : AbstractIterator T) : AbstractIterator T :=
  { b_iterator_impl :=
      (advanceLoop it.b_predicate it.b_iterator_impl.d_values.length
        it.b_iterator_impl.preIncrement)
    b_predicate := it.b_predicate }

/-- Modelled from the spec: `AbstractIterator::operator++`, which requires an iterator
that is not at its end. -/
def AbstractIterator.preIncrement {T : Type} (it : AbstractIterator T) :
    Except Failure (AbstractIterator T) :=
  if it.b_iterator_impl.equal it.b_iterator_impl.end_ then .error .precondition
  else .ok it.increment

/-- Modelled from the spec: `AbstractIterator::operator*`. -/
def AbstractIterator.dereference {T : Type} (it : AbstractIterator T) : Option T :=
  it.b_iterator_impl.dereference

/-- Modelled from the spec: `AbstractIterator::operator==`, the comparison of the
implementation with the implementation of `rhs`. -/
def AbstractIterator.equal {T : Type} (it rhs : AbstractIterator T) : Bool :=
  it.b_iterator_impl.equal rhs.b_iterator_impl

/-- Modelled from the spec: the first element that satisfies the predicate, starting at
the current one. -/
def AbstractIterator.advanceToFirstValidElement {T : Type} (it : AbstractIterator T) :
    AbstractIterator T :=
  if it.b_iterator_impl.equal it.b_iterator_impl.end_ then it
  else
    match it.b_iterator_impl.dereference with
    | none => it
    | some value => if it.b_predicate value then it else it.increment

/-- Modelled from the spec: `AbstractIterator::begin`, the beginning of the implementation
moved to the first element that satisfies the predicate. -/
def AbstractIterator.begin {T : Type} (it : AbstractIterator T) : AbstractIterator T :=
  AbstractIterator.advanceToFirstValidElement
    { b_iterator_impl := it.b_iterator_impl.begin, b_predicate := it.b_predicate }

/-- Modelled from the spec: `AbstractIterator::end`, the end of the implementation. -/
def AbstractIterator.end_ {T : Type} (it : AbstractIterator T) : AbstractIterator T :=
  { b_iterator_impl := it.b_iterator_impl.end_, b_predicate := it.b_predicate }

/-- Modelled from the spec: `std::distance( first, last )` on abstract iterators, the
number of increments that take `first` to `last`; `fuel` bounds the number of steps. -/
def distance {T : Type} : Nat → AbstractIterator T → AbstractIterator T → Except Failure Nat
  | 0, first, last => if first.equal last then .ok 0 else .error .undefined
  | fuel + 1, first, last =>
    if first.equal last then .ok 0
    else
      match first.preIncrement with
      | .error e => .error e
      | .ok next =>
        match distance fuel next last with
        | .error e => .error e
        | .ok n => .ok (n + 1)

/-- Modelled from the spec: `AbstractIterator::size`, the distance from `begin()` to
`end()`. -/
def AbstractIterator.size {T : Type} (it : AbstractIterator T) : Except Failure Nat :=
  distance it.b_iterator_impl.d_values.length it.begin it.end_

/-- The loop of the test, `for ( it = begin_it; it != end_it; ++it )`, with the list of
the values `*it` it sees; `fuel` bounds the number of steps. -/
def traversal {T : Type} : Nat → AbstractIterator T → AbstractIterator T →
    Except Failure (List T)
  | 0, it, end_it => if it.equal end_it then .ok [] else .error .undefined
  | fuel + 1, it, end_it =>
    if it.equal end_it then .ok []
    else
      match it.dereference with
      | none => .error .undefined
      | some value =>
        match it.preIncrement with
        | .error e => .error e
        | .ok next =>
          match traversal fuel next end_it with
          | .error e => .error e
          | .ok values => .ok (value :: values)

/-- The three tags of `AbstractIterator::setOperation`. -/
inductive IteratorTag where
  | IteratorIntersectionTag
  | IteratorUnionTag
  | IteratorSubtractionTag
  deriving DecidableEq, Repr

/-- Modelled from the spec: `AbstractIterator::setOperation( it_1, it_2, tag )`: a copy of
`it_1` whose predicate combines the predicates of the two iterators: both for the
intersection, one of them for the union, the first and not the second for the
subtraction. -/
def AbstractIterator.setOperation {T : Type} (it_1 it_2 : AbstractIterator T)
    (tag : IteratorTag) : AbstractIterator T :=
  { b_iterator_impl := it_1.b_iterator_impl
    b_predicate := fun value =>
      match tag with
      | .IteratorIntersectionTag => it_1.b_predicate value && it_2.b_predicate value
      | .IteratorUnionTag => it_1.b_predicate value || it_2.b_predicate value
      | .IteratorSubtractionTag => it_1.b_predicate value && !it_2.b_predicate value }

/-- The vector of the predicate tests: `(*data)[i] = i` for `i < 10`. -/
def testData : List Int := [0, 1, 2, 3, 4, 5, 6, 7, 8, 9]

/-- The iterator of the tests over a vector with a predicate,
`AbstractIterator<T> it = VectorIterator<T>( data, predicate )`. -/
def predicateIterator {T : Type} (data : List T) (predicate : T → Bool) : AbstractIterator T :=
  AbstractIterator.ofImpl (VectorIterator.ofPredicate data predicate)

/-- The iterator of the tests over a vector without predicate,
`AbstractIterator<T> it = VectorIterator<T>( data )`. -/
def vectorIterator {T : Type} (data : List T) : AbstractIterator T :=
  AbstractIterator.ofImpl (VectorIterator.ofValues data)

/-- The target points on the rendezvous rank `q` that were found in no element, in the
order of arrival. -/
def missedAtRendezvous {α : Type} [Inhabited α] [LinearOrder α]
    (ordMax dim comm_size global_max : Nat) (rv : Rendezvous α)
    (target : List (Option (Field α))) (tolerance : α) (q : Nat) : List (Nat × Nat) :=
  (atRendezvous ordMax dim comm_size global_max rv target q).filter
    (fun x => (searchResult dim rv target tolerance q x).1 == invalidOrdinal ordMax)

/-! ## Theorems -/

theorem reduceAllMax_foldl_le (xs : List Nat) (a : Nat) : a ≤ xs.foldl max a := by
  induction xs generalizing a with
  | nil => simp
  | cons x xs ih => exact le_trans (le_max_left a x) (ih (max a x))

theorem reduceAllMax_foldl_mem (xs : List Nat) (a x : Nat) (hx : x ∈ xs) :
    x ≤ xs.foldl max a := by
  induction xs generalizing a with
  | nil => cases hx
  | cons y ys ih =>
    rcases List.mem_cons.mp hx with h | h
    · subst h
      exact le_trans (le_max_right a x) (reduceAllMax_foldl_le ys (max a x))
    · exact ih (max a y) h

theorem le_reduceAllMax (local_sizes : List Nat) (r : Nat) :
    local_sizes.getD r 0 ≤ reduceAllMax local_sizes := by
  by_cases h : r < local_sizes.length
  · have hm : local_sizes.getD r 0 ∈ local_sizes := by
      rw [List.getD_eq_getElem _ _ h]
      exact List.getElem_mem h
    exact reduceAllMax_foldl_mem local_sizes 0 _ hm
  · rw [List.getD_eq_default _ _ (not_lt.mp h)]
    exact Nat.zero_le _

theorem computePointOrdinalsLoop_fst (ordMax r M : Nat) (store : Bool) (count start : Nat)
    (g2l : List (Nat × Nat)) :
    (computePointOrdinalsLoop ordMax r M store count start g2l).1
      = (List.range' start count).map (fun n => (r * M + n) % (ordMax + 1)) := by
  induction count generalizing start g2l with
  | zero => simp [computePointOrdinalsLoop]
  | succ c ih => simp [computePointOrdinalsLoop, ih, List.range'_succ]

theorem computePointOrdinals_fst (ordMax r M : Nat) (store : Bool) (local_size : Nat)
    (g2l : List (Nat × Nat)) :
    (computePointOrdinals ordMax r M store local_size g2l).1
      = (List.range local_size).map (fun n => (r * M + n) % (ordMax + 1)) := by
  rw [computePointOrdinals, computePointOrdinalsLoop_fst, List.range_eq_range']

theorem allTargetOrdinals_getD (ordMax : Nat) (store : Bool) (local_sizes : List Nat) (r : Nat)
    (hr : r < local_sizes.length) :
    (allTargetOrdinals ordMax store local_sizes).getD r []
      = (List.range (local_sizes.getD r 0)).map
          (fun n => (r * reduceAllMax local_sizes + n) % (ordMax + 1)) := by
  unfold allTargetOrdinals
  rw [List.getD_eq_getElem _ _ (by simpa using hr)]
  simp [computePointOrdinals_fst]

theorem ordinal_lt_of_fit (ordMax : Nat) (local_sizes : List Nat)
    (hfit : local_sizes.length * reduceAllMax local_sizes ≤ ordMax + 1) (r n : Nat)
    (hr : r < local_sizes.length) (hn : n < local_sizes.getD r 0) :
    r * reduceAllMax local_sizes + n < ordMax + 1 := by
  have hM := le_reduceAllMax local_sizes r
  have h1 : r * reduceAllMax local_sizes + n < (r + 1) * reduceAllMax local_sizes := by
    rw [Nat.add_mul, Nat.one_mul]; omega
  have h2 : (r + 1) * reduceAllMax local_sizes
      ≤ local_sizes.length * reduceAllMax local_sizes :=
    Nat.mul_le_mul_right _ hr
  omega

theorem ordinal_inj (M r1 n1 r2 n2 : Nat) (h1 : n1 < M) (h2 : n2 < M)
    (h : r1 * M + n1 = r2 * M + n2) : r1 = r2 ∧ n1 = n2 := by
  have hr : r1 = r2 := by
    have e1 : (r1 * M + n1) / M = r1 := by
      rw [Nat.add_comm, Nat.add_mul_div_right _ _ (by omega), Nat.div_eq_of_lt h1, Nat.zero_add]
    have e2 : (r2 * M + n2) / M = r2 := by
      rw [Nat.add_comm, Nat.add_mul_div_right _ _ (by omega), Nat.div_eq_of_lt h2, Nat.zero_add]
    rw [← e1, ← e2, h]
  subst hr
  exact ⟨rfl, by omega⟩

theorem allTargetOrdinals_eq_of_fit (ordMax : Nat) (store : Bool) (local_sizes : List Nat)
    (hfit : local_sizes.length * reduceAllMax local_sizes ≤ ordMax + 1) :
    allTargetOrdinals ordMax store local_sizes
      = (List.range local_sizes.length).map (fun r =>
          (List.range (local_sizes.getD r 0)).map
            (fun n => r * reduceAllMax local_sizes + n)) := by
  unfold allTargetOrdinals
  apply List.map_congr_left
  intro r hr
  rw [computePointOrdinals_fst]
  apply List.map_congr_left
  intro n hn
  exact Nat.mod_eq_of_lt
    (ordinal_lt_of_fit ordMax local_sizes hfit r n (List.mem_range.mp hr) (List.mem_range.mp hn))

theorem targetMapGlobal_nodup (ordMax : Nat) (store : Bool) (local_sizes : List Nat)
    (hfit : local_sizes.length * reduceAllMax local_sizes ≤ ordMax + 1) :
    (targetMapGlobal ordMax store local_sizes).Nodup := by
  unfold targetMapGlobal
  rw [allTargetOrdinals_eq_of_fit ordMax store local_sizes hfit, List.nodup_flatten]
  constructor
  · intro l hl
    obtain ⟨r, _, rfl⟩ := List.mem_map.mp hl
    exact (List.nodup_range _).map (fun a b h => by simpa using h)
  · rw [List.pairwise_map]
    refine (List.nodup_range local_sizes.length).imp ?_
    intro r1 r2 hne x hx1 hx2
    obtain ⟨n1, hn1, rfl⟩ := List.mem_map.mp hx1
    obtain ⟨n2, hn2, e⟩ := List.mem_map.mp hx2
    have h1 := lt_of_lt_of_le (List.mem_range.mp hn1) (le_reduceAllMax local_sizes r1)
    have h2 := lt_of_lt_of_le (List.mem_range.mp hn2) (le_reduceAllMax local_sizes r2)
    exact hne (ordinal_inj _ r1 n1 r2 n2 h1 h2 e.symm).1

/-- C1: provided every ordinal is representable in `GlobalOrdinal`
(`P * M_max ≤ ordMax + 1`), `computePointOrdinals` gives the target point with local
index `n` on rank `r` the ordinal `r * M_max + n`, two target points have equal ordinals
only if they are the same point of the same rank, and the target map built from these
ordinals holds every target point exactly once. -/
theorem computePointOrdinals_unique (ordMax : Nat) (store : Bool) (local_sizes : List Nat)
    (hfit : local_sizes.length * reduceAllMax local_sizes ≤ ordMax + 1) :
    (∀ r n, r < local_sizes.length → n < local_sizes.getD r 0 →
      ((allTargetOrdinals ordMax store local_sizes).getD r [])[n]?
        = some (r * reduceAllMax local_sizes + n)) ∧
    (∀ r1 n1 r2 n2, r1 < local_sizes.length → r2 < local_sizes.length →
      n1 < local_sizes.getD r1 0 → n2 < local_sizes.getD r2 0 →
      ((allTargetOrdinals ordMax store local_sizes).getD r1 [])[n1]?
        = ((allTargetOrdinals ordMax store local_sizes).getD r2 [])[n2]? →
      r1 = r2 ∧ n1 = n2) ∧
    (∀ r n, r < local_sizes.length → n < local_sizes.getD r 0 →
      (targetMapGlobal ordMax store local_sizes).count (r * reduceAllMax local_sizes + n) = 1) := by
  have hget : ∀ r n, r < local_sizes.length → n < local_sizes.getD r 0 →
      ((allTargetOrdinals ordMax store local_sizes).getD r [])[n]?
        = some (r * reduceAllMax local_sizes + n) := by
    intro r n hr hn
    rw [allTargetOrdinals_getD ordMax store local_sizes r hr, List.getElem?_map,
      List.getElem?_range hn, Option.map_some',
      Nat.mod_eq_of_lt (ordinal_lt_of_fit ordMax local_sizes hfit r n hr hn)]
  refine ⟨hget, ?_, ?_⟩
  · intro r1 n1 r2 n2 hr1 hr2 hn1 hn2 h
    rw [hget r1 n1 hr1 hn1, hget r2 n2 hr2 hn2] at h
    exact ordinal_inj _ r1 n1 r2 n2
      (lt_of_lt_of_le hn1 (le_reduceAllMax local_sizes r1))
      (lt_of_lt_of_le hn2 (le_reduceAllMax local_sizes r2)) (Option.some.inj h)
  · intro r n hr hn
    apply List.count_eq_one_of_mem (targetMapGlobal_nodup ordMax store local_sizes hfit)
    unfold targetMapGlobal
    rw [List.mem_flatten]
    refine ⟨(allTargetOrdinals ordMax store local_sizes).getD r [], ?_, ?_⟩
    · rw [List.getD_eq_getElem _ _ (by simpa [allTargetOrdinals] using hr)]
      exact List.getElem_mem _
    · exact List.getElem?_mem (hget r n hr hn)

/-- Witness for C1: three ranks holding 2, 0 and 3 target points, 64-bit ordinals. -/
theorem computePointOrdinals_unique_witness :
    [2, 0, 3].length * reduceAllMax [2, 0, 3] ≤ (2 ^ 64 - 1) + 1 ∧
    allTargetOrdinals (2 ^ 64 - 1) true [2, 0, 3] = [[0, 1], [], [6, 7, 8]] ∧
    (targetMapGlobal (2 ^ 64 - 1) true [2, 0, 3]).count (2 * reduceAllMax [2, 0, 3] + 1) = 1 :=
  ⟨by decide, by decide,
    (computePointOrdinals_unique (2 ^ 64 - 1) true [2, 0, 3] (by decide)).2.2 2 1
      (by decide) (by decide)⟩

/-! ### Point in element -/

theorem getCoords_length {α : Type} (moab : MoabInterface α) (vs : List Nat) (c : List α)
    (h : getCoords moab vs = some c) : c.length = 3 * vs.length := by
  induction vs generalizing c with
  | nil =>
    simp [getCoords] at h
    subst h
    rfl
  | cons v vs ih =>
    rw [getCoords] at h
    cases hv : moab.get_coords v with
    | none => simp [hv] at h
    | some xyz =>
      cases hr : getCoords moab vs with
      | none => simp [hv, hr] at h
      | some rest =>
        obtain ⟨x, y, z⟩ := xyz
        simp [hv, hr] at h
        subst h
        simp [ih rest hr]
        omega

theorem pointInElementTrace_pyramid {α : Type} [Inhabited α] (ct : CellTools α)
    (moab : MoabInterface α) (coords : List α) (element : Nat) (vs : List Nat) (c : List α)
    (hdim : coords.length = 3)
    (htopo : moab.type_from_handle element = EntityType.MBPYRAMID)
    (hadj : moab.get_adjacencies element = some vs)
    (hcoords : getCoords moab vs = some c) :
    pointInElementTrace ct moab coords element
      = .ok (inTet ct (pyramidTet1 c) coords || inTet ct (pyramidTet2 c) coords,
          if inTet ct (pyramidTet1 c) coords
          then [(⟨EntityType.MBTET, 4⟩, pyramidTet1 c)]
          else [(⟨EntityType.MBTET, 4⟩, pyramidTet1 c), (⟨EntityType.MBTET, 4⟩, pyramidTet2 c)]) := by
  simp only [pointInElementTrace, hdim, htopo, hadj, hcoords]
  cases h1 : inTet ct (pyramidTet1 c) coords <;>
    cases h2 : inTet ct (pyramidTet2 c) coords <;>
    simp

theorem unitPyramid_getCoords : getCoords unitPyramidMoab [0, 1, 2, 3, 4]
    = some [0, 0, 0, 1, 0, 0, 1, 1, 0, 0, 1, 0, 1 / 2, 1 / 2, 1] := by
  simp [getCoords, unitPyramidMoab]

theorem pointInElement_unitPyramid_eq (x y z : ℚ) :
    pointInElement exactTetCellTools unitPyramidMoab [x, y, z] 12
      = .ok ((decide (0 ≤ x - y) && decide (0 ≤ y - z / 2) && decide (0 ≤ z)
              && decide (x - y + (y - z / 2) + z ≤ 1))
            || (decide (0 ≤ x - z / 2) && decide (0 ≤ y - x) && decide (0 ≤ z)
              && decide (x - z / 2 + (y - x) + z ≤ 1))) := by
  have h1 : exactTetCellTools.mapToReferenceFrame ⟨EntityType.MBTET, 4⟩
      (pyramidTet1 [0, 0, 0, 1, 0, 0, 1, 1, 0, 0, 1, 0, 1 / 2, 1 / 2, 1]) [x, y, z]
      = [x - y, y - z / 2, z] := by
    simp [exactTetCellTools, pyramidTet1, det3]
    refine ⟨?_, ?_⟩ <;> ring
  have h2 : exactTetCellTools.mapToReferenceFrame ⟨EntityType.MBTET, 4⟩
      (pyramidTet2 [0, 0, 0, 1, 0, 0, 1, 1, 0, 0, 1, 0, 1 / 2, 1 / 2, 1]) [x, y, z]
      = [x - z / 2, y - x, z] := by
    simp [exactTetCellTools, pyramidTet2, det3]
    refine ⟨?_, ?_⟩ <;> ring
  rw [pointInElement, pointInElementTrace_pyramid exactTetCellTools unitPyramidMoab [x, y, z] 12
    [0, 1, 2, 3, 4] _ rfl rfl (by simp [unitPyramidMoab]) unitPyramid_getCoords]
  simp only [inTet, h1, h2]
  rfl

/-- C2: for a pyramid element (5 vertices) and a 3-D query point, `pointInElement` returns
true exactly when the point passes the inclusion test of the first or of the second
tetrahedron, false only when both tests fail, and the second tetrahedron is handed to the
test only when the first test fails. -/
theorem pointInElement_pyramid_iff {α : Type} [Inhabited α] (ct : CellTools α)
    (moab : MoabInterface α) (coords : List α) (element : Nat) (vs : List Nat) (c : List α)
    (hdim : coords.length = 3)
    (htopo : moab.type_from_handle element = EntityType.MBPYRAMID)
    (hadj : moab.get_adjacencies element = some vs)
    (hfive : vs.length = 5)
    (hcoords : getCoords moab vs = some c) :
    (pointInElement ct moab coords element = .ok true ↔
      (inTet ct (pyramidTet1 c) coords = true ∨ inTet ct (pyramidTet2 c) coords = true)) ∧
    (pointInElement ct moab coords element = .ok false ↔
      (inTet ct (pyramidTet1 c) coords = false ∧ inTet ct (pyramidTet2 c) coords = false)) ∧
    (∃ b tr, pointInElementTrace ct moab coords element = .ok (b, tr) ∧
      tr.map Prod.snd = (if inTet ct (pyramidTet1 c) coords then [pyramidTet1 c]
        else [pyramidTet1 c, pyramidTet2 c])) ∧
    c.length = 15 := by
  have hlen : c.length = 15 := by rw [getCoords_length moab vs c hcoords, hfive]
  have h := pointInElementTrace_pyramid ct moab coords element vs c hdim htopo hadj hcoords
  refine ⟨?_, ?_, ?_, hlen⟩
  · rw [pointInElement, h]
    cases inTet ct (pyramidTet1 c) coords <;> cases inTet ct (pyramidTet2 c) coords <;>
      simp [Except.map]
  · rw [pointInElement, h]
    cases inTet ct (pyramidTet1 c) coords <;> cases inTet ct (pyramidTet2 c) coords <;>
      simp [Except.map]
  · refine ⟨_, _, h, ?_⟩
    cases inTet ct (pyramidTet1 c) coords <;> simp

/-- Witness for C2: the unit pyramid and its centre point, with exact tetrahedron tests. -/
theorem pointInElement_pyramid_iff_witness :
    pointInElement exactTetCellTools unitPyramidMoab [1 / 2, 1 / 2, 1 / 2] 12 = .ok true ↔
      (inTet exactTetCellTools
          (pyramidTet1 [0, 0, 0, 1, 0, 0, 1, 1, 0, 0, 1, 0, 1 / 2, 1 / 2, 1])
          [1 / 2, 1 / 2, 1 / 2] = true ∨
        inTet exactTetCellTools
          (pyramidTet2 [0, 0, 0, 1, 0, 0, 1, 1, 0, 0, 1, 0, 1 / 2, 1 / 2, 1])
          [1 / 2, 1 / 2, 1 / 2] = true) :=
  (pointInElement_pyramid_iff exactTetCellTools unitPyramidMoab [1 / 2, 1 / 2, 1 / 2] 12
    [0, 1, 2, 3, 4] _ rfl rfl (by simp [unitPyramidMoab]) rfl unitPyramid_getCoords).1

theorem getCoords_five {α : Type} (moab : MoabInterface α) (a0 a1 a2 a3 a4 : Nat)
    (v0 v1 v2 v3 v4 : α × α × α)
    (h0 : moab.get_coords a0 = some v0) (h1 : moab.get_coords a1 = some v1)
    (h2 : moab.get_coords a2 = some v2) (h3 : moab.get_coords a3 = some v3)
    (h4 : moab.get_coords a4 = some v4) :
    getCoords moab [a0, a1, a2, a3, a4]
      = some [v0.1, v0.2.1, v0.2.2, v1.1, v1.2.1, v1.2.2, v2.1, v2.2.1, v2.2.2,
          v3.1, v3.2.1, v3.2.2, v4.1, v4.2.1, v4.2.2] := by
  simp [getCoords, h0, h1, h2, h3, h4]

/-- C3: for a pyramid with the vertices v0..v4 (v4 the apex, coordinates interleaved),
the first tetrahedron handed to the inclusion test has the vertices (v0, v1, v2, v4), and
the second, handed over when the first test fails, has (v0, v2, v3, v4), each vertex with
its own three coordinates and in this order. -/
theorem pyramid_tetrahedra {α : Type} [Inhabited α] (ct : CellTools α)
    (moab : MoabInterface α) (coords : List α) (element a0 a1 a2 a3 a4 : Nat)
    (v0 v1 v2 v3 v4 : α × α × α)
    (hdim : coords.length = 3)
    (htopo : moab.type_from_handle element = EntityType.MBPYRAMID)
    (hadj : moab.get_adjacencies element = some [a0, a1, a2, a3, a4])
    (h0 : moab.get_coords a0 = some v0) (h1 : moab.get_coords a1 = some v1)
    (h2 : moab.get_coords a2 = some v2) (h3 : moab.get_coords a3 = some v3)
    (h4 : moab.get_coords a4 = some v4) :
    ∃ b tr, pointInElementTrace ct moab coords element = .ok (b, tr) ∧
      tr[0]? = some (⟨EntityType.MBTET, 4⟩,
        [v0.1, v0.2.1, v0.2.2, v1.1, v1.2.1, v1.2.2, v2.1, v2.2.1, v2.2.2,
          v4.1, v4.2.1, v4.2.2]) ∧
      (inTet ct [v0.1, v0.2.1, v0.2.2, v1.1, v1.2.1, v1.2.2, v2.1, v2.2.1, v2.2.2,
          v4.1, v4.2.1, v4.2.2] coords = false →
        tr[1]? = some (⟨EntityType.MBTET, 4⟩,
          [v0.1, v0.2.1, v0.2.2, v2.1, v2.2.1, v2.2.2, v3.1, v3.2.1, v3.2.2,
            v4.1, v4.2.1, v4.2.2])) ∧
      (∀ t, tr[1]? = some t → t = (⟨EntityType.MBTET, 4⟩,
          [v0.1, v0.2.1, v0.2.2, v2.1, v2.2.1, v2.2.2, v3.1, v3.2.1, v3.2.2,
            v4.1, v4.2.1, v4.2.2])) ∧
      tr.length ≤ 2 := by
  have hc := getCoords_five moab a0 a1 a2 a3 a4 v0 v1 v2 v3 v4 h0 h1 h2 h3 h4
  have h := pointInElementTrace_pyramid ct moab coords element _ _ hdim htopo hadj hc
  refine ⟨_, _, h, ?_⟩
  have e1 : pyramidTet1 [v0.1, v0.2.1, v0.2.2, v1.1, v1.2.1, v1.2.2, v2.1, v2.2.1, v2.2.2,
      v3.1, v3.2.1, v3.2.2, v4.1, v4.2.1, v4.2.2]
      = [v0.1, v0.2.1, v0.2.2, v1.1, v1.2.1, v1.2.2, v2.1, v2.2.1, v2.2.2,
          v4.1, v4.2.1, v4.2.2] := rfl
  have e2 : pyramidTet2 [v0.1, v0.2.1, v0.2.2, v1.1, v1.2.1, v1.2.2, v2.1, v2.2.1, v2.2.2,
      v3.1, v3.2.1, v3.2.2, v4.1, v4.2.1, v4.2.2]
      = [v0.1, v0.2.1, v0.2.2, v2.1, v2.2.1, v2.2.2, v3.1, v3.2.1, v3.2.2,
          v4.1, v4.2.1, v4.2.2] := rfl
  rw [e1, e2]
  cases inTet ct [v0.1, v0.2.1, v0.2.2, v1.1, v1.2.1, v1.2.2, v2.1, v2.2.1, v2.2.2,
      v4.1, v4.2.1, v4.2.2] coords <;> simp

/-- Witness for C3: the unit pyramid and the point (0.1, 0.9, 0), which fails the first
tetrahedron, so that both tetrahedra are handed over. -/
theorem pyramid_tetrahedra_witness :
    ∃ b tr, pointInElementTrace exactTetCellTools unitPyramidMoab [1 / 10, 9 / 10, 0] 12
        = .ok (b, tr) ∧
      tr[0]? = some (⟨EntityType.MBTET, 4⟩, [0, 0, 0, 1, 0, 0, 1, 1, 0, 1 / 2, 1 / 2, 1]) ∧
      (inTet exactTetCellTools [0, 0, 0, 1, 0, 0, 1, 1, 0, 1 / 2, 1 / 2, 1]
          [1 / 10, 9 / 10, 0] = false →
        tr[1]? = some (⟨EntityType.MBTET, 4⟩, [0, 0, 0, 1, 1, 0, 0, 1, 0, 1 / 2, 1 / 2, 1])) ∧
      (∀ t, tr[1]? = some t →
        t = (⟨EntityType.MBTET, 4⟩, [0, 0, 0, 1, 1, 0, 0, 1, 0, 1 / 2, 1 / 2, 1])) ∧
      tr.length ≤ 2 :=
  pyramid_tetrahedra exactTetCellTools unitPyramidMoab [1 / 10, 9 / 10, 0] 12 0 1 2 3 4
    (0, 0, 0) (1, 0, 0) (1, 1, 0) (0, 1, 0) (1 / 2, 1 / 2, 1) rfl rfl
    (by simp [unitPyramidMoab]) rfl rfl rfl rfl rfl

/-- C4: for the pyramid over the unit square with apex (0.5, 0.5, 1) and the exact
reference-tetrahedron test, the two-tetrahedron test of `pointInElement` is true exactly
for the points of the closed pyramid; (0.5,0.5,0.5) and the base point (0.5,0.5,0) are
inside and (0.9,0.9,0.9) is outside. -/
theorem pointInElement_unitPyramid :
    (∀ x y z : ℚ,
      (pointInElement exactTetCellTools unitPyramidMoab [x, y, z] 12 = .ok true ↔
        (0 ≤ z ∧ z ≤ 1 ∧ |x - 1 / 2| ≤ (1 - z) / 2 ∧ |y - 1 / 2| ≤ (1 - z) / 2)) ∧
      (pointInElement exactTetCellTools unitPyramidMoab [x, y, z] 12 = .ok false ↔
        ¬ (0 ≤ z ∧ z ≤ 1 ∧ |x - 1 / 2| ≤ (1 - z) / 2 ∧ |y - 1 / 2| ≤ (1 - z) / 2))) ∧
    pointInElement exactTetCellTools unitPyramidMoab [1 / 2, 1 / 2, 1 / 2] 12 = .ok true ∧
    pointInElement exactTetCellTools unitPyramidMoab [9 / 10, 9 / 10, 9 / 10] 12 = .ok false ∧
    pointInElement exactTetCellTools unitPyramidMoab [1 / 2, 1 / 2, 0] 12 = .ok true := by
  have key : ∀ x y z : ℚ,
      ((decide (0 ≤ x - y) && decide (0 ≤ y - z / 2) && decide (0 ≤ z)
              && decide (x - y + (y - z / 2) + z ≤ 1))
            || (decide (0 ≤ x - z / 2) && decide (0 ≤ y - x) && decide (0 ≤ z)
              && decide (x - z / 2 + (y - x) + z ≤ 1))) = true ↔
        (0 ≤ z ∧ z ≤ 1 ∧ |x - 1 / 2| ≤ (1 - z) / 2 ∧ |y - 1 / 2| ≤ (1 - z) / 2) := by
    intro x y z
    simp only [Bool.or_eq_true, Bool.and_eq_true, decide_eq_true_eq, abs_le]
    constructor
    · rintro (⟨⟨⟨a, b⟩, c⟩, d⟩ | ⟨⟨⟨a, b⟩, c⟩, d⟩) <;>
        refine ⟨c, ?_, ⟨?_, ?_⟩, ⟨?_, ?_⟩⟩ <;> linarith
    · rintro ⟨a, b, ⟨c, d⟩, ⟨e, f⟩⟩
      rcases le_total y x with h | h
      · left
        refine ⟨⟨⟨?_, ?_⟩, a⟩, ?_⟩ <;> linarith
      · right
        refine ⟨⟨⟨?_, ?_⟩, a⟩, ?_⟩ <;> linarith
  have main : ∀ x y z : ℚ,
      (pointInElement exactTetCellTools unitPyramidMoab [x, y, z] 12 = .ok true ↔
        (0 ≤ z ∧ z ≤ 1 ∧ |x - 1 / 2| ≤ (1 - z) / 2 ∧ |y - 1 / 2| ≤ (1 - z) / 2)) ∧
      (pointInElement exactTetCellTools unitPyramidMoab [x, y, z] 12 = .ok false ↔
        ¬ (0 ≤ z ∧ z ≤ 1 ∧ |x - 1 / 2| ≤ (1 - z) / 2 ∧ |y - 1 / 2| ≤ (1 - z) / 2)) := by
    intro x y z
    rw [pointInElement_unitPyramid_eq, ← key x y z]
    constructor
    · constructor
      · intro h; exact Except.ok.inj h
      · intro h; rw [h]
    · constructor
      · intro h; rw [Except.ok.inj h]; simp
      · intro h; rw [Bool.not_eq_true] at h; rw [h]
  refine ⟨main, (main _ _ _).1.2 ?_, (main _ _ _).2.2 ?_, (main _ _ _).1.2 ?_⟩
  · norm_num [abs_le]
  · norm_num [abs_le]
  · norm_num [abs_le]

/-! ### The removal loops -/

theorem indicesOf_append (v : Nat) (xs ys : List Nat) (s : Nat) :
    indicesOf v (xs ++ ys) s = indicesOf v xs s ++ indicesOf v ys (s + xs.length) := by
  induction xs generalizing s with
  | nil => simp [indicesOf]
  | cons x xs ih =>
    have e : s + 1 + xs.length = s + (xs.length + 1) := by omega
    rw [List.cons_append, indicesOf, indicesOf, List.length_cons, ih, e]
    split
    · rfl
    · rfl

theorem blockStrided_succ {α κ : Type} (dim : Nat) (idx : List κ) (c : Nat → κ → α) :
    blockStrided (dim + 1) idx c = blockStrided dim idx c ++ idx.map (c dim) := by
  simp [blockStrided, List.range_succ]

theorem blockStrided_length {α κ : Type} (dim : Nat) (idx : List κ) (c : Nat → κ → α) :
    (blockStrided dim idx c).length = dim * idx.length := by
  induction dim with
  | zero => simp [blockStrided]
  | succ d ih => rw [blockStrided_succ, List.length_append, ih, List.length_map]; ring

theorem removePointCoords_blockStrided {α κ : Type} (dim : Nat) (pre post : List κ) (a : κ)
    (c : Nat → κ → α) (R : List α) :
    removePointCoords (pre ++ a :: post).length pre.length dim
        (blockStrided dim (pre ++ a :: post) c ++ R)
      = blockStrided dim (pre ++ post) c ++ R := by
  induction dim generalizing R with
  | zero => simp [blockStrided, removePointCoords]
  | succ d ih =>
    rw [removePointCoords, blockStrided_succ, List.append_assoc,
      List.eraseIdx_append_of_length_le (by rw [blockStrided_length]; omega),
      blockStrided_length, Nat.add_sub_cancel_left]
    have e : ((pre ++ a :: post).map (c d) ++ R).eraseIdx pre.length
        = (pre ++ post).map (c d) ++ R := by
      rw [List.map_append, List.map_cons, List.append_assoc,
        List.eraseIdx_append_of_length_le (by simp)]
      simp
    rw [e, ih, blockStrided_succ, List.append_assoc]

theorem pruneLoop_blockStrided {α ι κ : Type} (dim v : Nat) (fl : κ → Nat) (f : κ → ι)
    (c : Nat → κ → α) (idx tail : List κ) (R : List α) :
    pruneLoop dim (indicesOf v (idx.map fl) 0).reverse ((idx ++ tail).map f)
        (blockStrided dim (idx ++ tail) c ++ R)
      = (((idx.filter (fun k => fl k != v)) ++ tail).map f,
         blockStrided dim ((idx.filter (fun k => fl k != v)) ++ tail) c ++ R) := by
  induction idx using List.reverseRecOn generalizing tail with
  | nil => simp [indicesOf, pruneLoop]
  | append_singleton l a ih =>
    rw [List.map_append, indicesOf_append, List.filter_append]
    by_cases h : fl a = v
    · have e1 : indicesOf v (List.map fl [a]) (0 + (l.map fl).length) = [l.length] := by
        simp [indicesOf, h]
      have e2 : List.filter (fun k => fl k != v) [a] = [] := by simp [h]
      rw [e1, e2, List.reverse_append, List.reverse_singleton, List.singleton_append,
        pruneLoop, List.append_nil]
      have e3 : l ++ [a] ++ tail = l ++ a :: tail := by simp
      rw [e3, List.length_map, removePointCoords_blockStrided]
      have e4 : ((l ++ a :: tail).map f).eraseIdx l.length = (l ++ tail).map f := by
        rw [List.map_append, List.map_cons,
          List.eraseIdx_append_of_length_le (by simp)]
        simp
      rw [e4]
      exact ih tail
    · have e1 : indicesOf v (List.map fl [a]) (0 + (l.map fl).length) = [] := by
        simp [indicesOf, h]
      have e2 : List.filter (fun k => fl k != v) [a] = [a] := by simp [h]
      rw [e1, e2, List.append_nil]
      have e3 : l ++ [a] ++ tail = l ++ a :: tail := by simp
      have e4 : List.filter (fun k => fl k != v) l ++ [a] ++ tail
          = List.filter (fun k => fl k != v) l ++ a :: tail := by simp
      rw [e3, e4]
      exact ih (a :: tail)
/-! ### The target side of `setup` -/

theorem take_blockStrided {α : Type} [Inhabited α] (xs : List α) (dim n : Nat)
    (h : dim * n ≤ xs.length) :
    xs.take (dim * n) = blockStrided dim (List.range n) (fun d k => xs.getD (n * d + k) default) := by
  induction dim with
  | zero => simp [blockStrided]
  | succ d ih =>
    have hd : d * n ≤ xs.length := by
      have : (d + 1) * n = d * n + n := by ring
      omega
    have e : (d + 1) * n = d * n + n := by ring
    rw [blockStrided_succ, ← ih hd, e, List.take_add]
    congr 1
    apply List.ext_getElem?
    intro k
    by_cases hk : k < n
    · have hlt : d * n + k < xs.length := by omega
      rw [List.getElem?_take_of_lt hk, List.getElem?_drop, List.getElem?_map,
        List.getElem?_range hk, Option.map_some', List.getElem?_eq_getElem hlt,
        Nat.mul_comm n d, List.getD_eq_getElem _ _ hlt]
    · have hk2 : n ≤ k := not_lt.mp hk
      rw [List.getElem?_eq_none (by simp; omega), List.getElem?_eq_none (by simp; omega)]

theorem getTargetPointsInBoxLoop_fst {α : Type} [Inhabited α] [LinearOrder α] (ordMax : Nat)
    (store : Bool) (box : BoundingBox α) (view : List α) (field_dim dim_size : Nat)
    (ords : List Nat) (count start : Nat) (missed : List Nat) :
    (getTargetPointsInBoxLoop ordMax store box view field_dim dim_size ords count start missed).1
      = (List.range' start count).map (fun n =>
          if box.pointInBox (pointAt view field_dim dim_size n) then ords.getD n 0
          else invalidOrdinal ordMax) := by
  induction count generalizing start missed with
  | zero => simp [getTargetPointsInBoxLoop]
  | succ c ih => simp [getTargetPointsInBoxLoop, ih, List.range'_succ]
theorem stdRemove_map {ι κ : Type} [DecidableEq ι] (v : ι) (fl : κ → ι) (idx : List κ) :
    stdRemove v (idx.map fl) = (idx.filter (fun k => fl k != v)).map fl := by
  rw [stdRemove, List.filter_map]
  congr 1
  apply List.filter_congr
  intro x _
  by_cases h : fl x = v <;> simp [h]

theorem getTargetPointsInBox_ok {α : Type} [Inhabited α] [LinearOrder α] (ordMax : Nat)
    (store : Bool) (box : BoundingBox α) (f : Field α) (r M : Nat) (g2l : List (Nat × Nat))
    (missed : List Nat) :
    ∃ missed1, getTargetPointsInBox ordMax store box f
        (computePointOrdinals ordMax r M store f.dimSize g2l).1 missed
      = .ok ((List.range f.dimSize).map (inBoxEntry ordMax f.dim box r M (some f)), missed1) := by
  refine ⟨(getTargetPointsInBoxLoop ordMax store box f.values f.dim f.dimSize
    (computePointOrdinals ordMax r M store f.dimSize g2l).1 f.dimSize 0 missed).2, ?_⟩
  rw [getTargetPointsInBox, if_neg (by simp [computePointOrdinals_fst])]
  congr 1
  refine Prod.ext ?_ rfl
  rw [getTargetPointsInBoxLoop_fst, ← List.range_eq_range']
  apply List.map_congr_left
  intro n hn
  have hn1 := List.mem_range.mp hn
  have e : (computePointOrdinals ordMax r M store f.dimSize g2l).1.getD n 0
      = pointOrdinal ordMax r M n := by
    rw [computePointOrdinals_fst, List.getD_eq_getElem?_getD, List.getElem?_map,
      List.getElem?_range hn1]
    rfl
  simp only [e]
  rfl

theorem targetSide_ok {α : Type} [Inhabited α] [LinearOrder α] (ordMax dim : Nat)
    (store : Bool) (rv : Rendezvous α) (r M : Nat) (target : Option (Field α))
    (g2l : List (Nat × Nat)) (missed : List Nat) (ts : TargetSide α)
    (hdim : ∀ f, target = some f → f.dim = dim)
    (h : targetSide ordMax dim store rv r M target g2l missed = .ok ts) :
    dim ≠ 0 ∧
    ts.target_ordinals = (List.range (targetCount target)).map (pointOrdinal ordMax r M) ∧
    ts.targets_in_box = (keptPoints ordMax dim rv.getBox r M target).map
      (inBoxEntry ordMax dim rv.getBox r M target) ∧
    ts.rendezvous_procs = (keptPoints ordMax dim rv.getBox r M target).map
      (fun n => rv.getDestinationProc (targetPoint target dim n)) ∧
    ts.coords_copy = blockStrided dim (keptPoints ordMax dim rv.getBox r M target)
      (targetCoord target) := by
  have hD : dim ≠ 0 := by
    intro h0
    simp [targetSide, h0] at h
  refine ⟨hD, ?_⟩
  cases target with
  | none =>
    simp only [targetSide, if_neg hD, Rendezvous.procsContainingPoints, List.length_nil,
      Nat.zero_div, List.range_zero, List.map_nil, indicesOf, List.reverse_nil, pruneLoop,
      Nat.zero_mod, ne_eq, not_true_eq_false, if_false] at h
    have h1 := Except.ok.inj h
    subst h1
    simp [targetCount, keptPoints, blockStrided, computePointOrdinals_fst, stdRemove]
  | some f =>
    have hf : f.dim = dim := hdim f rfl
    subst hf
    obtain ⟨missed1, hbox⟩ := getTargetPointsInBox_ok ordMax store rv.getBox f r M g2l missed
    have hN : f.dim * f.dimSize ≤ f.values.length := by
      rw [Field.dimSize]; exact Nat.mul_div_le _ _
    have hval : f.values = blockStrided f.dim (List.range f.dimSize) (targetCoord (some f))
        ++ f.values.drop (f.dim * f.dimSize) := by
      have := take_blockStrided f.values f.dim f.dimSize hN
      rw [show blockStrided f.dim (List.range f.dimSize) (targetCoord (some f))
        = f.values.take (f.dim * f.dimSize) from this.symm]
      exact (List.take_append_drop _ _).symm
    have hprocs : rv.procsContainingPoints f.dim f.values
        = (List.range f.dimSize ++ []).map
            (fun n => rv.getDestinationProc (targetPoint (some f) f.dim n)) := by
      rw [List.append_nil]; rfl
    have hp : pruneLoop f.dim
        (indicesOf (invalidOrdinal ordMax)
          ((List.range f.dimSize).map (inBoxEntry ordMax f.dim rv.getBox r M (some f))) 0).reverse
        (rv.procsContainingPoints f.dim f.values) f.values
        = ((keptPoints ordMax f.dim rv.getBox r M (some f)).map
            (fun n => rv.getDestinationProc (targetPoint (some f) f.dim n)),
           blockStrided f.dim (keptPoints ordMax f.dim rv.getBox r M (some f))
              (targetCoord (some f)) ++ f.values.drop (f.dim * f.dimSize)) := by
      rw [hprocs]
      conv_lhs => rw [hval]
      have := pruneLoop_blockStrided f.dim (invalidOrdinal ordMax)
        (inBoxEntry ordMax f.dim rv.getBox r M (some f))
        (fun n => rv.getDestinationProc (targetPoint (some f) f.dim n))
        (targetCoord (some f)) (List.range f.dimSize) [] (f.values.drop (f.dim * f.dimSize))
      rw [List.append_nil] at this
      rw [List.append_nil, this, List.append_nil]
      rfl
    have hloc : f.values.length / f.dim = f.dimSize := rfl
    simp only [targetSide, if_neg hD, hloc, hbox, hp] at h
    split at h
    · cases h
    · rename_i hc1
      split at h
      · cases h
      · have h1 := Except.ok.inj h
        subst h1
        have hR : (f.values.drop (f.dim * f.dimSize)).length = 0 := by
          have hlen : (f.values.drop (f.dim * f.dimSize)).length < f.dim := by
            rw [List.length_drop, Field.dimSize]
            have := Nat.mod_lt f.values.length (Nat.pos_of_ne_zero hD)
            have := Nat.div_add_mod f.values.length f.dim
            omega
          simp only [ne_eq, not_not, List.length_append, blockStrided_length] at hc1
          rw [Nat.mul_add_mod] at hc1
          rw [Nat.mod_eq_of_lt hlen] at hc1
          exact hc1
        have hR2 : f.values.drop (f.dim * f.dimSize) = [] := List.length_eq_zero.mp hR
        refine ⟨?_, ?_, rfl, ?_⟩
        · simp [computePointOrdinals_fst, targetCount, pointOrdinal]
        · rw [stdRemove_map]
          rfl
        · simp only [hR2, List.append_nil]

/-! ### Collective results and the distributor -/

theorem allRanks_ok {ε β : Type} (xs : List (Except ε β)) (ys : List β) :
    allRanks xs = .ok ys ↔ xs = ys.map .ok := by
  induction xs generalizing ys with
  | nil =>
    cases ys <;> simp [allRanks]
  | cons x xs ih =>
    cases x with
    | error e => cases ys <;> simp [allRanks]
    | ok b =>
      cases hr : allRanks xs with
      | error e =>
        cases ys with
        | nil => simp [allRanks, hr]
        | cons y ys =>
          simp only [allRanks, hr, List.map_cons, List.cons.injEq]
          constructor
          · intro h; cases h
          · rintro ⟨_, h2⟩
            rw [(ih ys).mpr h2] at hr
            cases hr
      | ok bs =>
        have := (ih bs).mp hr
        cases ys with
        | nil => simp [allRanks, hr]
        | cons y ys =>
          simp only [allRanks, hr, List.map_cons, List.cons.injEq, Except.ok.injEq]
          constructor
          · rintro ⟨rfl, rfl⟩
            exact ⟨rfl, this⟩
          · rintro ⟨rfl, h2⟩
            refine ⟨rfl, ?_⟩
            rw [(ih ys).mpr h2] at hr
            exact (Except.ok.inj hr).symm

theorem allRanks_range {ε β : Type} (P : Nat) (F : Nat → Except ε β) (ys : List β) (d : β)
    (h : allRanks ((List.range P).map F) = .ok ys) :
    ys = (List.range P).map (fun r => ys.getD r d) ∧ ∀ r, r < P → F r = .ok (ys.getD r d) := by
  have h1 := (allRanks_ok _ _).mp h
  have hlen : ys.length = P := by
    have := congrArg List.length h1
    simpa using this.symm
  constructor
  · apply List.ext_getElem (by simp [hlen])
    intro n h1 h2
    simp [List.getElem?_eq_getElem h1]
  · intro r hr
    have h2 := congrArg (fun l => l[r]?) h1
    simp only [List.getElem?_map, List.getElem?_range hr, Option.map_some'] at h2
    rw [List.getElem?_eq_getElem (by omega)] at h2
    simp only [Option.map_some', Option.some.injEq] at h2
    rw [h2, List.getD_eq_getElem _ _ (by omega)]

theorem recvFrom_map {β κ : Type} (q : Nat) (idx : List κ) (pr : κ → Int) (f : κ → β) :
    recvFrom q (idx.map pr) (idx.map f) = (idx.filter (fun k => pr k == (q : Int))).map f := by
  rw [recvFrom, List.zip_map', List.filter_map, List.map_map]
  rfl

theorem doPostsAndWaits_range {β κ : Type} (P q : Nat) (hq : q < P) (K : Nat → List κ)
    (pr : Nat → κ → Int) (f : Nat → κ → β) :
    (doPostsAndWaits ((List.range P).map (fun r => (K r).map (pr r)))
        ((List.range P).map (fun r => (K r).map (f r)))).getD q []
      = (List.range P).flatMap (fun r =>
          ((K r).filter (fun k => pr r k == (q : Int))).map (f r)) := by
  rw [doPostsAndWaits, List.getD_eq_getElem?_getD, List.getElem?_map, List.length_map,
    List.length_range, List.getElem?_range hq, Option.map_some', Option.getD_some,
    List.zip_map', List.flatMap_map]
  apply List.flatMap_congr
  intro r _
  exact recvFrom_map q (K r) (pr r) (f r)

theorem dimBlock_blockStrided {α κ : Type} (dim d : Nat) (hd : d < dim) (idx : List κ)
    (c : Nat → κ → α) : dimBlock (blockStrided dim idx c) idx.length d = idx.map (c d) := by
  induction dim with
  | zero => omega
  | succ D ih =>
    rw [blockStrided_succ, dimBlock]
    by_cases h : d < D
    · have hle : d * idx.length + idx.length ≤ D * idx.length := by
        have : (d + 1) * idx.length ≤ D * idx.length := Nat.mul_le_mul_right _ h
        rw [Nat.add_mul, Nat.one_mul] at this
        exact this
      rw [List.drop_append_of_le_length (by rw [blockStrided_length]; omega),
        List.take_append_of_le_length (by rw [List.length_drop, blockStrided_length]; omega)]
      exact ih h
    · have e : d = D := by omega
      subst e
      rw [List.drop_append_eq_append_drop, List.drop_of_length_le (by rw [blockStrided_length]),
        blockStrided_length, Nat.sub_self, List.drop_zero, List.nil_append,
        List.take_of_length_le (by simp)]
theorem pointAt_blockStrided {α κ : Type} [Inhabited α] (dim : Nat) (idx : List κ)
    (c : Nat → κ → α) (k : Nat) (hk : k < idx.length) :
    pointAt (blockStrided dim idx c) dim idx.length k
      = (List.range dim).map (fun d => c d (idx.get ⟨k, hk⟩)) := by
  rw [pointAt]
  apply List.map_congr_left
  intro d hd
  have hd1 := List.mem_range.mp hd
  have h1 := dimBlock_blockStrided dim d hd1 idx c
  have h2 := congrArg (fun l => l[k]?) h1
  simp only [dimBlock, List.getElem?_take_of_lt hk, List.getElem?_drop, List.getElem?_map,
    List.getElem?_eq_getElem hk, Option.map_some'] at h2
  rw [List.getD_eq_getElem?_getD, Nat.mul_comm, h2]
  rfl

theorem dimensionsAgree_target {α : Type} (map : SharedDomainMap α)
    (source : List (Option (MeshManager α))) (target : List (Option (Field α)))
    (h : dimensionsAgree map source target = true) (r : Nat) (hr : r < map.comm_size)
    (f : Field α) (hf : target.getD r none = some f) : f.dim = map.d_dimension := by
  rw [dimensionsAgree, List.all_eq_true] at h
  have := h r (List.mem_range.mpr hr)
  rw [hf] at this
  simp only [Bool.and_eq_true, decide_eq_true_eq] at this
  exact this.2

theorem setupTargetSides_ok {α : Type} [Inhabited α] [LinearOrder α] (env : Env α)
    (map : SharedDomainMap α) (rv : Rendezvous α) (source : List (Option (MeshManager α)))
    (target : List (Option (Field α))) (tsides : List (TargetSide α))
    (hagree : dimensionsAgree map source target = true)
    (h : setupTargetSides env map rv target = .ok tsides) :
    map.d_dimension ≠ 0 ∨ map.comm_size = 0 := by
  by_cases hP : map.comm_size = 0
  · exact Or.inr hP
  · left
    have h1 := allRanks_range map.comm_size _ tsides ⟨[], [], [], [], [], []⟩ h
    have h2 := h1.2 0 (Nat.pos_of_ne_zero hP)
    exact (targetSide_ok _ _ _ _ _ _ _ _ _ _
      (fun f hf => dimensionsAgree_target map source target hagree 0 (Nat.pos_of_ne_zero hP) f hf)
      h2).1
theorem doPostsAndWaits_tagged {β κ : Type} (P q : Nat) (hq : q < P) (K : Nat → List κ)
    (pr : Nat → κ → Int) (f : Nat → κ → β) :
    (doPostsAndWaits ((List.range P).map (fun r => (K r).map (pr r)))
        ((List.range P).map (fun r => (K r).map (f r)))).getD q []
      = ((List.range P).flatMap (fun r =>
          ((K r).filter (fun k => pr r k == (q : Int))).map (fun k => (r, k)))).map
          (fun x => f x.1 x.2) := by
  rw [doPostsAndWaits_range P q hq, List.map_flatMap]
  apply List.flatMap_congr
  intro r _
  rw [List.map_map]
  rfl

theorem sendCoords_tagged {α κ : Type} (dim P q : Nat) (hq : q < P) (K : Nat → List κ)
    (pr : Nat → κ → Int) (c : Nat → Nat → κ → α) :
    (sendCoords dim ((List.range P).map (fun r => (K r).map (pr r)))
        ((List.range P).map (fun r => (K r).length))
        ((List.range P).map (fun r => blockStrided dim (K r) (c r)))).getD q []
      = blockStrided dim ((List.range P).flatMap (fun r =>
          ((K r).filter (fun k => pr r k == (q : Int))).map (fun k => (r, k))))
          (fun d x => c x.1 d x.2) := by
  rw [sendCoords, List.getD_eq_getElem?_getD, List.getElem?_map, List.length_map,
    List.length_range, List.getElem?_range hq, Option.map_some', Option.getD_some, blockStrided]
  apply List.flatMap_congr
  intro d hd
  have hd1 := List.mem_range.mp hd
  have e : (((List.range P).map (fun r => (K r).length)).zip
        ((List.range P).map (fun r => blockStrided dim (K r) (c r)))).map
        (fun nc => dimBlock nc.2 nc.1 d)
      = (List.range P).map (fun r => (K r).map (c r d)) := by
    rw [List.zip_map', List.map_map]
    apply List.map_congr_left
    intro r _
    simp only [Function.comp]
    exact dimBlock_blockStrided dim d hd1 (K r) (c r)
  rw [e]
  exact doPostsAndWaits_tagged P q hq K pr (fun r => c r d)
theorem setupTargetSides_fields {α : Type} [Inhabited α] [LinearOrder α] (env : Env α)
    (map : SharedDomainMap α) (rv : Rendezvous α) (source : List (Option (MeshManager α)))
    (target : List (Option (Field α))) (tsides : List (TargetSide α))
    (hagree : dimensionsAgree map source target = true)
    (h : setupTargetSides env map rv target = .ok tsides) :
    tsides.map (·.target_ordinals) = (List.range map.comm_size).map (fun r =>
      (List.range (targetCount (target.getD r none))).map
        (pointOrdinal env.ordMax r (reduceAllMax (localSizes map.comm_size target)))) ∧
    tsides.map (·.targets_in_box) = (List.range map.comm_size).map (fun r =>
      (keptPoints env.ordMax map.d_dimension rv.getBox r
          (reduceAllMax (localSizes map.comm_size target)) (target.getD r none)).map
        (inBoxEntry env.ordMax map.d_dimension rv.getBox r
          (reduceAllMax (localSizes map.comm_size target)) (target.getD r none))) ∧
    tsides.map (·.rendezvous_procs) = (List.range map.comm_size).map (fun r =>
      (keptPoints env.ordMax map.d_dimension rv.getBox r
          (reduceAllMax (localSizes map.comm_size target)) (target.getD r none)).map
        (fun n => rv.getDestinationProc (targetPoint (target.getD r none) map.d_dimension n))) ∧
    tsides.map (·.coords_copy) = (List.range map.comm_size).map (fun r =>
      blockStrided map.d_dimension
        (keptPoints env.ordMax map.d_dimension rv.getBox r
          (reduceAllMax (localSizes map.comm_size target)) (target.getD r none))
        (targetCoord (target.getD r none))) := by
  obtain ⟨h1, h2⟩ := allRanks_range map.comm_size _ tsides ⟨[], [], [], [], [], []⟩ h
  have key := fun r (hr : r ∈ List.range map.comm_size) =>
    targetSide_ok _ _ _ _ _ _ _ _ _ _
      (fun f hf => dimensionsAgree_target map source target hagree r (List.mem_range.mp hr) f hf)
      (h2 r (List.mem_range.mp hr))
  refine ⟨?_, ?_, ?_, ?_⟩
  · rw [h1, List.map_map]
    exact List.map_congr_left (fun r hr => (key r hr).2.1)
  · rw [h1, List.map_map]
    exact List.map_congr_left (fun r hr => (key r hr).2.2.1)
  · rw [h1, List.map_map]
    exact List.map_congr_left (fun r hr => (key r hr).2.2.2.1)
  · rw [h1, List.map_map]
    exact List.map_congr_left (fun r hr => (key r hr).2.2.2.2)

theorem setupDistribute_ok {α : Type} [Inhabited α] [LinearOrder α] (env : Env α)
    (map : SharedDomainMap α) (rv : Rendezvous α) (source : List (Option (MeshManager α)))
    (target : List (Option (Field α))) (tsides : List (TargetSide α)) (received : Received α)
    (hagree : dimensionsAgree map source target = true)
    (h : setupTargetSides env map rv target = .ok tsides)
    (hd : setupDistribute map.d_dimension tsides = .ok received) :
    received.plan.length = map.comm_size ∧
    ∀ q, q < map.comm_size →
      received.rendezvous_points.getD q []
        = (atRendezvous env.ordMax map.d_dimension map.comm_size
            (reduceAllMax (localSizes map.comm_size target)) rv target q).map
          (fun x => inBoxEntry env.ordMax map.d_dimension rv.getBox x.1
            (reduceAllMax (localSizes map.comm_size target)) (target.getD x.1 none) x.2) ∧
      received.rendezvous_coords.getD q []
        = blockStrided map.d_dimension
            (atRendezvous env.ordMax map.d_dimension map.comm_size
              (reduceAllMax (localSizes map.comm_size target)) rv target q)
            (fun d x => targetCoord (target.getD x.1 none) d x.2) ∧
      (createFromSends received.plan).getD q 0
        = (atRendezvous env.ordMax map.d_dimension map.comm_size
            (reduceAllMax (localSizes map.comm_size target)) rv target q).length := by
  obtain ⟨_, h2, h3, h4⟩ := setupTargetSides_fields env map rv source target tsides hagree h
  have h5 : tsides.map (fun ts => ts.rendezvous_procs.length)
      = (List.range map.comm_size).map (fun r =>
          (keptPoints env.ordMax map.d_dimension rv.getBox r
            (reduceAllMax (localSizes map.comm_size target)) (target.getD r none)).length) := by
    have e : tsides.map (fun ts => ts.rendezvous_procs.length)
        = (tsides.map (·.rendezvous_procs)).map List.length := by
      rw [List.map_map]; rfl
    rw [e, h3, List.map_map]
    apply List.map_congr_left
    intro r _
    simp only [Function.comp, List.length_map]
  rw [setupDistribute] at hd
  split at hd
  · have hd1 := Except.ok.inj hd
    subst hd1
    simp only [h2, h3, h4, h5]
    refine ⟨by simp, ?_⟩
    intro q hq
    refine ⟨?_, ?_, ?_⟩
    · exact doPostsAndWaits_tagged map.comm_size q hq _ _ _
    · exact sendCoords_tagged map.d_dimension map.comm_size q hq _ _
        (fun r => targetCoord (target.getD r none))
    · rw [createFromSends, List.getD_eq_getElem?_getD, List.getElem?_map]
      have := doPostsAndWaits_tagged map.comm_size q hq
        (fun r => keptPoints env.ordMax map.d_dimension rv.getBox r
          (reduceAllMax (localSizes map.comm_size target)) (target.getD r none))
        (fun r n => rv.getDestinationProc (targetPoint (target.getD r none) map.d_dimension n))
        (fun r n => rv.getDestinationProc (targetPoint (target.getD r none) map.d_dimension n))
      rw [List.getD_eq_getElem?_getD] at this
      have hlen : q < (doPostsAndWaits
          ((List.range map.comm_size).map (fun r =>
            (keptPoints env.ordMax map.d_dimension rv.getBox r
              (reduceAllMax (localSizes map.comm_size target)) (target.getD r none)).map
            (fun n => rv.getDestinationProc
              (targetPoint (target.getD r none) map.d_dimension n))))
          ((List.range map.comm_size).map (fun r =>
            (keptPoints env.ordMax map.d_dimension rv.getBox r
              (reduceAllMax (localSizes map.comm_size target)) (target.getD r none)).map
            (fun n => rv.getDestinationProc
              (targetPoint (target.getD r none) map.d_dimension n))))).length := by
        simp [doPostsAndWaits, hq]
      rw [List.getElem?_eq_getElem hlen] at this ⊢
      simp only [Option.getD_some, Option.map_some'] at this ⊢
      rw [this, List.length_map]
      rfl
  · cases hd
theorem elementsContainingPoints_blockStrided {α κ : Type} [Inhabited α] (rv : Rendezvous α)
    (dim q : Nat) (tol : α) (idx : List κ) (c : Nat → κ → α) (hD : dim ≠ 0) :
    rv.elementsContainingPoints dim q tol (blockStrided dim idx c)
      = (idx.map (fun x => (rv.findElement q tol ((List.range dim).map (fun d => c d x))).1),
         idx.map (fun x => (rv.findElement q tol ((List.range dim).map (fun d => c d x))).2)) := by
  have hlen : (blockStrided dim idx c).length / dim = idx.length := by
    rw [blockStrided_length, Nat.mul_div_cancel_left _ (Nat.pos_of_ne_zero hD)]
  have hfound : (List.range ((blockStrided dim idx c).length / dim)).map (fun n =>
      rv.findElement q tol
        (pointAt (blockStrided dim idx c) dim ((blockStrided dim idx c).length / dim) n))
      = idx.map (fun x => rv.findElement q tol ((List.range dim).map (fun d => c d x))) := by
    rw [hlen]
    apply List.ext_getElem (by simp)
    intro k h1 h2
    have hk : k < idx.length := by simpa using h1
    simp only [List.getElem_map, List.getElem_range]
    rw [pointAt_blockStrided dim idx c k hk]
    rfl
  rw [Rendezvous.elementsContainingPoints]
  simp only [hfound, List.map_map]
  rfl

theorem rendezvousSearch_ok {α κ : Type} [Inhabited α] (ordMax dim : Nat) (store : Bool)
    (rv : Rendezvous α) (tol : α) (q : Nat) (il : List (Nat × Nat)) (num : Nat)
    (rp : List Nat) (idx : List κ) (c : Nat → κ → α) (hD : dim ≠ 0) (S : RendezvousSearch)
    (h : rendezvousSearch ordMax dim store rv tol q il num rp (blockStrided dim idx c) = .ok S) :
    S.rendezvous_elements
      = idx.map (fun x => (rv.findElement q tol ((List.range dim).map (fun d => c d x))).1) ∧
    S.rendezvous_element_src_procs
      = idx.map (fun x => (rv.findElement q tol ((List.range dim).map (fun d => c d x))).2) ∧
    S.not_in_mesh = indicesOf (invalidOrdinal ordMax)
      (idx.map (fun x => (rv.findElement q tol ((List.range dim).map (fun d => c d x))).1)) 0 := by
  rw [rendezvousSearch, elementsContainingPoints_blockStrided rv dim q tol idx c hD] at h
  cases store with
  | false =>
    simp only [Bool.false_eq_true, if_false] at h
    have h1 := Except.ok.inj h
    subst h1
    exact ⟨rfl, rfl, rfl⟩
  | true =>
    simp only [if_true] at h
    split at h
    · cases h
    · have h1 := Except.ok.inj h
      subst h1
      exact ⟨rfl, rfl, rfl⟩
theorem rendezvousPrune_ok {α κ : Type} (ordMax dim : Nat) (S : RendezvousSearch)
    (idx : List κ) (el : κ → Nat) (sp : κ → Int) (ordf : κ → Nat) (c : Nat → κ → α)
    (R : RendezvousSide α)
    (hel : S.rendezvous_elements = idx.map el)
    (hsp : S.rendezvous_element_src_procs = idx.map sp)
    (hnot : S.not_in_mesh = indicesOf (invalidOrdinal ordMax) (idx.map el) 0)
    (hcons : ∀ x ∈ idx, el x = invalidOrdinal ordMax ↔ sp x = -1)
    (h : rendezvousPrune ordMax dim S (idx.map ordf) (blockStrided dim idx c) = .ok R) :
    R.rendezvous_points = (idx.filter (fun x => el x != invalidOrdinal ordMax)).map ordf ∧
    R.rendezvous_coords
      = blockStrided dim (idx.filter (fun x => el x != invalidOrdinal ordMax)) c ∧
    R.rendezvous_elements = (idx.filter (fun x => el x != invalidOrdinal ordMax)).map el ∧
    R.rendezvous_element_src_procs
      = (idx.filter (fun x => el x != invalidOrdinal ordMax)).map sp := by
  have hp := pruneLoop_blockStrided dim (invalidOrdinal ordMax) el ordf c idx [] []
  simp only [List.append_nil] at hp
  rw [rendezvousPrune, hnot, hp, hel, hsp] at h
  split at h
  · cases h
  · split at h
    · cases h
    · simp only at h
      split at h
      · cases h
      · have h1 := Except.ok.inj h
        subst h1
        refine ⟨rfl, rfl, stdRemove_map _ _ _, ?_⟩
        show stdRemove (-1) (idx.map sp) = _
        rw [stdRemove_map]
        congr 1
        apply List.filter_congr
        intro x hx
        have := hcons x hx
        by_cases h1 : el x = invalidOrdinal ordMax
        · rw [this.mp h1, h1, bne_self_eq_false, bne_self_eq_false]
        · have h2 : sp x ≠ -1 := fun h3 => h1 (this.mpr h3)
          rw [bne_iff_ne.mpr h1, bne_iff_ne.mpr h2]
theorem setupPrunes_ok {α : Type} [Inhabited α] [LinearOrder α] (env : Env α)
    (map : SharedDomainMap α) (rv : Rendezvous α) (source : List (Option (MeshManager α)))
    (target : List (Option (Field α))) (tol : α) (tsides : List (TargetSide α))
    (received : Received α) (searches : List RendezvousSearch) (rsides : List (RendezvousSide α))
    (hagree : dimensionsAgree map source target = true)
    (hcons : ∀ q p, (rv.findElement q tol p).1 = invalidOrdinal env.ordMax ↔
      (rv.findElement q tol p).2 = -1)
    (h : setupTargetSides env map rv target = .ok tsides)
    (hd : setupDistribute map.d_dimension tsides = .ok received)
    (hs : setupSearches env map rv tol received = .ok searches)
    (hp : setupPrunes env map received searches = .ok rsides) :
    rsides.map (·.rendezvous_points) = (List.range map.comm_size).map (fun q =>
      (foundAtRendezvous env.ordMax map.d_dimension map.comm_size
          (reduceAllMax (localSizes map.comm_size target)) rv target tol q).map
        (fun x => inBoxEntry env.ordMax map.d_dimension rv.getBox x.1
          (reduceAllMax (localSizes map.comm_size target)) (target.getD x.1 none) x.2)) ∧
    rsides.map (·.rendezvous_coords) = (List.range map.comm_size).map (fun q =>
      blockStrided map.d_dimension
        (foundAtRendezvous env.ordMax map.d_dimension map.comm_size
          (reduceAllMax (localSizes map.comm_size target)) rv target tol q)
        (fun d x => targetCoord (target.getD x.1 none) d x.2)) ∧
    rsides.map (·.rendezvous_elements) = (List.range map.comm_size).map (fun q =>
      (foundAtRendezvous env.ordMax map.d_dimension map.comm_size
          (reduceAllMax (localSizes map.comm_size target)) rv target tol q).map
        (fun x => (searchResult map.d_dimension rv target tol q x).1)) ∧
    rsides.map (·.rendezvous_element_src_procs) = (List.range map.comm_size).map (fun q =>
      (foundAtRendezvous env.ordMax map.d_dimension map.comm_size
          (reduceAllMax (localSizes map.comm_size target)) rv target tol q).map
        (fun x => (searchResult map.d_dimension rv target tol q x).2)) := by
  obtain ⟨_, hrec⟩ := setupDistribute_ok env map rv source target tsides received hagree h hd
  obtain ⟨s1, s2⟩ := allRanks_range map.comm_size _ searches ⟨[], [], [], [], []⟩ hs
  obtain ⟨r1, r2⟩ := allRanks_range map.comm_size _ rsides ⟨[], [], [], []⟩ hp
  have hslen : searches.length = map.comm_size := by
    have := congrArg List.length s1
    simpa using this
  have key : ∀ q, q ∈ List.range map.comm_size →
      (rsides.getD q ⟨[], [], [], []⟩).rendezvous_points
        = (foundAtRendezvous env.ordMax map.d_dimension map.comm_size
            (reduceAllMax (localSizes map.comm_size target)) rv target tol q).map
          (fun x => inBoxEntry env.ordMax map.d_dimension rv.getBox x.1
            (reduceAllMax (localSizes map.comm_size target)) (target.getD x.1 none) x.2) ∧
      (rsides.getD q ⟨[], [], [], []⟩).rendezvous_coords
        = blockStrided map.d_dimension
          (foundAtRendezvous env.ordMax map.d_dimension map.comm_size
            (reduceAllMax (localSizes map.comm_size target)) rv target tol q)
          (fun d x => targetCoord (target.getD x.1 none) d x.2) ∧
      (rsides.getD q ⟨[], [], [], []⟩).rendezvous_elements
        = (foundAtRendezvous env.ordMax map.d_dimension map.comm_size
            (reduceAllMax (localSizes map.comm_size target)) rv target tol q).map
          (fun x => (searchResult map.d_dimension rv target tol q x).1) ∧
      (rsides.getD q ⟨[], [], [], []⟩).rendezvous_element_src_procs
        = (foundAtRendezvous env.ordMax map.d_dimension map.comm_size
            (reduceAllMax (localSizes map.comm_size target)) rv target tol q).map
          (fun x => (searchResult map.d_dimension rv target tol q x).2) := by
    intro q hq
    have hq1 := List.mem_range.mp hq
    have hD : map.d_dimension ≠ 0 := by
      rcases setupTargetSides_ok env map rv source target tsides hagree h with h0 | h0
      · exact h0
      · omega
    obtain ⟨e1, e2, _⟩ := hrec q hq1
    have hsq := s2 q hq1
    rw [e1, e2] at hsq
    obtain ⟨a1, a2, a3⟩ := rendezvousSearch_ok _ _ _ _ _ _ _ _ _ _ _ hD _ hsq
    have hrq := r2 q hq1
    have hq2 : q < searches.length := by omega
    have hget : searches.get? q = some (searches.getD q ⟨[], [], [], [], []⟩) := by
      rw [List.get?_eq_getElem?, List.getElem?_eq_getElem hq2, List.getD_eq_getElem _ _ hq2]
    rw [hget, e1, e2] at hrq
    exact rendezvousPrune_ok env.ordMax map.d_dimension _ _
      (fun x => (searchResult map.d_dimension rv target tol q x).1)
      (fun x => (searchResult map.d_dimension rv target tol q x).2) _ _ _ a1 a2 a3
      (fun x _ => hcons q _) hrq
  refine ⟨?_, ?_, ?_, ?_⟩
  · rw [r1, List.map_map]
    exact List.map_congr_left (fun q hq => (key q hq).1)
  · rw [r1, List.map_map]
    exact List.map_congr_left (fun q hq => (key q hq).2.1)
  · rw [r1, List.map_map]
    exact List.map_congr_left (fun q hq => (key q hq).2.2.1)
  · rw [r1, List.map_map]
    exact List.map_congr_left (fun q hq => (key q hq).2.2.2)
theorem setup_ok_inv {α : Type} [Inhabited α] [LinearOrder α] (env : Env α)
    (map map1 : SharedDomainMap α) (source : List (Option (MeshManager α)))
    (target : List (Option (Field α))) (tol : α)
    (h : setup env map source target tol = .ok map1) :
    dimensionsAgree map source target = true ∧
    ∃ box tsides received searches missed rsides,
      sharedDomainBox env map.d_dimension
        ((List.range map.comm_size).map (fun r => source.getD r none))
        ((List.range map.comm_size).map (fun r => target.getD r none)) = .ok box ∧
      setupTargetSides env map (env.buildRendezvous box) target = .ok tsides ∧
      setupDistribute map.d_dimension tsides = .ok received ∧
      setupSearches env map (env.buildRendezvous box) tol received = .ok searches ∧
      setupMissed map tsides searches = .ok missed ∧
      setupPrunes env map received searches = .ok rsides ∧
      setupFinish map
        (l2g0 (((List.range map.comm_size).map (fun r => source.getD r none)).map Option.isSome))
        tsides missed rsides = .ok map1 := by
  rw [setup] at h
  simp only at h
  split at h
  · cases h
  · rename_i hagree
    refine ⟨by simpa using hagree, ?_⟩
    split at h
    · cases h
    · rename_i box hbox
      split at h
      · cases h
      · rename_i tsides hts
        split at h
        · cases h
        · rename_i received hrec
          split at h
          · cases h
          · rename_i searches hse
            split at h
            · cases h
            · rename_i missed hmi
              split at h
              · cases h
              · rename_i rsides hrs
                exact ⟨box, tsides, received, searches, missed, rsides, hbox, hts, hrec, hse,
                  hmi, hrs, h⟩

theorem setupFinish_ok {α : Type} [Inhabited α] [LinearOrder α] (env : Env α)
    (map map1 : SharedDomainMap α) (rv : Rendezvous α) (source : List (Option (MeshManager α)))
    (target : List (Option (Field α))) (tol : α) (tsides : List (TargetSide α))
    (received : Received α) (searches : List RendezvousSearch) (rsides : List (RendezvousSide α))
    (missed : List (List Nat)) (root : Option Nat)
    (hagree : dimensionsAgree map source target = true)
    (hcons : ∀ q p, (rv.findElement q tol p).1 = invalidOrdinal env.ordMax ↔
      (rv.findElement q tol p).2 = -1)
    (h : setupTargetSides env map rv target = .ok tsides)
    (hd : setupDistribute map.d_dimension tsides = .ok received)
    (hs : setupSearches env map rv tol received = .ok searches)
    (hp : setupPrunes env map received searches = .ok rsides)
    (hf : setupFinish map root tsides missed rsides = .ok map1) :
    map1.d_target_map = (List.range map.comm_size).map (fun r =>
      (List.range (targetCount (target.getD r none))).map
        (pointOrdinal env.ordMax r (reduceAllMax (localSizes map.comm_size target)))) ∧
    ∀ s, s < map.comm_size →
      map1.d_source_elements.getD s []
        = (atSource env.ordMax map.d_dimension map.comm_size
            (reduceAllMax (localSizes map.comm_size target)) rv target tol s).map
          (fun y => (searchResult map.d_dimension rv target tol y.1 y.2).1) ∧
      map1.d_source_map.getD s []
        = (atSource env.ordMax map.d_dimension map.comm_size
            (reduceAllMax (localSizes map.comm_size target)) rv target tol s).map
          (fun y => inBoxEntry env.ordMax map.d_dimension rv.getBox y.2.1
            (reduceAllMax (localSizes map.comm_size target)) (target.getD y.2.1 none) y.2.2) ∧
      map1.d_target_coords.getD s []
        = blockStrided map.d_dimension
          (atSource env.ordMax map.d_dimension map.comm_size
            (reduceAllMax (localSizes map.comm_size target)) rv target tol s)
          (fun d y => targetCoord (target.getD y.2.1 none) d y.2.2) := by
  obtain ⟨t1, _, _, _⟩ := setupTargetSides_fields env map rv source target tsides hagree h
  obtain ⟨p1, p2, p3, p4⟩ := setupPrunes_ok env map rv source target tol tsides received
    searches rsides hagree hcons h hd hs hp
  have p5 : rsides.map (fun R => R.rendezvous_points.length)
      = (List.range map.comm_size).map (fun q =>
          (foundAtRendezvous env.ordMax map.d_dimension map.comm_size
            (reduceAllMax (localSizes map.comm_size target)) rv target tol q).length) := by
    have e : rsides.map (fun R => R.rendezvous_points.length)
        = (rsides.map (·.rendezvous_points)).map List.length := by
      rw [List.map_map]; rfl
    rw [e, p1, List.map_map]
    apply List.map_congr_left
    intro q _
    simp only [Function.comp, List.length_map]
  rw [setupFinish] at hf
  split at hf
  · have hf1 := Except.ok.inj hf
    subst hf1
    simp only [t1, p1, p2, p3, p4, p5, true_and]
    intro s hs
    refine ⟨?_, ?_, ?_⟩
    · exact doPostsAndWaits_tagged map.comm_size s hs
        (fun q => foundAtRendezvous env.ordMax map.d_dimension map.comm_size
          (reduceAllMax (localSizes map.comm_size target)) rv target tol q)
        (fun q x => (searchResult map.d_dimension rv target tol q x).2)
        (fun q x => (searchResult map.d_dimension rv target tol q x).1)
    · exact doPostsAndWaits_tagged map.comm_size s hs
        (fun q => foundAtRendezvous env.ordMax map.d_dimension map.comm_size
          (reduceAllMax (localSizes map.comm_size target)) rv target tol q)
        (fun q x => (searchResult map.d_dimension rv target tol q x).2)
        (fun _ x => inBoxEntry env.ordMax map.d_dimension rv.getBox x.1
            (reduceAllMax (localSizes map.comm_size target)) (target.getD x.1 none) x.2)
    · exact sendCoords_tagged map.d_dimension map.comm_size s hs
        (fun q => foundAtRendezvous env.ordMax map.d_dimension map.comm_size
          (reduceAllMax (localSizes map.comm_size target)) rv target tol q)
        (fun q x => (searchResult map.d_dimension rv target tol q x).2)
        (fun _ d x => targetCoord (target.getD x.1 none) d x.2)
  · cases hf

/-! ### The points that reach the source decomposition -/

theorem nodup_flatMap_of_tag {ι κ : Type} (l : List ι) (f : ι → List κ) (tag : κ → ι)
    (hl : l.Nodup) (hf : ∀ a ∈ l, (f a).Nodup) (ht : ∀ a ∈ l, ∀ x ∈ f a, tag x = a) :
    (l.flatMap f).Nodup := by
  rw [List.nodup_flatMap]
  refine ⟨hf, ?_⟩
  have hp : l.Pairwise (fun a b => a ≠ b) := hl
  refine List.Pairwise.imp_of_mem ?_ hp
  intro a b ha hb hab x hxa hxb
  exact hab ((ht a ha x hxa).symm.trans (ht b hb x hxb))

theorem mem_keptPoints {α : Type} [Inhabited α] [LinearOrder α] (ordMax dim : Nat)
    (box : BoundingBox α) (r M : Nat) (target : Option (Field α)) (n : Nat) :
    n ∈ keptPoints ordMax dim box r M target ↔
      n < targetCount target ∧ inBoxEntry ordMax dim box r M target n ≠ invalidOrdinal ordMax := by
  simp [keptPoints]

theorem mem_atRendezvous {α : Type} [Inhabited α] [LinearOrder α] (ordMax dim P M : Nat)
    (rv : Rendezvous α) (target : List (Option (Field α))) (q : Nat) (x : Nat × Nat) :
    x ∈ atRendezvous ordMax dim P M rv target q ↔
      x.1 < P ∧ x.2 ∈ keptPoints ordMax dim rv.getBox x.1 M (target.getD x.1 none) ∧
      rv.getDestinationProc (targetPoint (target.getD x.1 none) dim x.2) = (q : Int) := by
  obtain ⟨r, n⟩ := x
  simp only [atRendezvous, List.mem_flatMap, List.mem_range, List.mem_map, List.mem_filter,
    beq_iff_eq, Prod.mk.injEq]
  constructor
  · rintro ⟨r1, hr1, n1, ⟨hn1, hq⟩, rfl, rfl⟩
    exact ⟨hr1, hn1, hq⟩
  · rintro ⟨hr, hn, hq⟩
    exact ⟨r, hr, n, ⟨hn, hq⟩, rfl, rfl⟩

theorem mem_atSource {α : Type} [Inhabited α] [LinearOrder α] (ordMax dim P M : Nat)
    (rv : Rendezvous α) (target : List (Option (Field α))) (tol : α) (s : Nat)
    (y : Nat × Nat × Nat) :
    y ∈ atSource ordMax dim P M rv target tol s ↔
      y.1 < P ∧ y.2 ∈ atRendezvous ordMax dim P M rv target y.1 ∧
      (searchResult dim rv target tol y.1 y.2).1 ≠ invalidOrdinal ordMax ∧
      (searchResult dim rv target tol y.1 y.2).2 = (s : Int) := by
  obtain ⟨q, x⟩ := y
  simp only [atSource, foundAtRendezvous, List.mem_flatMap, List.mem_range, List.mem_map,
    List.mem_filter, beq_iff_eq, bne_iff_ne, Prod.mk.injEq]
  constructor
  · rintro ⟨q1, hq1, x1, ⟨⟨hx1, hel⟩, hsp⟩, rfl, rfl⟩
    exact ⟨hq1, hx1, hel, hsp⟩
  · rintro ⟨hq, hx, hel, hsp⟩
    exact ⟨q, hq, x, ⟨⟨hx, hel⟩, hsp⟩, rfl, rfl⟩

theorem atRendezvous_nodup {α : Type} [Inhabited α] [LinearOrder α] (ordMax dim P M : Nat)
    (rv : Rendezvous α) (target : List (Option (Field α))) (q : Nat) :
    (atRendezvous ordMax dim P M rv target q).Nodup := by
  apply nodup_flatMap_of_tag _ _ Prod.fst (List.nodup_range P)
  · intro r _
    apply List.Nodup.map (fun a b h => (Prod.mk.inj h).2)
    exact ((List.nodup_range _).filter _).filter _
  · intro r _ x hx
    obtain ⟨n, _, rfl⟩ := List.mem_map.mp hx
    rfl

theorem atSource_nodup {α : Type} [Inhabited α] [LinearOrder α] (ordMax dim P M : Nat)
    (rv : Rendezvous α) (target : List (Option (Field α))) (tol : α) (s : Nat) :
    (atSource ordMax dim P M rv target tol s).Nodup := by
  apply nodup_flatMap_of_tag _ _ Prod.fst (List.nodup_range P)
  · intro q _
    apply List.Nodup.map (fun a b h => (Prod.mk.inj h).2)
    exact ((atRendezvous_nodup ordMax dim P M rv target q).filter _).filter _
  · intro q _ y hy
    obtain ⟨x, _, rfl⟩ := List.mem_map.mp hy
    rfl

theorem allAtSource_nodup {α : Type} [Inhabited α] [LinearOrder α] (ordMax dim P M : Nat)
    (rv : Rendezvous α) (target : List (Option (Field α))) (tol : α) :
    ((List.range P).flatMap (atSource ordMax dim P M rv target tol)).Nodup := by
  apply nodup_flatMap_of_tag _ _
    (fun y => (searchResult dim rv target tol y.1 y.2).2.toNat) (List.nodup_range P)
  · intro s _
    exact atSource_nodup ordMax dim P M rv target tol s
  · intro s _ y hy
    have := ((mem_atSource ordMax dim P M rv target tol s y).mp hy).2.2.2
    simp only [this, Int.toNat_ofNat]
theorem validSends_range {κ : Type} (P : Nat) (K : Nat → List κ) (pr : Nat → κ → Int)
    (h : validSends ((List.range P).map (fun r => (K r).map (pr r))) = true) (r : Nat)
    (hr : r < P) (k : κ) (hk : k ∈ K r) : 0 ≤ pr r k ∧ pr r k < (P : Int) := by
  rw [validSends, List.all_eq_true] at h
  have h1 := h ((K r).map (pr r)) (List.mem_map.mpr ⟨r, List.mem_range.mpr hr, rfl⟩)
  rw [List.all_eq_true] at h1
  have h2 := h1 (pr r k) (List.mem_map.mpr ⟨k, hk, rfl⟩)
  simpa using h2

theorem setupDistribute_valid {α : Type} [Inhabited α] [LinearOrder α] (env : Env α)
    (map : SharedDomainMap α) (rv : Rendezvous α) (source : List (Option (MeshManager α)))
    (target : List (Option (Field α))) (tsides : List (TargetSide α)) (received : Received α)
    (hagree : dimensionsAgree map source target = true)
    (h : setupTargetSides env map rv target = .ok tsides)
    (hd : setupDistribute map.d_dimension tsides = .ok received) (r n : Nat)
    (hr : r < map.comm_size)
    (hn : n ∈ keptPoints env.ordMax map.d_dimension rv.getBox r
      (reduceAllMax (localSizes map.comm_size target)) (target.getD r none)) :
    0 ≤ rv.getDestinationProc (targetPoint (target.getD r none) map.d_dimension n) ∧
    rv.getDestinationProc (targetPoint (target.getD r none) map.d_dimension n)
      < (map.comm_size : Int) := by
  obtain ⟨_, _, h3, _⟩ := setupTargetSides_fields env map rv source target tsides hagree h
  rw [setupDistribute] at hd
  split at hd
  · rename_i hv
    simp only [Bool.and_eq_true] at hv
    have hv1 := hv.1.1
    rw [h3] at hv1
    exact validSends_range map.comm_size
      (fun r => keptPoints env.ordMax map.d_dimension rv.getBox r
        (reduceAllMax (localSizes map.comm_size target)) (target.getD r none))
      (fun r n => rv.getDestinationProc (targetPoint (target.getD r none) map.d_dimension n))
      hv1 r hr n hn
  · cases hd

theorem setupFinish_valid {α : Type} [Inhabited α] [LinearOrder α] (env : Env α)
    (map map1 : SharedDomainMap α) (rv : Rendezvous α) (source : List (Option (MeshManager α)))
    (target : List (Option (Field α))) (tol : α) (tsides : List (TargetSide α))
    (received : Received α) (searches : List RendezvousSearch) (rsides : List (RendezvousSide α))
    (missed : List (List Nat)) (root : Option Nat)
    (hagree : dimensionsAgree map source target = true)
    (hcons : ∀ q p, (rv.findElement q tol p).1 = invalidOrdinal env.ordMax ↔
      (rv.findElement q tol p).2 = -1)
    (h : setupTargetSides env map rv target = .ok tsides)
    (hd : setupDistribute map.d_dimension tsides = .ok received)
    (hs : setupSearches env map rv tol received = .ok searches)
    (hp : setupPrunes env map received searches = .ok rsides)
    (hf : setupFinish map root tsides missed rsides = .ok map1) (q : Nat) (x : Nat × Nat)
    (hq : q < map.comm_size)
    (hx : x ∈ foundAtRendezvous env.ordMax map.d_dimension map.comm_size
      (reduceAllMax (localSizes map.comm_size target)) rv target tol q) :
    0 ≤ (searchResult map.d_dimension rv target tol q x).2 ∧
    (searchResult map.d_dimension rv target tol q x).2 < (map.comm_size : Int) := by
  obtain ⟨_, _, _, p4⟩ := setupPrunes_ok env map rv source target tol tsides received
    searches rsides hagree hcons h hd hs hp
  rw [setupFinish] at hf
  split at hf
  · rename_i hv
    simp only [Bool.and_eq_true] at hv
    have hv1 := hv.1.1.1
    rw [p4] at hv1
    exact validSends_range map.comm_size
      (fun q => foundAtRendezvous env.ordMax map.d_dimension map.comm_size
        (reduceAllMax (localSizes map.comm_size target)) rv target tol q)
      (fun q x => (searchResult map.d_dimension rv target tol q x).2) hv1 q hq x hx
  · cases hf

theorem targetCount_le_globalMax {α : Type} (P : Nat) (target : List (Option (Field α)))
    (r : Nat) (hr : r < P) :
    targetCount (target.getD r none) ≤ reduceAllMax (localSizes P target) := by
  have h := le_reduceAllMax (localSizes P target) r
  have e : (localSizes P target).getD r 0 = targetCount (target.getD r none) := by
    rw [localSizes, List.getD_eq_getElem?_getD, List.getElem?_map, List.getElem?_range hr]
    simp only [Option.map_some', Option.getD_some, targetCount, Field.dimSize]
  rw [e] at h
  exact h

theorem pointOrdinal_of_fit {α : Type} (ordMax P : Nat) (target : List (Option (Field α)))
    (hfit : P * reduceAllMax (localSizes P target) ≤ ordMax) (r n : Nat) (hr : r < P)
    (hn : n < targetCount (target.getD r none)) :
    pointOrdinal ordMax r (reduceAllMax (localSizes P target)) n
        = r * reduceAllMax (localSizes P target) + n ∧
    r * reduceAllMax (localSizes P target) + n < ordMax := by
  have hM := targetCount_le_globalMax P target r hr
  have h1 : r * reduceAllMax (localSizes P target) + n
      < (r + 1) * reduceAllMax (localSizes P target) := by
    rw [Nat.add_mul, Nat.one_mul]; omega
  have h2 : (r + 1) * reduceAllMax (localSizes P target)
      ≤ P * reduceAllMax (localSizes P target) := Nat.mul_le_mul_right _ hr
  have h3 : r * reduceAllMax (localSizes P target) + n < ordMax := by omega
  exact ⟨Nat.mod_eq_of_lt (by omega), h3⟩
theorem inBoxEntry_of_ne {α : Type} [Inhabited α] [LinearOrder α] (ordMax dim : Nat)
    (box : BoundingBox α) (r M : Nat) (target : Option (Field α)) (n : Nat)
    (h : inBoxEntry ordMax dim box r M target n ≠ invalidOrdinal ordMax) :
    box.pointInBox (targetPoint target dim n) = true ∧
    inBoxEntry ordMax dim box r M target n = pointOrdinal ordMax r M n := by
  unfold inBoxEntry at h ⊢
  split
  · rename_i hb
    exact ⟨hb, rfl⟩
  · rename_i hb
    rw [if_neg hb] at h
    exact absurd rfl h

theorem atSource_facts {α : Type} [Inhabited α] [LinearOrder α] (ordMax dim P : Nat)
    (rv : Rendezvous α) (target : List (Option (Field α))) (tol : α)
    (hfit : P * reduceAllMax (localSizes P target) ≤ ordMax) (s : Nat) (y : Nat × Nat × Nat)
    (hy : y ∈ atSource ordMax dim P (reduceAllMax (localSizes P target)) rv target tol s) :
    y.2.1 < P ∧ y.2.2 < targetCount (target.getD y.2.1 none) ∧
    inBoxEntry ordMax dim rv.getBox y.2.1 (reduceAllMax (localSizes P target))
        (target.getD y.2.1 none) y.2.2
      = y.2.1 * reduceAllMax (localSizes P target) + y.2.2 ∧
    y.1 = rendezvousRank dim rv target y.2.1 y.2.2 ∧
    isMapped ordMax dim rv target tol y.2.1 y.2.2 = true ∧
    (searchResult dim rv target tol (rendezvousRank dim rv target y.2.1 y.2.2) y.2).2 = (s : Int) := by
  obtain ⟨_, h2, h3, h4⟩ := (mem_atSource _ _ _ _ _ _ _ _ _).mp hy
  obtain ⟨g1, g2, g3⟩ := (mem_atRendezvous _ _ _ _ _ _ _ _).mp h2
  obtain ⟨k1, k2⟩ := (mem_keptPoints _ _ _ _ _ _ _).mp g2
  obtain ⟨b1, b2⟩ := inBoxEntry_of_ne _ _ _ _ _ _ _ k2
  have hq : y.1 = rendezvousRank dim rv target y.2.1 y.2.2 := by
    rw [rendezvousRank, g3, Int.toNat_ofNat]
  refine ⟨g1, k1, ?_, hq, ?_, ?_⟩
  · rw [b2]
    exact (pointOrdinal_of_fit ordMax P target hfit _ _ g1 k1).1
  · rw [isMapped, b1, Bool.true_and, ← hq]
    exact bne_iff_ne.mpr h3
  · rw [← hq]; exact h4

theorem atSource_ord_inj {α : Type} [Inhabited α] [LinearOrder α] (ordMax dim P : Nat)
    (rv : Rendezvous α) (target : List (Option (Field α))) (tol : α)
    (hfit : P * reduceAllMax (localSizes P target) ≤ ordMax) (s : Nat) (y : Nat × Nat × Nat)
    (hy : y ∈ atSource ordMax dim P (reduceAllMax (localSizes P target)) rv target tol s)
    (r n : Nat) (hr : r < P) (hn : n < targetCount (target.getD r none))
    (he : inBoxEntry ordMax dim rv.getBox y.2.1 (reduceAllMax (localSizes P target))
        (target.getD y.2.1 none) y.2.2 = r * reduceAllMax (localSizes P target) + n) :
    y = (rendezvousRank dim rv target r n, r, n) := by
  obtain ⟨a1, a2, a3, a4, _, _⟩ := atSource_facts ordMax dim P rv target tol hfit s y hy
  rw [a3] at he
  obtain ⟨e1, e2⟩ := ordinal_inj _ _ _ _ _
    (lt_of_lt_of_le a2 (targetCount_le_globalMax P target _ a1))
    (lt_of_lt_of_le hn (targetCount_le_globalMax P target _ hr)) he
  obtain ⟨q, r1, n1⟩ := y
  simp only at e1 e2 a4
  subst e1 e2 a4
  rfl
theorem flatten_eq_flatMap_getD {β : Type} (l : List (List β)) :
    l.flatten = (List.range l.length).flatMap (fun s => l.getD s []) := by
  induction l using List.reverseRecOn with
  | nil => rfl
  | append_singleton l a ih =>
    rw [List.flatten_append, List.length_append, List.length_singleton, List.range_succ,
      List.flatMap_append, ih]
    congr 1
    · apply List.flatMap_congr
      intro s hs
      have hs1 := List.mem_range.mp hs
      rw [List.getD_eq_getElem?_getD, List.getD_eq_getElem?_getD,
        List.getElem?_append_left hs1]
    · simp

theorem setupFinish_length {α : Type} (map map1 : SharedDomainMap α) (root : Option Nat)
    (tsides : List (TargetSide α)) (missed : List (List Nat)) (rsides : List (RendezvousSide α))
    (hf : setupFinish map root tsides missed rsides = .ok map1) :
    map1.d_source_map.length = rsides.length ∧ map1.d_source_elements.length = rsides.length ∧
    map1.d_target_coords.length = rsides.length ∧ map1.comm_size = map.comm_size ∧
    map1.d_dimension = map.d_dimension := by
  rw [setupFinish] at hf
  split at hf
  · have hf1 := Except.ok.inj hf
    subst hf1
    simp [doPostsAndWaits, sendCoords]
  · cases hf

theorem setup_rsides_length {α : Type} (env : Env α) (map : SharedDomainMap α)
    (received : Received α) (searches : List RendezvousSearch) (rsides : List (RendezvousSide α))
    (hp : setupPrunes env map received searches = .ok rsides) :
    rsides.length = map.comm_size := by
  have h1 := (allRanks_ok _ _).mp hp
  have := congrArg List.length h1
  simpa using this.symm
theorem mapped_mem_atSource {α : Type} [Inhabited α] [LinearOrder α] (ordMax dim P : Nat)
    (rv : Rendezvous α) (target : List (Option (Field α))) (tol : α)
    (hfit : P * reduceAllMax (localSizes P target) ≤ ordMax)
    (hv1 : ∀ r n, r < P →
      n ∈ keptPoints ordMax dim rv.getBox r (reduceAllMax (localSizes P target))
        (target.getD r none) →
      0 ≤ rv.getDestinationProc (targetPoint (target.getD r none) dim n) ∧
      rv.getDestinationProc (targetPoint (target.getD r none) dim n) < (P : Int))
    (hv2 : ∀ q x, q < P →
      x ∈ foundAtRendezvous ordMax dim P (reduceAllMax (localSizes P target)) rv target tol q →
      0 ≤ (searchResult dim rv target tol q x).2 ∧
      (searchResult dim rv target tol q x).2 < (P : Int))
    (r n : Nat) (hr : r < P) (hn : n < targetCount (target.getD r none))
    (hm : isMapped ordMax dim rv target tol r n = true) :
    (rendezvousRank dim rv target r n, r, n) ∈
      (List.range P).flatMap
        (atSource ordMax dim P (reduceAllMax (localSizes P target)) rv target tol) := by
  rw [isMapped, Bool.and_eq_true, bne_iff_ne] at hm
  obtain ⟨hb, hel⟩ := hm
  obtain ⟨o1, o2⟩ := pointOrdinal_of_fit ordMax P target hfit r n hr hn
  have hk : n ∈ keptPoints ordMax dim rv.getBox r (reduceAllMax (localSizes P target))
      (target.getD r none) := by
    rw [mem_keptPoints]
    refine ⟨hn, ?_⟩
    rw [inBoxEntry, if_pos hb, o1, invalidOrdinal]
    omega
  obtain ⟨p1, p2⟩ := hv1 r n hr hk
  have hq : ((rendezvousRank dim rv target r n : Nat) : Int)
      = rv.getDestinationProc (targetPoint (target.getD r none) dim n) := by
    rw [rendezvousRank]; exact Int.toNat_of_nonneg p1
  have hqP : rendezvousRank dim rv target r n < P := by omega
  have hG : (r, n) ∈ atRendezvous ordMax dim P (reduceAllMax (localSizes P target)) rv target
      (rendezvousRank dim rv target r n) := by
    rw [mem_atRendezvous]
    exact ⟨hr, hk, hq.symm⟩
  have hH : (r, n) ∈ foundAtRendezvous ordMax dim P (reduceAllMax (localSizes P target)) rv
      target tol (rendezvousRank dim rv target r n) := by
    rw [foundAtRendezvous, List.mem_filter]
    exact ⟨hG, bne_iff_ne.mpr hel⟩
  obtain ⟨s1, s2⟩ := hv2 _ _ hqP hH
  rw [List.mem_flatMap]
  refine ⟨(searchResult dim rv target tol (rendezvousRank dim rv target r n) (r, n)).2.toNat,
    List.mem_range.mpr (by omega), ?_⟩
  rw [mem_atSource]
  exact ⟨hqP, hG, hel, (Int.toNat_of_nonneg s1).symm⟩

theorem example_setup :
    setup exampleEnv (SharedDomainMap.new 2 3 true) exampleSource exampleTarget 0
      = .ok exampleMap := by
  rfl

theorem exampleRendezvous_consistent (box : BoundingBox ℤ) (q : Nat) (tol : ℤ) (p : List ℤ) :
    ((exampleEnv.buildRendezvous box).findElement q tol p).1 = invalidOrdinal exampleEnv.ordMax ↔
    ((exampleEnv.buildRendezvous box).findElement q tol p).2 = -1 := by
  simp only [exampleEnv, exampleRendezvous, invalidOrdinal]
  split <;> simp

/-- Counterexample to C5 as stated: in the two-rank example `setup` completes, the target
point (1,1,9) of rank 1 (local index 2, ordinal 6) lies in the shared-domain box, and no
entry of any source map carries its ordinal. -/
theorem setup_in_box_point_without_entry :
    setup exampleEnv (SharedDomainMap.new 2 3 true) exampleSource exampleTarget 0
      = .ok exampleMap ∧
    sharedDomainBox exampleEnv 3 exampleSource exampleTarget = .ok ⟨1, 1, 3, 10, 10, 10⟩ ∧
    (exampleEnv.buildRendezvous ⟨1, 1, 3, 10, 10, 10⟩).getBox.pointInBox
      (targetPoint (exampleTarget.getD 1 none) 3 2) = true ∧
    targetPoint (exampleTarget.getD 1 none) 3 2 = [1, 1, 9] ∧
    (allTargetOrdinals exampleEnv.ordMax true (localSizes 2 exampleTarget)).getD 1 [] = [4, 5, 6, 7] ∧
    exampleMap.d_source_map.flatten.count 6 = 0 := by
  refine ⟨rfl, rfl, rfl, rfl, rfl, rfl⟩

/-! ### Sizes and content of the cached arrays -/

theorem mem_recvFrom {β : Type} (q : Nat) (ep : List Int) (buf : List β) (x : β)
    (h : x ∈ recvFrom q ep buf) : x ∈ buf := by
  rw [recvFrom, List.mem_map] at h
  obtain ⟨a, ha, rfl⟩ := h
  exact (List.of_mem_zip (List.mem_of_mem_filter ha)).2

theorem recvFrom_length {β : Type} (q : Nat) (ep : List Int) (buf : List β)
    (h : ep.length = buf.length) :
    (recvFrom q ep buf).length = (recvFrom q ep ep).length := by
  induction ep generalizing buf with
  | nil => simp [recvFrom]
  | cons p ps ih =>
    cases buf with
    | nil => simp at h
    | cons b bs =>
      have h1 : ps.length = bs.length := by simpa using h
      have := ih bs h1
      simp only [recvFrom, List.length_map] at this ⊢
      simp only [List.zip_cons_cons, List.filter_cons]
      split <;> simp [this]

theorem doPostsAndWaits_getD {β : Type} (plan : List (List Int)) (bufs : List (List β))
    (q : Nat) (hq : q < plan.length) :
    (doPostsAndWaits plan bufs).getD q []
      = (plan.zip bufs).flatMap (fun ps => recvFrom q ps.1 ps.2) := by
  rw [doPostsAndWaits, List.getD_eq_getElem?_getD, List.getElem?_map,
    List.getElem?_range hq, Option.map_some', Option.getD_some]

theorem doPostsAndWaits_getD_of_le {β : Type} (plan : List (List Int)) (bufs : List (List β))
    (q : Nat) (hq : plan.length ≤ q) : (doPostsAndWaits plan bufs).getD q [] = [] := by
  rw [List.getD_eq_default]
  simpa [doPostsAndWaits] using hq

theorem zip_recv_length {β : Type} (q : Nat) (plan : List (List Int)) (bufs : List (List β))
    (h : sendsFit plan bufs = true) :
    ((plan.zip bufs).flatMap (fun ps => recvFrom q ps.1 ps.2)).length
      = ((plan.zip plan).flatMap (fun ps => recvFrom q ps.1 ps.2)).length := by
  induction plan generalizing bufs with
  | nil => simp
  | cons p ps ih =>
    cases bufs with
    | nil => simp [sendsFit] at h
    | cons b bs =>
      simp only [sendsFit, List.length_cons, Nat.add_right_cancel_iff, List.zip_cons_cons,
        List.all_cons, Bool.and_eq_true, decide_eq_true_eq] at h
      have h1 : sendsFit ps bs = true := by
        simp only [sendsFit, Bool.and_eq_true, decide_eq_true_eq]
        exact ⟨h.1, h.2.2⟩
      simp only [List.zip_cons_cons, List.flatMap_cons, List.length_append, ih bs h1,
        recvFrom_length q p b h.2.1]

theorem doPostsAndWaits_length {β : Type} (plan : List (List Int)) (bufs : List (List β))
    (h : sendsFit plan bufs = true) (q : Nat) :
    ((doPostsAndWaits plan bufs).getD q []).length = (createFromSends plan).getD q 0 := by
  by_cases hq : q < plan.length
  · rw [doPostsAndWaits_getD plan bufs q hq, zip_recv_length q plan bufs h, createFromSends,
      List.getD_eq_getElem?_getD, List.getElem?_map, ← doPostsAndWaits_getD plan plan q hq,
      List.getD_eq_getElem?_getD]
    have hl : q < (doPostsAndWaits plan plan).length := by simpa [doPostsAndWaits] using hq
    rw [List.getElem?_eq_getElem hl]
    rfl
  · have hq1 : plan.length ≤ q := not_lt.mp hq
    rw [doPostsAndWaits_getD_of_le plan bufs q hq1, createFromSends, List.getD_eq_default]
    · rfl
    · simpa [doPostsAndWaits] using hq1

theorem mem_doPostsAndWaits {β : Type} (plan : List (List Int)) (bufs : List (List β))
    (q : Nat) (x : β) (h : x ∈ (doPostsAndWaits plan bufs).getD q []) :
    ∃ buf, buf ∈ bufs ∧ x ∈ buf := by
  by_cases hq : q < plan.length
  · rw [doPostsAndWaits_getD plan bufs q hq, List.mem_flatMap] at h
    obtain ⟨ps, hps, hx⟩ := h
    exact ⟨ps.2, (List.of_mem_zip hps).2, mem_recvFrom q ps.1 ps.2 x hx⟩
  · rw [doPostsAndWaits_getD_of_le plan bufs q (not_lt.mp hq)] at h
    cases h

theorem sendCoords_length {α : Type} (dim : Nat) (plan : List (List Int))
    (num_points : List Nat) (coords : List (List α))
    (h : coordsFit dim plan num_points coords = true) (q : Nat) :
    ((sendCoords dim plan num_points coords).getD q []).length
      = dim * (createFromSends plan).getD q 0 := by
  by_cases hq : q < plan.length
  · rw [sendCoords, List.getD_eq_getElem?_getD, List.getElem?_map, List.getElem?_range hq,
      Option.map_some', Option.getD_some]
    rw [coordsFit, List.all_eq_true] at h
    have key : ∀ n, n ≤ dim →
        ((List.range n).flatMap (fun d =>
          (doPostsAndWaits plan
            ((num_points.zip coords).map (fun nc => dimBlock nc.2 nc.1 d))).getD q [])).length
          = n * (createFromSends plan).getD q 0 := by
      intro n
      induction n with
      | zero => intro _; simp
      | succ m ih =>
        intro hm
        rw [List.range_succ, List.flatMap_append, List.length_append, ih (by omega)]
        simp only [List.flatMap_cons, List.flatMap_nil, List.append_nil]
        rw [doPostsAndWaits_length plan _ (h m (List.mem_range.mpr (by omega))) q]
        ring
    exact key dim (le_refl _)
  · have hq1 : plan.length ≤ q := not_lt.mp hq
    rw [List.getD_eq_default _ _ (by simpa [sendCoords] using hq1), createFromSends,
      List.getD_eq_default _ _ (by simpa [doPostsAndWaits] using hq1)]
    simp

theorem rendezvousPrune_elements {α : Type} (ordMax dim : Nat) (S : RendezvousSearch)
    (rp : List Nat) (rc : List α) (R : RendezvousSide α)
    (h : rendezvousPrune ordMax dim S rp rc = .ok R) :
    invalidOrdinal ordMax ∉ R.rendezvous_elements := by
  rw [rendezvousPrune] at h
  split at h
  · cases h
  · split at h
    · cases h
    · simp only at h
      split at h
      · cases h
      · have h1 := Except.ok.inj h
        subst h1
        simp [stdRemove]
theorem allRanks_mem {ε β ι : Type} (l : List ι) (F : ι → Except ε β) (ys : List β)
    (h : allRanks (l.map F) = .ok ys) (y : β) (hy : y ∈ ys) : ∃ x, x ∈ l ∧ F x = .ok y := by
  have h1 := (allRanks_ok _ _).mp h
  have h2 : Except.ok y ∈ l.map F := by
    rw [h1]; exact List.mem_map.mpr ⟨y, hy, rfl⟩
  obtain ⟨x, hx, hxy⟩ := List.mem_map.mp h2
  exact ⟨x, hx, hxy⟩

theorem setupPrunes_elements {α : Type} (env : Env α) (map : SharedDomainMap α)
    (received : Received α) (searches : List RendezvousSearch) (rsides : List (RendezvousSide α))
    (hp : setupPrunes env map received searches = .ok rsides) (R : RendezvousSide α)
    (hR : R ∈ rsides) : invalidOrdinal env.ordMax ∉ R.rendezvous_elements := by
  obtain ⟨q, _, hq⟩ := allRanks_mem _ _ rsides hp R hR
  split at hq
  · exact rendezvousPrune_elements _ _ _ _ _ _ hq
  · cases hq

/-- C6: after `setup` completes, on every rank no entry of the cached `source_elements`
equals the invalid ordinal `std::numeric_limits<GlobalOrdinal>::max()`, and the cached
`target_coords` has exactly dimension times the number of source elements entries. -/
theorem setup_cached_arrays {α : Type} [Inhabited α] [LinearOrder α] (env : Env α)
    (map map1 : SharedDomainMap α) (source : List (Option (MeshManager α)))
    (target : List (Option (Field α))) (tol : α)
    (hsetup : setup env map source target tol = .ok map1) (s : Nat) :
    (∀ e, e ∈ map1.d_source_elements.getD s [] → e ≠ invalidOrdinal env.ordMax) ∧
    (map1.d_target_coords.getD s []).length
      = map.d_dimension * (map1.d_source_elements.getD s []).length := by
  obtain ⟨_, box, tsides, received, searches, missed, rsides, _, _, _, _, _, hrs, hfin⟩ :=
    setup_ok_inv env map map1 source target tol hsetup
  rw [setupFinish] at hfin
  split at hfin
  · rename_i hfit
    simp only [Bool.and_eq_true] at hfit
    obtain ⟨⟨⟨_, f1⟩, _⟩, f3⟩ := hfit
    have h1 := Except.ok.inj hfin
    subst h1
    simp only
    constructor
    · intro e he hsent
      obtain ⟨buf, hbuf, hx⟩ := mem_doPostsAndWaits _ _ s e he
      obtain ⟨R, hR, rfl⟩ := List.mem_map.mp hbuf
      rw [hsent] at hx
      exact setupPrunes_elements env map received searches rsides hrs R hR hx
    · rw [sendCoords_length _ _ _ _ f3 s, doPostsAndWaits_length _ _ f1 s]
  · cases hfin

/-- Witness for C6: the two-rank example. -/
theorem setup_cached_arrays_witness :
    setup exampleEnv (SharedDomainMap.new 2 3 true) exampleSource exampleTarget 0
      = .ok exampleMap ∧
    (∀ e, e ∈ exampleMap.d_source_elements.getD 0 [] → e ≠ invalidOrdinal exampleEnv.ordMax) ∧
    (exampleMap.d_target_coords.getD 0 []).length
      = (SharedDomainMap.new 2 3 true : SharedDomainMap ℤ).d_dimension
        * (exampleMap.d_source_elements.getD 0 []).length :=
  ⟨by rfl, setup_cached_arrays exampleEnv (SharedDomainMap.new 2 3 true) exampleMap
    exampleSource exampleTarget 0 (by rfl) 0⟩

/-- C7: `getTargetPointsInBox` fails its precondition when the number of ordinals differs
from the number of points `dim_size`; otherwise it returns `dim_size` entries, and entry
`n` is `target_ordinals[n]` if the point with the block-strided coordinates
`(coords[n], coords[dim_size + n], ...)` passes `box.pointInBox`, and the invalid ordinal
otherwise. -/
theorem getTargetPointsInBox_entries {α : Type} [Inhabited α] [LinearOrder α] (ordMax : Nat)
    (store : Bool) (box : BoundingBox α) (target_coords : Field α) (target_ordinals : List Nat)
    (missed : List Nat) :
    (target_coords.dimSize ≠ target_ordinals.length →
      getTargetPointsInBox ordMax store box target_coords target_ordinals missed
        = .error .precondition) ∧
    (target_coords.dimSize = target_ordinals.length →
      ∃ targets_in_box missed1,
        getTargetPointsInBox ordMax store box target_coords target_ordinals missed
          = .ok (targets_in_box, missed1) ∧
        targets_in_box.length = target_coords.dimSize ∧
        ∀ n, n < target_coords.dimSize →
          targets_in_box[n]?
            = (if box.pointInBox ((List.range target_coords.dim).map (fun d =>
                  target_coords.values.getD (target_coords.dimSize * d + n) default))
                then target_ordinals[n]? else some (invalidOrdinal ordMax))) := by
  constructor
  · intro h
    rw [getTargetPointsInBox, if_pos h]
  · intro h
    refine ⟨(getTargetPointsInBoxLoop ordMax store box target_coords.values target_coords.dim
        target_coords.dimSize target_ordinals target_coords.dimSize 0 missed).1,
      (getTargetPointsInBoxLoop ordMax store box target_coords.values target_coords.dim
        target_coords.dimSize target_ordinals target_coords.dimSize 0 missed).2, ?_, ?_, ?_⟩
    · rw [getTargetPointsInBox, if_neg (by simpa using h)]
    · rw [getTargetPointsInBoxLoop_fst]
      simp
    · intro n hn
      rw [getTargetPointsInBoxLoop_fst, ← List.range_eq_range', List.getElem?_map,
        List.getElem?_range hn, Option.map_some']
      have hn2 : n < target_ordinals.length := by omega
      rw [List.getD_eq_getElem _ _ hn2, List.getElem?_eq_getElem hn2]
      simp only [pointAt]
      split <;> rfl

/-! ### The out-of-box scenario -/

/-- Counterexample to C8 as stated: with the source mesh filling `[0,1]^3`, the single
target point (2,2,2) and `store_missed_points = true`, `setup` does not complete: the
source box and the target box do not intersect and `DTK_INSIST( has_intersect )` fails. -/
theorem setup_single_outside_target_fails :
    setup unitCubeEnv (SharedDomainMap.new 1 3 true) unitCubeSource [some ⟨3, [2, 2, 2]⟩] 0
      = .error .insist ∧
    ¬ ∃ map1, setup unitCubeEnv (SharedDomainMap.new 1 3 true) unitCubeSource
      [some ⟨3, [2, 2, 2]⟩] 0 = .ok map1 := by
  have h : setup unitCubeEnv (SharedDomainMap.new 1 3 true) unitCubeSource
      [some ⟨3, [2, 2, 2]⟩] 0 = .error .insist := by rfl
  refine ⟨h, ?_⟩
  rintro ⟨map1, h1⟩
  rw [h] at h1
  cases h1

/-- C8 (amended): with the source mesh filling `[0,1]^3`, the single target point (2,2,2)
and `store_missed_points = true`, `setup` fails at `DTK_INSIST( has_intersect )`, whatever
the rendezvous decomposition and the tolerance.  When the target holds the points (2,2,2)
and (1,1,1), `setup` completes, `getMissedTargetPoints` returns `[0]`, and after `apply`
the target value of the point (2,2,2) is 0 whatever the target field held before. -/
theorem setup_out_of_box_scenario (env : Env ℚ) (tol : ℚ) (h : 2 ≤ env.highest) :
    setup env (SharedDomainMap.new 1 3 true) unitCubeSource [some ⟨3, [2, 2, 2]⟩] tol
      = .error .insist ∧
    setup unitCubeEnv (SharedDomainMap.new 1 3 true) unitCubeSource
      [some ⟨3, [2, 1, 2, 1, 2, 1]⟩] 0 = .ok unitCubeMap ∧
    getMissedTargetPoints unitCubeMap 0 = .ok [0] ∧
    ∀ v a b : ℚ,
      apply unitCubeMap [some (fun elements _ => ⟨1, elements.map (fun _ => v)⟩)]
        [some ⟨1, [a, b]⟩] = .ok [some ⟨1, [0, v]⟩] := by
  refine ⟨?_, by rfl, by rfl, fun v a b => by
    simp [apply, broadcastFieldDim, sourceFieldCopy, functionEvaluations, unitCubeMap,
      multiVectorFits, doExport, exportEntries, List.range_succ]⟩
  have hbox : sharedDomainBox env 3
      ((List.range 1).map (fun r => unitCubeSource.getD r none))
      ((List.range 1).map (fun r => ([some ⟨3, [2, 2, 2]⟩] : List (Option (Field ℚ))).getD r none))
      = .error .insist := by
    simp [sharedDomainBox, l2g0, unitCubeSource, coordGlobalBoundingBox, dimBlock,
      Field.dimSize, BoundingBox.intersectBoxes, h, List.range_succ]
  have hagree : dimensionsAgree (SharedDomainMap.new 1 3 true : SharedDomainMap ℚ)
      unitCubeSource [some ⟨3, [2, 2, 2]⟩] = true := by rfl
  rw [setup]
  simp only [hagree, not_true_eq_false, if_false]
  rw [show (SharedDomainMap.new 1 3 true : SharedDomainMap ℚ).comm_size = 1 from rfl,
    show (SharedDomainMap.new 1 3 true : SharedDomainMap ℚ).d_dimension = 3 from rfl, hbox]

/-- Witness for C8: the surroundings of the scenario. -/
theorem setup_out_of_box_scenario_witness :
    (2 : ℚ) ≤ unitCubeEnv.highest ∧
    getMissedTargetPoints unitCubeMap 0 = .ok [0] :=
  ⟨by norm_num [unitCubeEnv],
    (setup_out_of_box_scenario unitCubeEnv 0 (by norm_num [unitCubeEnv])).2.2.1⟩

/-! ### The export of `apply` -/

theorem foldl_set_length {β : Type} (entries : List (Nat × β)) (v : List β) :
    (entries.foldl (fun view e => view.set e.1 e.2) v).length = v.length := by
  induction entries generalizing v with
  | nil => rfl
  | cons e es ih => rw [List.foldl_cons, ih, List.length_set]

theorem foldl_set_untouched {β : Type} (entries : List (Nat × β)) (v : List β) (k : Nat)
    (h : ∀ e, e ∈ entries → e.1 ≠ k) :
    (entries.foldl (fun view e => view.set e.1 e.2) v)[k]? = v[k]? := by
  induction entries generalizing v with
  | nil => rfl
  | cons e es ih =>
    rw [List.foldl_cons, ih _ (fun e1 he1 => h e1 (List.mem_cons_of_mem _ he1)),
      List.getElem?_set_ne (h e (List.mem_cons_self _ _))]

theorem foldl_set_written {β : Type} (entries : List (Nat × β)) (v : List β) (k : Nat) (x : β)
    (hk : k < v.length) (hall : ∀ e, e ∈ entries → e.1 = k → e.2 = x)
    (hcur : v[k]? = some x ∨ ∃ e, e ∈ entries ∧ e.1 = k) :
    (entries.foldl (fun view e => view.set e.1 e.2) v)[k]? = some x := by
  induction entries generalizing v with
  | nil =>
    rcases hcur with h | ⟨e, he, _⟩
    · exact h
    · cases he
  | cons e es ih =>
    rw [List.foldl_cons]
    apply ih _ (by rw [List.length_set]; exact hk)
      (fun e1 he1 => hall e1 (List.mem_cons_of_mem _ he1))
    by_cases hek : e.1 = k
    · left
      rw [hek, hall e (List.mem_cons_self _ _) hek, List.getElem?_set_self hk]
    · rw [List.getElem?_set_ne hek]
      rcases hcur with h | ⟨e1, he1, h1⟩
      · exact Or.inl h
      · rcases List.mem_cons.mp he1 with h2 | h2
        · subst h2; exact absurd h1 hek
        · exact Or.inr ⟨e1, h2, h1⟩

theorem nodup_flatten_index (l : List (List Nat)) (h : l.flatten.Nodup) (s s1 i i1 g : Nat)
    (h1 : (l.getD s [])[i]? = some g) (h2 : (l.getD s1 [])[i1]? = some g) :
    s = s1 ∧ i = i1 := by
  induction l generalizing s s1 with
  | nil => simp at h1
  | cons a l ih =>
    rw [List.flatten_cons, List.nodup_append] at h
    obtain ⟨ha, hl, hdis⟩ := h
    have hmem : ∀ t j : Nat, (l.getD t [])[j]? = some g → g ∈ l.flatten := by
      intro t j ht
      have hg := List.getElem?_mem ht
      by_cases htl : t < l.length
      · rw [List.getD_eq_getElem _ _ htl] at hg
        exact List.mem_flatten.mpr ⟨_, List.getElem_mem htl, hg⟩
      · rw [List.getD_eq_default _ _ (not_lt.mp htl)] at hg
        cases hg
    cases s with
    | zero =>
      cases s1 with
      | zero =>
        refine ⟨rfl, ?_⟩
        simp only [List.getD_cons_zero] at h1 h2
        obtain ⟨hi, e1⟩ := List.getElem?_eq_some.mp h1
        obtain ⟨hi1, e2⟩ := List.getElem?_eq_some.mp h2
        exact (ha.getElem_inj_iff).mp (e1.trans e2.symm)
      | succ t1 =>
        simp only [List.getD_cons_zero, List.getD_cons_succ] at h1 h2
        exact absurd (hmem t1 i1 h2) (fun hg => hdis (List.getElem?_mem h1) hg)
    | succ t =>
      cases s1 with
      | zero =>
        simp only [List.getD_cons_zero, List.getD_cons_succ] at h1 h2
        exact absurd (hmem t i h1) (fun hg => hdis (List.getElem?_mem h2) hg)
      | succ t1 =>
        simp only [List.getD_cons_succ] at h1 h2
        obtain ⟨e1, e2⟩ := ih hl t t1 h1 h2
        exact ⟨by rw [e1], e2⟩
theorem mem_exportEntries {β : Type} [Inhabited β] (source_maps : List (List Nat))
    (source_views : List (List β)) (source_ldas : List Nat) (num_vectors : Nat)
    (target_map : List Nat) (target_lda : Nat) (e : Nat × β) :
    e ∈ exportEntries source_maps source_views source_ldas num_vectors target_map target_lda ↔
      ∃ s i d, s < source_maps.length ∧ i < (source_maps.getD s []).length ∧
        (source_maps.getD s []).getD i 0 ∈ target_map ∧ d < num_vectors ∧
        e = (d * target_lda + target_map.indexOf ((source_maps.getD s []).getD i 0),
          (source_views.getD s []).getD (d * source_ldas.getD s 0 + i) default) := by
  simp only [exportEntries, List.mem_flatMap, List.mem_range]
  constructor
  · rintro ⟨s, hs, i, hi, he⟩
    split at he
    · rename_i hmem
      obtain ⟨d, hd, rfl⟩ := List.mem_map.mp he
      exact ⟨s, i, d, hs, hi, hmem, List.mem_range.mp hd, rfl⟩
    · cases he
  · rintro ⟨s, i, d, hs, hi, hmem, hd, rfl⟩
    refine ⟨s, hs, i, hi, ?_⟩
    rw [if_pos hmem]
    exact List.mem_map.mpr ⟨d, List.mem_range.mpr hd, rfl⟩

theorem doExport_values {β : Type} [Inhabited β] (source_maps : List (List Nat))
    (source_views : List (List β)) (source_ldas : List Nat) (num_vectors : Nat)
    (target_map : List Nat) (target_lda : Nat) (view : List β)
    (hnodup : source_maps.flatten.Nodup) (htm : target_map.Nodup)
    (hlda : target_map.length ≤ target_lda) (hview : num_vectors * target_lda ≤ view.length)
    (j d g : Nat) (hj : target_map[j]? = some g) (hd : d < num_vectors) :
    (g ∉ source_maps.flatten →
      (doExport source_maps source_views source_ldas num_vectors target_map target_lda
        view)[d * target_lda + j]? = view[d * target_lda + j]?) ∧
    (∀ s i, (source_maps.getD s [])[i]? = some g →
      (doExport source_maps source_views source_ldas num_vectors target_map target_lda
        view)[d * target_lda + j]?
        = some ((source_views.getD s []).getD (d * source_ldas.getD s 0 + i) default)) := by
  obtain ⟨hjlt, hjg⟩ := List.getElem?_eq_some.mp hj
  -- an entry written to the slot of `(d, j)` comes from an index that holds `g`
  have hslot : ∀ e, e ∈ exportEntries source_maps source_views source_ldas num_vectors
      target_map target_lda → e.1 = d * target_lda + j →
      ∃ s i, (source_maps.getD s [])[i]? = some g ∧
        e.2 = (source_views.getD s []).getD (d * source_ldas.getD s 0 + i) default := by
    intro e he hk
    obtain ⟨s, i, d1, _, hi, hmem, _, rfl⟩ := (mem_exportEntries _ _ _ _ _ _ _).mp he
    have hidx : target_map.indexOf ((source_maps.getD s []).getD i 0) < target_map.length :=
      List.indexOf_lt_length.mpr hmem
    obtain ⟨e1, e2⟩ := ordinal_inj target_lda d1 _ d j (by omega) (by omega) hk
    subst e1
    refine ⟨s, i, ?_, rfl⟩
    have hg : (source_maps.getD s []).getD i 0 = g := by
      have := List.getElem_indexOf hidx
      simp only [e2] at this
      rw [← this, hjg]
    rw [List.getElem?_eq_getElem hi, ← hg, List.getD_eq_getElem _ _ hi]
  constructor
  · intro hnot
    apply foldl_set_untouched
    intro e he hk
    obtain ⟨s, i, hsi, _⟩ := hslot e he hk
    apply hnot
    have hg := List.getElem?_mem hsi
    by_cases hs : s < source_maps.length
    · rw [List.getD_eq_getElem _ _ hs] at hg
      exact List.mem_flatten.mpr ⟨_, List.getElem_mem hs, hg⟩
    · rw [List.getD_eq_default _ _ (not_lt.mp hs)] at hg
      cases hg
  · intro s i hsi
    have hk : d * target_lda + j < view.length := by
      have h1 : d * target_lda + j < (d + 1) * target_lda := by
        rw [Nat.add_mul, Nat.one_mul]; omega
      have h2 : (d + 1) * target_lda ≤ num_vectors * target_lda := Nat.mul_le_mul_right _ hd
      omega
    apply foldl_set_written _ _ _ _ hk
    · intro e he hek
      obtain ⟨s1, i1, hsi1, hval⟩ := hslot e he hek
      obtain ⟨e1, e2⟩ := nodup_flatten_index source_maps hnodup s1 s i1 i g hsi1 hsi
      rw [hval, e1, e2]
    · right
      obtain ⟨hi, hig⟩ := List.getElem?_eq_some.mp hsi
      have hs : s < source_maps.length := by
        by_contra hs
        rw [List.getD_eq_default _ _ (not_lt.mp hs)] at hi
        simp at hi
      have hgD : (source_maps.getD s []).getD i 0 = g := by
        rw [List.getD_eq_getElem _ _ hi]; exact hig
      refine ⟨(d * target_lda + j,
        (source_views.getD s []).getD (d * source_ldas.getD s 0 + i) default), ?_, rfl⟩
      rw [mem_exportEntries]
      refine ⟨s, i, d, hs, hi, ?_, hd, ?_⟩
      · rw [hgD, ← hjg]; exact List.getElem_mem hjlt
      · rw [hgD, ← hjg, List.indexOf_getElem htm j hjlt]
/-- C9: after `apply`, a target value whose ordinal is in no source map is 0 in every field
dimension, whatever the target field held before the call, and a target value whose
ordinal is held by the index `i` of the source map of rank `s` equals the value that the
evaluator of rank `s` returned for this index and this dimension.  The source maps are
taken without duplicate ordinals and the target map of every rank without duplicates, as
`setup` leaves them. -/
theorem apply_target_values {α β : Type} [Inhabited β] [Zero β] (map : SharedDomainMap α)
    (source_evaluator : List (Option (List Nat → List α → Field β)))
    (target_space_manager : List (Option (Field β))) (result : List (Option (Field β)))
    (happly : apply map source_evaluator target_space_manager = .ok result)
    (hlen : map.d_source_map.length = map.comm_size)
    (hnodup : map.d_source_map.flatten.Nodup)
    (htarget : ∀ t, (map.d_target_map.getD t []).Nodup) :
    ∃ field_dim, broadcastFieldDim map source_evaluator = some field_dim ∧ 0 < field_dim ∧
      ∀ t field, t < map.comm_size → target_space_manager.getD t none = some field →
        ∃ values, result.getD t none = some { field with values := values } ∧
          values.length = field.values.length ∧
          ∀ j d g, (map.d_target_map.getD t [])[j]? = some g → d < field_dim →
            (g ∉ map.d_source_map.flatten →
              values[d * (map.d_target_map.getD t []).length + j]? = some 0) ∧
            (∀ s i, (map.d_source_map.getD s [])[i]? = some g →
              values[d * (map.d_target_map.getD t []).length + j]?
                = some ((sourceFieldCopy map source_evaluator s).getD
                    (d * ((sourceFieldCopy map source_evaluator s).length / field_dim) + i)
                    default)) := by
  rw [apply] at happly
  cases hfd : broadcastFieldDim map source_evaluator with
  | none => rw [hfd] at happly; cases happly
  | some field_dim =>
    rw [hfd] at happly
    simp only at happly
    split at happly
    · cases happly
    · rename_i hfd0
      split at happly
      · cases happly
      · split at happly
        · cases happly
        · rename_i hcheck
          split at happly
          · cases happly
          · have hres := Except.ok.inj happly
            subst hres
            refine ⟨field_dim, rfl, Nat.pos_of_ne_zero hfd0, ?_⟩
            intro t field ht htf
            have hsize : field.values.length / field_dim
                = (map.d_target_map.getD t []).length := by
              simp only [Bool.not_eq_true, List.any_eq_false, List.mem_range,
                Bool.and_eq_false_imp, decide_eq_false_iff_not, not_not] at hcheck
              have := hcheck t ht (by rw [htf]; rfl)
              rw [htf] at this
              exact this
            refine ⟨doExport map.d_source_map
                ((List.range map.comm_size).map (sourceFieldCopy map source_evaluator))
                ((List.range map.comm_size).map (fun r =>
                  (sourceFieldCopy map source_evaluator r).length / field_dim))
                field_dim (map.d_target_map.getD t []) (field.values.length / field_dim)
                (List.replicate field.values.length 0), ?_, ?_, ?_⟩
            · rw [List.getD_eq_getElem?_getD, List.getElem?_map, List.getElem?_range ht,
                Option.map_some', Option.getD_some]
              simp only [htf, Option.map_some']
            · rw [doExport, foldl_set_length, List.length_replicate]
            · intro j d g hj hd
              have hview : field_dim * (map.d_target_map.getD t []).length
                  ≤ (List.replicate field.values.length (0 : β)).length := by
                rw [List.length_replicate, ← hsize]
                exact Nat.mul_div_le _ _
              have key := doExport_values map.d_source_map
                ((List.range map.comm_size).map (sourceFieldCopy map source_evaluator))
                ((List.range map.comm_size).map (fun r =>
                  (sourceFieldCopy map source_evaluator r).length / field_dim))
                field_dim (map.d_target_map.getD t []) (map.d_target_map.getD t []).length
                (List.replicate field.values.length 0) hnodup (htarget t) (le_refl _) hview
                j d g hj hd
              rw [hsize]
              constructor
              · intro hnot
                rw [key.1 hnot]
                have hjlt := (List.getElem?_eq_some.mp hj).1
                have hk : d * (map.d_target_map.getD t []).length + j
                    < field.values.length := by
                  have h1 : d * (map.d_target_map.getD t []).length + j
                      < (d + 1) * (map.d_target_map.getD t []).length := by
                    rw [Nat.add_mul, Nat.one_mul]; omega
                  have h2 : (d + 1) * (map.d_target_map.getD t []).length
                      ≤ field_dim * (map.d_target_map.getD t []).length :=
                    Nat.mul_le_mul_right _ hd
                  rw [List.length_replicate] at hview
                  omega
                rw [List.getElem?_replicate, if_pos hk]
              · intro s i hsi
                have hs : s < map.comm_size := by
                  rw [← hlen]
                  by_contra hs
                  rw [List.getD_eq_default _ _ (not_lt.mp hs)] at hsi
                  simp at hsi
                rw [key.2 s i hsi]
                simp only [List.getD_eq_getElem?_getD, List.getElem?_map,
                  List.getElem?_range hs, Option.map_some', Option.getD_some]
/-- Witness for C9: the two-rank example; the evaluator of rank 0 returns a field of
dimension 2, the element handle and the x coordinate of every cached point. -/
theorem apply_target_values_witness :
    apply exampleMap
        [some (fun elements coords =>
          ⟨2, elements.map (fun e => (e : ℤ)) ++ coords.take elements.length⟩), none]
        [none, some ⟨2, [9, 9, 9, 9, 9, 9, 9, 9]⟩]
      = .ok [none, some ⟨2, [7, 0, 0, 7, 5, 0, 0, 7]⟩] ∧
    exampleMap.d_source_map.length = exampleMap.comm_size ∧
    exampleMap.d_source_map.flatten.Nodup ∧
    (∀ t, (exampleMap.d_target_map.getD t []).Nodup) ∧
    ∃ field_dim, broadcastFieldDim exampleMap
        [some (fun elements coords =>
          (⟨2, elements.map (fun e => (e : ℤ)) ++ coords.take elements.length⟩ : Field ℤ)),
          none] = some field_dim ∧ 0 < field_dim :=
  have htarget : ∀ t, (exampleMap.d_target_map.getD t []).Nodup := fun t =>
    match t with
    | 0 => by decide
    | 1 => by decide
    | _ + 2 => by simp [exampleMap]
  ⟨by rfl, by rfl, by decide, htarget,
    (apply_target_values exampleMap _ [none, some ⟨2, [9, 9, 9, 9, 9, 9, 9, 9]⟩]
      [none, some ⟨2, [7, 0, 0, 7, 5, 0, 0, 7]⟩] (by rfl) (by rfl) (by decide) htarget).elim
      (fun field_dim h => ⟨field_dim, h.1, h.2.1⟩)⟩

/-- C10, the code at a wrong-sized evaluation: the map of the out-of-box scenario caches one
source element; an evaluator that returns two values of dimension 1, or three values of
dimension 2, is accepted: `apply` completes and exports the leading values. -/
theorem apply_accepts_wrong_sized_evaluation :
    unitCubeMap.d_source_elements = [[1]] ∧
    apply unitCubeMap [some (fun _ _ => (⟨1, [7, 8]⟩ : Field ℚ))] [some ⟨1, [9, 9]⟩]
      = .ok [some ⟨1, [0, 7]⟩] ∧
    apply unitCubeMap [some (fun _ _ => (⟨2, [7, 8, 6]⟩ : Field ℚ))] [some ⟨2, [9, 9, 9, 9]⟩]
      = .ok [some ⟨2, [0, 7, 0, 8]⟩] := by
  refine ⟨rfl, ?_, ?_⟩
  · rfl
  · rfl

/-! ### The size checks of `apply` -/

/-- A truncating quotient is `c` exactly for the dividends of `[b*c, b*(c+1))`. -/
theorem div_eq_iff_range (a b c : Nat) (hb : 0 < b) :
    a / b = c ↔ b * c ≤ a ∧ a < b * (c + 1) := by
  constructor
  · intro h
    subst h
    exact ⟨Nat.mul_div_le a b, Nat.lt_mul_div_succ a hb⟩
  · intro h
    apply Nat.le_antisymm
    · apply Nat.le_of_lt_succ
      rw [Nat.div_lt_iff_lt_mul hb, Nat.mul_comm]
      exact h.2
    · rw [Nat.le_div_iff_mul_le hb, Nat.mul_comm]
      exact h.1

/-- C11, the claim as stated fails: the map of the out-of-box scenario has two local target
points; with a field of dimension 2, a target view of 5 values (not 2 x 2) passes the check
`target_size == d_target_map->getNodeNumElements()`, since `target_size` is the truncated
quotient 5 / 2, and `apply` completes. -/
theorem apply_accepts_padded_target :
    (unitCubeMap.d_target_map.getD 0 []).length = 2 ∧
    broadcastFieldDim unitCubeMap [some (fun _ _ => (⟨2, [7, 8]⟩ : Field ℚ))] = some 2 ∧
    ([9, 9, 9, 9, 9] : List ℚ).length ≠ 2 * 2 ∧
    apply unitCubeMap [some (fun _ _ => (⟨2, [7, 8]⟩ : Field ℚ))] [some ⟨2, [9, 9, 9, 9, 9]⟩]
      = .ok [some ⟨2, [0, 7, 0, 8, 0]⟩] := by
  refine ⟨rfl, rfl, by decide, ?_⟩
  rfl

/-- C11 (amended): when the source side of `apply` is accepted (a positive `field_dim` is
broadcast and the source multivectors fit) and the ranks without a target space own no
target ordinal, `apply` completes exactly when on every rank with a target space the view
holds `field_dim * n + k` values with `k < field_dim`, `n` being the number of local
elements of the target map, that is when the truncated quotient `size / field_dim` is `n`;
for every other size the check `DTK_CHECK( target_size == ... )` fails. -/
theorem apply_target_size_check {α β : Type} [Inhabited β] [Zero β] (map : SharedDomainMap α)
    (source_evaluator : List (Option (List Nat → List α → Field β)))
    (target_space_manager : List (Option (Field β))) (field_dim : Nat)
    (hfd : broadcastFieldDim map source_evaluator = some field_dim) (hpos : 0 < field_dim)
    (hsource : ∀ r, r < map.comm_size →
      multiVectorFits (map.d_source_map.getD r []).length
        (sourceFieldCopy map source_evaluator r).length
        ((sourceFieldCopy map source_evaluator r).length / field_dim) field_dim = true)
    (hnone : ∀ r, r < map.comm_size → target_space_manager.getD r none = none →
      map.d_target_map.getD r [] = []) :
    ((∃ out, apply map source_evaluator target_space_manager = .ok out) ↔
      ∀ r field, r < map.comm_size → target_space_manager.getD r none = some field →
        field_dim * (map.d_target_map.getD r []).length ≤ field.values.length ∧
        field.values.length < field_dim * ((map.d_target_map.getD r []).length + 1)) ∧
    (¬ (∀ r field, r < map.comm_size → target_space_manager.getD r none = some field →
        field_dim * (map.d_target_map.getD r []).length ≤ field.values.length ∧
        field.values.length < field_dim * ((map.d_target_map.getD r []).length + 1)) →
      apply map source_evaluator target_space_manager = .error .invariant) := by
  have hsrc : (List.range map.comm_size).any (fun r =>
      ! multiVectorFits (map.d_source_map.getD r []).length
        (sourceFieldCopy map source_evaluator r).length
        ((sourceFieldCopy map source_evaluator r).length / field_dim) field_dim) = false := by
    rw [List.any_eq_false]
    intro r hr
    rw [hsource r (List.mem_range.mp hr)]
    simp
  have hfail : ¬ (∀ r field, r < map.comm_size → target_space_manager.getD r none = some field →
        field_dim * (map.d_target_map.getD r []).length ≤ field.values.length ∧
        field.values.length < field_dim * ((map.d_target_map.getD r []).length + 1)) →
      apply map source_evaluator target_space_manager = .error .invariant := by
    intro hnot
    rw [apply, hfd]
    simp only
    rw [if_neg (Nat.pos_iff_ne_zero.mp hpos), hsrc]
    simp only [Bool.false_eq_true, if_false]
    rw [if_pos]
    rw [List.any_eq_true]
    push_neg at hnot
    obtain ⟨r, field, hr, hf, hbad⟩ := hnot
    refine ⟨r, List.mem_range.mpr hr, ?_⟩
    simp only [hf, Option.isSome_some, Bool.true_and, decide_eq_true_eq]
    intro h
    have := (div_eq_iff_range _ _ _ hpos).mp h
    exact absurd this.2 (not_lt.mpr (hbad this.1))
  refine ⟨⟨?_, ?_⟩, hfail⟩
  · rintro ⟨out, hout⟩
    by_contra hnot
    rw [hfail hnot] at hout
    cases hout
  · intro hall
    rw [apply, hfd]
    simp only
    rw [if_neg (Nat.pos_iff_ne_zero.mp hpos), hsrc]
    simp only [Bool.false_eq_true, if_false]
    rw [if_neg, if_neg]
    · exact ⟨_, rfl⟩
    · rw [Bool.not_eq_true, List.any_eq_false]
      intro r hr
      rcases Option.eq_none_or_eq_some (target_space_manager.getD r none) with hf | ⟨field, hf⟩
      · simp only [hf]
        rw [hnone r (List.mem_range.mp hr) hf]
        simp [multiVectorFits]
        omega
      · have h := hall r field (List.mem_range.mp hr) hf
        have e := (div_eq_iff_range _ _ _ hpos).mpr h
        simp only [hf, e, multiVectorFits, Bool.not_eq_true, Bool.not_eq_false',
          Bool.and_eq_true, decide_eq_true_eq]
        refine ⟨⟨hpos, le_refl _⟩, ?_⟩
        have : (map.d_target_map.getD r []).length * (field_dim - 1)
            + (map.d_target_map.getD r []).length
            = field_dim * (map.d_target_map.getD r []).length := by
          obtain ⟨k, rfl⟩ : ∃ k, field_dim = k + 1 := ⟨field_dim - 1, by omega⟩
          rw [Nat.add_sub_cancel, Nat.mul_comm, Nat.add_mul, Nat.one_mul]
        rw [this]
        exact h.1
    · rw [Bool.not_eq_true, List.any_eq_false]
      intro r hr
      rcases Option.eq_none_or_eq_some (target_space_manager.getD r none) with hf | ⟨field, hf⟩
      · simp only [hf]
        simp
      · have := (div_eq_iff_range _ _ _ hpos).mpr (hall r field (List.mem_range.mp hr) hf)
        simp only [hf, this]
        simp

/-- Witness for C11: the out-of-box scenario with a field of dimension 2 and a target view of
5 values. -/
theorem apply_target_size_check_witness :
    broadcastFieldDim unitCubeMap [some (fun _ _ => (⟨2, [7, 8]⟩ : Field ℚ))] = some 2 ∧
    ((∃ out, apply unitCubeMap [some (fun _ _ => (⟨2, [7, 8]⟩ : Field ℚ))]
        [some ⟨2, [9, 9, 9, 9, 9]⟩] = .ok out) ↔
      ∀ r field, r < unitCubeMap.comm_size →
        [some (⟨2, [9, 9, 9, 9, 9]⟩ : Field ℚ)].getD r none = some field →
        2 * (unitCubeMap.d_target_map.getD r []).length ≤ field.values.length ∧
        field.values.length < 2 * ((unitCubeMap.d_target_map.getD r []).length + 1)) :=
  ⟨by rfl,
    (apply_target_size_check unitCubeMap [some (fun _ _ => (⟨2, [7, 8]⟩ : Field ℚ))]
      [some ⟨2, [9, 9, 9, 9, 9]⟩] 2 (by rfl) (by decide)
      (fun r hr => by
        obtain rfl : r = 0 := Nat.lt_one_iff.mp hr
        rfl)
      (fun r hr h => by
        obtain rfl : r = 0 := Nat.lt_one_iff.mp hr
        cases h)).1⟩

/-! ### The missed target points -/

/-- A completed `setup` keeps the constructor arguments of the map. -/
theorem setup_keeps_arguments {α : Type} [Inhabited α] [LinearOrder α] (env : Env α)
    (map map1 : SharedDomainMap α) (source : List (Option (MeshManager α)))
    (target : List (Option (Field α))) (tol : α)
    (h : setup env map source target tol = .ok map1) :
    map1.comm_size = map.comm_size ∧ map1.d_dimension = map.d_dimension ∧
    map1.d_store_missed_points = map.d_store_missed_points := by
  obtain ⟨_, _, tsides, _, _, missed, rsides, _, _, _, _, _, _, hf⟩ :=
    setup_ok_inv env map map1 source target tol h
  rw [setupFinish] at hf
  split at hf
  · have := Except.ok.inj hf
    subst this
    exact ⟨rfl, rfl, rfl⟩
  · cases hf

/-- C12: on a map constructed with `store_missed_points = store`, before `setup` and after
every completed `setup`, `getMissedTargetPoints` fails its precondition if and only if
`store = false`; with `store = true` it returns the stored list `d_missed_points` of the
rank, which is empty before `setup` has run. -/
theorem getMissedTargetPoints_store {α : Type} [Inhabited α] [LinearOrder α]
    (comm_size dimension : Nat) (store : Bool) (rank : Nat) :
    (getMissedTargetPoints (SharedDomainMap.new comm_size dimension store : SharedDomainMap α)
        rank = .error .precondition ↔ store = false) ∧
    (store = true →
      getMissedTargetPoints (SharedDomainMap.new comm_size dimension store : SharedDomainMap α)
        rank = .ok []) ∧
    ∀ (env : Env α) (source : List (Option (MeshManager α))) (target : List (Option (Field α)))
      (tol : α) (map1 : SharedDomainMap α),
      setup env (SharedDomainMap.new comm_size dimension store) source target tol = .ok map1 →
      (getMissedTargetPoints map1 rank = .error .precondition ↔ store = false) ∧
      (store = true →
        getMissedTargetPoints map1 rank = .ok (map1.d_missed_points.getD rank [])) := by
  refine ⟨?_, ?_, ?_⟩
  · cases store <;> simp [getMissedTargetPoints, SharedDomainMap.new]
  · intro hs
    subst hs
    simp only [getMissedTargetPoints, SharedDomainMap.new, if_true]
    congr 1
    simp [List.getD_eq_getElem?_getD, List.getElem?_replicate]
    split <;> rfl
  · intro env source target tol map1 h
    have hk := (setup_keeps_arguments env _ map1 source target tol h).2.2
    have hk2 : map1.d_store_missed_points = store := hk
    constructor
    · cases store <;> simp [getMissedTargetPoints, hk2]
    · intro hs
      subst hs
      simp [getMissedTargetPoints, hk2]

/-- Witness for C12: the two-rank example, where `setup` completes on a map constructed with
`store_missed_points = true`; rank 1 then reports the local indices 1 and 2. -/
theorem getMissedTargetPoints_store_witness :
    setup exampleEnv (SharedDomainMap.new 2 3 true) exampleSource exampleTarget 0
      = .ok exampleMap ∧
    getMissedTargetPoints exampleMap 1 = .ok [1, 2] ∧
    ((getMissedTargetPoints exampleMap 1 = .error .precondition ↔ true = false) ∧
      (true = true →
        getMissedTargetPoints exampleMap 1 = .ok (exampleMap.d_missed_points.getD 1 []))) :=
  ⟨by rfl, by rfl,
    (getMissedTargetPoints_store 2 3 true 1).2.2 exampleEnv exampleSource exampleTarget 0
      exampleMap (by rfl)⟩

/-! ### The dimension checks of `setup` -/

/-- C13: when on some rank a source mesh manager is given whose `dim()` differs from the
dimension of the map, or a target coordinate manager is given whose field dimension
differs from it, `setup` fails with a precondition violation; the rank fails before it has
posted the receive, the send or the broadcast of the box exchange, and `d_source_elements`,
`d_target_coords` and `d_missed_points` are as they were before the call. -/
theorem setup_dimension_mismatch {α : Type} [Inhabited α] [LinearOrder α] (env : Env α)
    (map : SharedDomainMap α) (source : List (Option (MeshManager α)))
    (target : List (Option (Field α))) (tol : α) (r : Nat) (hr : r < map.comm_size)
    (h : (∃ manager, source.getD r none = some manager ∧ manager.dim ≠ map.d_dimension) ∨
      (∃ field, target.getD r none = some field ∧ field.dim ≠ map.d_dimension)) :
    setup env map source target tol = .error .precondition ∧
    (setupBoxExchange env map r source target).1 = .error .precondition ∧
    (setupBoxExchange env map r source target).2.1 = [] ∧
    (setupBoxExchange env map r source target).2.2.d_source_elements = map.d_source_elements ∧
    (setupBoxExchange env map r source target).2.2.d_target_coords = map.d_target_coords ∧
    (setupBoxExchange env map r source target).2.2.d_missed_points = map.d_missed_points := by
  have hs : ((List.range map.comm_size).map (fun r => source.getD r none)).getD r none
      = source.getD r none := by
    rw [List.getD_eq_getElem?_getD, List.getElem?_map, List.getElem?_range hr]
    rfl
  have ht : ((List.range map.comm_size).map (fun r => target.getD r none)).getD r none
      = target.getD r none := by
    rw [List.getD_eq_getElem?_getD, List.getElem?_map, List.getElem?_range hr]
    rfl
  constructor
  · rw [setup]
    simp only
    rw [if_pos]
    rw [Bool.not_eq_true, dimensionsAgree, List.all_eq_false]
    refine ⟨r, List.mem_range.mpr hr, ?_⟩
    rcases h with ⟨manager, hm, hne⟩ | ⟨field, hf, hne⟩
    · simp only [hm]
      simp [hne]
    · simp only [hf]
      simp [hne]
  · rw [setupBoxExchange]
    simp only [hs, ht]
    rcases h with ⟨manager, hm, hne⟩ | ⟨field, hf, hne⟩
    · simp only [hm]
      simp [hne]
    · simp only [hf]
      split <;> simp [hne]

/-- Witness for C13: the two-rank example with a source mesh manager of dimension 2 on
rank 0 and a map of dimension 3. -/
theorem setup_dimension_mismatch_witness :
    setup exampleEnv exampleMap [some ⟨2, ⟨0, 0, 0, 10, 10, 10⟩⟩, none] exampleTarget 0
      = .error .precondition ∧
    setupBoxExchange exampleEnv exampleMap 0 [some ⟨2, ⟨0, 0, 0, 10, 10, 10⟩⟩, none]
      exampleTarget = (.error .precondition, [], exampleMap) ∧
    setupBoxExchange exampleEnv exampleMap 0 exampleSource exampleTarget
      = (.ok ⟨1, 1, 3, 10, 10, 10⟩, [.ireceive, .wait, .broadcast], exampleMap) ∧
    setupBoxExchange exampleEnv exampleMap 1 exampleSource exampleTarget
      = (.ok ⟨1, 1, 3, 10, 10, 10⟩, [.isend, .broadcast], exampleMap) :=
  ⟨(setup_dimension_mismatch exampleEnv exampleMap [some ⟨2, ⟨0, 0, 0, 10, 10, 10⟩⟩, none]
      exampleTarget 0 0 (by decide) (Or.inl ⟨⟨2, ⟨0, 0, 0, 10, 10, 10⟩⟩, rfl, by decide⟩)).1,
    by rfl, by rfl, by rfl⟩

/-! ### A second `setup` -/

/-- A key is found in `d_target_g2l` exactly when some entry carries it. -/
theorem g2lFind_isSome (m : List (Nat × Nat)) (g : Nat) :
    (g2lFind m g).isSome = m.any (fun kv => kv.1 == g) := by
  rw [g2lFind, Option.isSome_map']
  induction m with
  | nil => rfl
  | cons kv m ih =>
    rw [List.find?_cons, List.any_cons]
    cases hk : kv.1 == g
    · simpa using ih
    · rfl

/-- The assignment `d_target_g2l[key] = value` removes no key. -/
theorem g2lInsert_keeps (m : List (Nat × Nat)) (key value g : Nat)
    (h : (g2lFind m g).isSome = true) : (g2lFind (g2lInsert m key value) g).isSome = true := by
  rw [g2lFind_isSome] at h ⊢
  rw [g2lInsert]
  split
  · rw [List.any_eq_true] at h ⊢
    obtain ⟨kv, hkv, hg⟩ := h
    refine ⟨if kv.1 == key then (key, value) else kv, List.mem_map.mpr ⟨kv, hkv, rfl⟩, ?_⟩
    by_cases hk : kv.1 = key
    · rw [if_pos (by simpa using hk)]
      rw [← hk]
      exact hg
    · rw [if_neg (by simpa using hk)]
      exact hg
  · rw [List.any_append, h, Bool.true_or]

/-- The loop of `computePointOrdinals` removes no key of `d_target_g2l`. -/
theorem computePointOrdinalsLoop_keeps (ordMax r M : Nat) (store : Bool) (g : Nat) :
    ∀ (count start : Nat) (g2l : List (Nat × Nat)), (g2lFind g2l g).isSome = true →
      (g2lFind (computePointOrdinalsLoop ordMax r M store count start g2l).2 g).isSome = true
  | 0, _, _, h => h
  | count + 1, start, g2l, h => by
    rw [computePointOrdinalsLoop]
    apply computePointOrdinalsLoop_keeps ordMax r M store g count (start + 1)
    split
    · exact g2lInsert_keeps _ _ _ _ h
    · exact h

/-- The entries of `targets_in_box` do not depend on the list of missed points that
`getTargetPointsInBox` extends. -/
theorem getTargetPointsInBox_state {α : Type} [Inhabited α] [LinearOrder α] (ordMax : Nat)
    (store : Bool) (box : BoundingBox α) (f : Field α) (ords missed missed1 : List Nat)
    (res : List Nat × List Nat)
    (h : getTargetPointsInBox ordMax store box f ords missed = .ok res) :
    ∃ m, getTargetPointsInBox ordMax store box f ords missed1 = .ok (res.1, m) := by
  rw [getTargetPointsInBox] at h ⊢
  split at h
  · cases h
  · rename_i hc
    rw [if_neg hc]
    have := Except.ok.inj h
    subst this
    refine ⟨(getTargetPointsInBoxLoop ordMax store box f.values f.dim f.dimSize ords
      f.dimSize 0 missed1).2, ?_⟩
    congr 1
    apply Prod.ext
    · simp only
      rw [getTargetPointsInBoxLoop_fst, getTargetPointsInBoxLoop_fst]
    · rfl
/-- The arrays that `targetSide` hands to the distributor do not depend on the content of
`d_target_g2l` and `d_missed_points` at the call, and the new `d_target_g2l` is the result
of `computePointOrdinals` on the old one. -/
theorem targetSide_state {α : Type} [Inhabited α] [LinearOrder α] (ordMax dim : Nat)
    (store : Bool) (rv : Rendezvous α) (r M : Nat) (target : Option (Field α))
    (g2l g2l1 : List (Nat × Nat)) (missed missed1 : List Nat) (ts : TargetSide α)
    (h : targetSide ordMax dim store rv r M target g2l missed = .ok ts) :
    ∃ ts1, targetSide ordMax dim store rv r M target g2l1 missed1 = .ok ts1 ∧
      ts1.target_ordinals = ts.target_ordinals ∧ ts1.targets_in_box = ts.targets_in_box ∧
      ts1.rendezvous_procs = ts.rendezvous_procs ∧ ts1.coords_copy = ts.coords_copy ∧
      ts1.d_target_g2l
        = (computePointOrdinals ordMax r M store (targetCount target) g2l1).2 := by
  have e : ∀ n, (computePointOrdinals ordMax r M store n g2l1).1
      = (computePointOrdinals ordMax r M store n g2l).1 := by
    intro n
    rw [computePointOrdinals_fst, computePointOrdinals_fst]
  by_cases hd : dim = 0
  · simp only [targetSide, if_pos hd] at h
    cases h
  · simp only [targetSide, if_neg hd, e] at h ⊢
    cases target with
    | none =>
      simp only at h ⊢
      split at h
      · cases h
      · rename_i h1
        rw [if_neg h1]
        split at h
        · cases h
        · rename_i h2
          rw [if_neg h2]
          have := Except.ok.inj h
          subst this
          exact ⟨_, rfl, rfl, rfl, rfl, rfl, rfl⟩
    | some field =>
      simp only at h ⊢
      cases hb : getTargetPointsInBox ordMax store rv.getBox field
          (computePointOrdinals ordMax r M store (field.values.length / field.dim) g2l).1
          missed with
      | error err =>
        rw [hb] at h
        cases h
      | ok res =>
        obtain ⟨m, hm⟩ := getTargetPointsInBox_state ordMax store rv.getBox field _ missed
          missed1 res hb
        rw [hb] at h
        rw [hm]
        simp only at h ⊢
        split at h
        · cases h
        · rename_i h1
          rw [if_neg h1]
          split at h
          · cases h
          · rename_i h2
            rw [if_neg h2]
            have := Except.ok.inj h
            subst this
            exact ⟨_, rfl, rfl, rfl, rfl, rfl, rfl⟩
/-- When the step of every rank completes, the collective completes, and its results are the
results of the ranks. -/
theorem allRanks_of_forall {ε β ι : Type} (F : ι → Except ε β) (Q : ι → β → Prop) :
    ∀ (l : List ι), (∀ x, x ∈ l → ∃ y, F x = .ok y ∧ Q x y) →
      ∃ ys, allRanks (l.map F) = .ok ys ∧ List.Forall₂ Q l ys
  | [], _ => ⟨[], rfl, List.Forall₂.nil⟩
  | x :: l, h => by
    obtain ⟨y, hy, hq⟩ := h x (List.mem_cons_self x l)
    obtain ⟨ys, hys, hqs⟩ := allRanks_of_forall F Q l
      (fun z hz => h z (List.mem_cons_of_mem x hz))
    refine ⟨y :: ys, ?_, List.Forall₂.cons hq hqs⟩
    rw [List.map_cons, hy, allRanks, hys]

/-- Two lists related entry by entry have equal images under maps that agree on related
entries. -/
theorem map_eq_of_forall₂ {ι β γ : Type} (Q : ι → β → Prop) (f : β → γ) (g : ι → γ)
    (hQ : ∀ x y, Q x y → f y = g x) (l : List ι) (ys : List β) (h : List.Forall₂ Q l ys) :
    ys.map f = l.map g := by
  induction h with
  | nil => rfl
  | cons hq _ ih => rw [List.map_cons, List.map_cons, hQ _ _ hq, ih]

/-- The target side of a `setup` on a map with other cached members: it completes as well,
hands the same arrays to the distributor, and no key of the old `d_target_g2l` is lost. -/
theorem setupTargetSides_state {α : Type} [Inhabited α] [LinearOrder α] (env : Env α)
    (map map1 : SharedDomainMap α) (rv : Rendezvous α) (target : List (Option (Field α)))
    (tsides : List (TargetSide α))
    (hc : map1.comm_size = map.comm_size) (hd : map1.d_dimension = map.d_dimension)
    (hs : map1.d_store_missed_points = map.d_store_missed_points)
    (h : setupTargetSides env map rv target = .ok tsides) :
    ∃ tsides1, setupTargetSides env map1 rv target = .ok tsides1 ∧
      tsides1.map (·.target_ordinals) = tsides.map (·.target_ordinals) ∧
      tsides1.map (·.targets_in_box) = tsides.map (·.targets_in_box) ∧
      tsides1.map (·.rendezvous_procs) = tsides.map (·.rendezvous_procs) ∧
      tsides1.map (·.coords_copy) = tsides.map (·.coords_copy) ∧
      ∀ r g, r < map.comm_size → (g2lFind (map1.d_target_g2l.getD r []) g).isSome = true →
        (g2lFind ((tsides1.map (·.d_target_g2l)).getD r []) g).isSome = true := by
  obtain ⟨hl, hr⟩ := allRanks_range map.comm_size _ tsides ⟨[], [], [], [], [], []⟩ h
  obtain ⟨tsides1, h1, hq⟩ := allRanks_of_forall
    (fun r => targetSide env.ordMax map1.d_dimension map1.d_store_missed_points rv r
      (reduceAllMax (localSizes map1.comm_size target)) (target.getD r none)
      (map1.d_target_g2l.getD r []) (map1.d_missed_points.getD r []))
    (fun r (ts1 : TargetSide α) =>
      ts1.target_ordinals = (tsides.getD r ⟨[], [], [], [], [], []⟩).target_ordinals ∧
      ts1.targets_in_box = (tsides.getD r ⟨[], [], [], [], [], []⟩).targets_in_box ∧
      ts1.rendezvous_procs = (tsides.getD r ⟨[], [], [], [], [], []⟩).rendezvous_procs ∧
      ts1.coords_copy = (tsides.getD r ⟨[], [], [], [], [], []⟩).coords_copy ∧
      ts1.d_target_g2l = (computePointOrdinals env.ordMax r
        (reduceAllMax (localSizes map.comm_size target)) map.d_store_missed_points
        (targetCount (target.getD r none)) (map1.d_target_g2l.getD r [])).2)
    (List.range map.comm_size)
    (fun r hrr => by
      rw [hc, hd, hs]
      exact targetSide_state env.ordMax map.d_dimension map.d_store_missed_points rv r _
        (target.getD r none) _ _ _ _ _ (hr r (List.mem_range.mp hrr)))
  refine ⟨tsides1, ?_, ?_, ?_, ?_, ?_, ?_⟩
  · rw [setupTargetSides, hc]
    rw [hc] at h1
    exact h1
  · rw [map_eq_of_forall₂ _ (·.target_ordinals) _ (fun _ _ hxy => hxy.1) _ _ hq]
    conv_rhs => rw [hl]
    rw [List.map_map]
    rfl
  · rw [map_eq_of_forall₂ _ (·.targets_in_box) _ (fun _ _ hxy => hxy.2.1) _ _ hq]
    conv_rhs => rw [hl]
    rw [List.map_map]
    rfl
  · rw [map_eq_of_forall₂ _ (·.rendezvous_procs) _ (fun _ _ hxy => hxy.2.2.1) _ _ hq]
    conv_rhs => rw [hl]
    rw [List.map_map]
    rfl
  · rw [map_eq_of_forall₂ _ (·.coords_copy) _ (fun _ _ hxy => hxy.2.2.2.1) _ _ hq]
    conv_rhs => rw [hl]
    rw [List.map_map]
    rfl
  · intro r g hrr hg
    rw [map_eq_of_forall₂ _ (·.d_target_g2l) _ (fun _ _ hxy => hxy.2.2.2.2) _ _ hq,
      List.getD_eq_getElem?_getD, List.getElem?_map, List.getElem?_range hrr,
      Option.map_some', Option.getD_some]
    exact computePointOrdinalsLoop_keeps _ _ _ _ _ _ _ _ hg
/-- The missed points of a `setup` whose target sides keep the keys of `d_target_g2l`: the
stage completes as well. -/
theorem setupMissed_state {α : Type} (map map1 : SharedDomainMap α)
    (tsides tsides1 : List (TargetSide α)) (searches : List RendezvousSearch)
    (missed : List (List Nat))
    (hc : map1.comm_size = map.comm_size)
    (hs : map1.d_store_missed_points = map.d_store_missed_points)
    (hk : ∀ r g, r < map.comm_size →
      (g2lFind ((tsides.map (·.d_target_g2l)).getD r []) g).isSome = true →
      (g2lFind ((tsides1.map (·.d_target_g2l)).getD r []) g).isSome = true)
    (h : setupMissed map tsides searches = .ok missed) :
    ∃ missed1, setupMissed map1 tsides1 searches = .ok missed1 := by
  simp only [setupMissed, hc, hs] at h ⊢
  split at h
  · rename_i hst
    rw [if_pos hst]
    split at h
    · rename_i hv
      rw [if_pos hv]
      obtain ⟨_, hr⟩ := allRanks_range map.comm_size _ missed [] h
      obtain ⟨ys, hys, _⟩ := allRanks_of_forall
        (fun r => addMissedPoints ((tsides1.map (·.d_target_g2l)).getD r [])
          ((tsides1.map (·.d_missed_points)).getD r [])
          ((doPostsAndWaits (searches.map (·.missed_target_procs))
            (searches.map (·.missed_in_mesh_ordinal))).getD r []))
        (fun _ _ => True) (List.range map.comm_size)
        (fun r hrr => by
          have h1 := hr r (List.mem_range.mp hrr)
          simp only [addMissedPoints] at h1 ⊢
          split at h1
          · rename_i hall
            rw [if_pos]
            · exact ⟨_, rfl, trivial⟩
            · rw [List.all_eq_true] at hall ⊢
              intro g hg
              exact hk r g (List.mem_range.mp hrr) (hall g hg)
          · cases h1)
      exact ⟨ys, hys⟩
    · cases h
  · rename_i hst
    rw [if_neg hst]
    exact ⟨_, rfl⟩

/-- When the dimensions agree and every stage of `setup` completes, `setup` returns what
its last stage returns. -/
theorem setup_of_stages {α : Type} [Inhabited α] [LinearOrder α] (env : Env α)
    (map : SharedDomainMap α) (source : List (Option (MeshManager α)))
    (target : List (Option (Field α))) (tol : α) (box : BoundingBox α)
    (tsides : List (TargetSide α)) (received : Received α) (searches : List RendezvousSearch)
    (missed : List (List Nat)) (rsides : List (RendezvousSide α))
    (hagree : dimensionsAgree map source target = true)
    (hbox : sharedDomainBox env map.d_dimension
      ((List.range map.comm_size).map (fun r => source.getD r none))
      ((List.range map.comm_size).map (fun r => target.getD r none)) = .ok box)
    (hts : setupTargetSides env map (env.buildRendezvous box) target = .ok tsides)
    (hdist : setupDistribute map.d_dimension tsides = .ok received)
    (hsearch : setupSearches env map (env.buildRendezvous box) tol received = .ok searches)
    (hmissed : setupMissed map tsides searches = .ok missed)
    (hprune : setupPrunes env map received searches = .ok rsides) :
    setup env map source target tol
      = setupFinish map
          (l2g0 (((List.range map.comm_size).map (fun r => source.getD r none)).map
            Option.isSome))
          tsides missed rsides := by
  rw [setup]
  simp only [hagree, hbox, hts, hdist, hsearch, hmissed, hprune, not_true_eq_false, if_false]
/-- C14: when `setup` has completed on a map, a second `setup` on that map with the same
source mesh managers, target coordinates and tolerance completes as well, and
`d_source_elements`, `d_target_coords` and the source and target maps of the exporter are
after the second call what they were after the first. -/
theorem setup_twice {α : Type} [Inhabited α] [LinearOrder α] (env : Env α)
    (map map1 : SharedDomainMap α) (source : List (Option (MeshManager α)))
    (target : List (Option (Field α))) (tol : α)
    (h : setup env map source target tol = .ok map1) :
    ∃ map2, setup env map1 source target tol = .ok map2 ∧
      map2.d_source_elements = map1.d_source_elements ∧
      map2.d_target_coords = map1.d_target_coords ∧
      map2.d_source_map = map1.d_source_map ∧
      map2.d_target_map = map1.d_target_map := by
  obtain ⟨hagree, box, tsides, received, searches, missed, rsides, hbox, hts, hdist, hsearch,
    hmissed, hprune, hfin⟩ := setup_ok_inv env map map1 source target tol h
  obtain ⟨hc, hd, hs⟩ := setup_keeps_arguments env map map1 source target tol h
  rw [setupFinish] at hfin
  split at hfin
  swap
  · cases hfin
  rename_i hcond
  have hmap1 := Except.ok.inj hfin
  have hg : map1.d_target_g2l = tsides.map (·.d_target_g2l) := by rw [← hmap1]
  obtain ⟨tsides1, hts1, e1, e2, e3, e4, hk⟩ := setupTargetSides_state env map map1
    (env.buildRendezvous box) target tsides hc hd hs hts
  have e5 : tsides1.map (·.rendezvous_procs.length) = tsides.map (·.rendezvous_procs.length) := by
    have := congrArg (List.map List.length) e3
    rw [List.map_map, List.map_map] at this
    exact this
  have hdist1 : setupDistribute map1.d_dimension tsides1 = .ok received := by
    rw [← hdist, hd]
    simp only [setupDistribute, e2, e3, e4, e5]
  have hsearch1 : setupSearches env map1 (env.buildRendezvous box) tol received
      = .ok searches := by
    rw [← hsearch]
    simp only [setupSearches, hc, hd, hs]
  obtain ⟨missed1, hmissed1⟩ := setupMissed_state map map1 tsides tsides1 searches missed hc hs
    (fun r g hr hf => hk r g hr (by rw [hg]; exact hf)) hmissed
  have hprune1 : setupPrunes env map1 received searches = .ok rsides := by
    rw [← hprune]
    simp only [setupPrunes, hc, hd]
  have hagree1 : dimensionsAgree map1 source target = true := by
    rw [← hagree]
    simp only [dimensionsAgree, hc, hd]
  have hbox1 : sharedDomainBox env map1.d_dimension
      ((List.range map1.comm_size).map (fun r => source.getD r none))
      ((List.range map1.comm_size).map (fun r => target.getD r none)) = .ok box := by
    rw [hc, hd]
    exact hbox
  rw [setup_of_stages env map1 source target tol box tsides1 received searches missed1 rsides
    hagree1 hbox1 hts1 hdist1 hsearch1 hmissed1 hprune1, setupFinish, hd, if_pos hcond]
  refine ⟨_, rfl, ?_, ?_, ?_, ?_⟩
  · rw [← hmap1]
  · rw [← hmap1]
  · rw [← hmap1]
  · rw [← hmap1]
    exact e1

/-- Witness for C14: the two-rank example; the second `setup` runs on the map that the
first one produced. -/
theorem setup_twice_witness :
    setup exampleEnv (SharedDomainMap.new 2 3 true) exampleSource exampleTarget 0
      = .ok exampleMap ∧
    ∃ map2, setup exampleEnv exampleMap exampleSource exampleTarget 0 = .ok map2 ∧
      map2.d_source_elements = exampleMap.d_source_elements ∧
      map2.d_target_coords = exampleMap.d_target_coords ∧
      map2.d_source_map = exampleMap.d_source_map ∧
      map2.d_target_map = exampleMap.d_target_map :=
  ⟨by rfl, setup_twice exampleEnv (SharedDomainMap.new 2 3 true) exampleMap exampleSource
    exampleTarget 0 (by rfl)⟩

/-! ### The solve of `interpolate` -/

/-- C15: `interpolate` completes only if the right-hand side was built and the solve on it
returned `Converged`; when the argument checks pass and the solve returns any other status,
`interpolate` fails at `DTK_INSIST( Belos::Converged == rt )` with `target_data` as it was
passed; and whenever `interpolate` fails, `target_data` is as it was passed. -/
theorem interpolate_converged {β : Type} [Zero β] (s : SplineInterpolator β)
    (source_data : List β) (num_source_dims source_lda : Nat) (target_data : List β)
    (num_target_dims target_lda : Nat) :
    ((interpolate s source_data num_source_dims source_lda target_data num_target_dims
        target_lda).1 = .ok () →
      ∃ source_vec, rightHandSide s source_data num_source_dims = some source_vec ∧
        (s.solve source_vec).1 = .Converged) ∧
    (∀ source_vec, num_source_dims = num_target_dims →
      source_data.length = source_lda * num_source_dims →
      target_data.length = target_lda * num_target_dims → 1 ≤ num_source_dims →
      rightHandSide s source_data num_source_dims = some source_vec →
      (s.solve source_vec).1 ≠ .Converged →
      interpolate s source_data num_source_dims source_lda target_data num_target_dims
        target_lda = (.error .insist, target_data)) ∧
    ((interpolate s source_data num_source_dims source_lda target_data num_target_dims
        target_lda).1 ≠ .ok () →
      (interpolate s source_data num_source_dims source_lda target_data num_target_dims
        target_lda).2 = target_data) := by
  refine ⟨?_, ?_, ?_⟩
  · intro h
    rw [interpolate] at h
    split at h
    · cases h
    · split at h
      · cases h
      · split at h
        · cases h
        · split at h
          · cases h
          · cases hr : rightHandSide s source_data num_source_dims with
            | none =>
              rw [hr] at h
              cases h
            | some source_vec =>
              rw [hr] at h
              simp only at h
              split at h
              · cases h
              · rename_i hc
                exact ⟨source_vec, rfl, not_not.mp hc⟩
  · intro source_vec h1 h2 h3 h4 hr hc
    rw [interpolate, if_neg (not_not.mpr h1), if_neg (not_not.mpr h2), if_neg (not_not.mpr h3),
      if_neg (by omega), hr]
    simp only
    rw [if_pos hc]
  · intro h
    rw [interpolate] at h ⊢
    split
    · rfl
    · split
      · rfl
      · split
        · rfl
        · split
          · rfl
          · rename_i h1 h2 h3 h4
            rw [if_neg h1, if_neg h2, if_neg h3, if_neg h4] at h
            cases hr : rightHandSide s source_data num_source_dims with
            | none => rfl
            | some source_vec =>
              rw [hr] at h
              simp only at h ⊢
              split
              · rfl
              · split
                · rfl
                · rename_i h5 h6
                  rw [if_neg h5, if_neg h6] at h
                  exact absurd rfl h

/-- Witness for C15: the example interpolator converges for the source values 5, 6
and writes the target values; for the source values 4, 6 the solve does not converge and
`target_data` keeps the values 9, 9. -/
theorem interpolate_converged_witness :
    interpolate exampleInterpolator [5, 6] 1 2 [9, 9] 1 2 = (.ok (), [5, 6]) ∧
    rightHandSide exampleInterpolator [4, 6] 1 = some [[0, 0, 4, 6]] ∧
    interpolate exampleInterpolator [4, 6] 1 2 [9, 9] 1 2 = (.error .insist, [9, 9]) :=
  ⟨by rfl, by rfl,
    (interpolate_converged exampleInterpolator [4, 6] 1 2 [9, 9] 1 2).2.1 [[0, 0, 4, 6]]
      rfl rfl rfl (le_refl 1) (by rfl) (by decide)⟩

/-! ### The maps of `buildOperators` -/

/-- The sum over the first `P + 1` ranks. -/
theorem sum_map_range_succ (f : Nat → Nat) (P : Nat) :
    ((List.range (P + 1)).map f).sum = ((List.range P).map f).sum + f P := by
  rw [List.range_succ, List.map_append, List.sum_append]
  simp

/-- A partial sum over the ranks is at most the whole sum, also with one more term. -/
theorem sum_map_range_le (f : Nat → Nat) :
    ∀ (P r : Nat), r ≤ P → ((List.range r).map f).sum ≤ ((List.range P).map f).sum
  | 0, r, h => by
    obtain rfl : r = 0 := Nat.le_zero.mp h
    exact le_refl _
  | P + 1, r, h => by
    rw [sum_map_range_succ]
    rcases Nat.lt_or_ge r (P + 1) with h1 | h1
    · exact le_trans (sum_map_range_le f P r (Nat.lt_succ_iff.mp h1)) (Nat.le_add_right _ _)
    · obtain rfl : r = P + 1 := Nat.le_antisymm h h1
      rw [sum_map_range_succ]

/-- The sum up to a rank and the term of the rank are together at most the whole sum. -/
theorem sum_map_range_add_le (f : Nat → Nat) (P r : Nat) (h : r < P) :
    ((List.range r).map f).sum + f r ≤ ((List.range P).map f).sum := by
  rw [← sum_map_range_succ]
  exact sum_map_range_le f P (r + 1) h

/-- The offsets of the ranks below `r` add up to `c` as soon as rank 0 is among them. -/
theorem sum_offsets (c : Nat) :
    ∀ r : Nat, ((List.range r).map (fun x => if x = 0 then c else 0)).sum
      = if r = 0 then 0 else c
  | 0 => rfl
  | 1 => by simp [List.range_succ]
  | r + 2 => by
    rw [sum_map_range_succ, sum_offsets c (r + 1)]
    simp

/-- The sum of two functions over the ranks. -/
theorem sum_map_range_add (f g : Nat → Nat) :
    ∀ r : Nat, ((List.range r).map (fun x => f x + g x)).sum
      = ((List.range r).map f).sum + ((List.range r).map g).sum
  | 0 => rfl
  | r + 1 => by
    rw [sum_map_range_succ, sum_map_range_succ, sum_map_range_succ, sum_map_range_add f g r]
    omega

/-- Consecutive blocks of consecutive numbers, one block per rank, make one run. -/
theorem flatten_blocks (n : Nat → Nat) (a : Nat) :
    ∀ P : Nat, ((List.range P).map (fun r =>
        List.range' (a + ((List.range r).map n).sum) (n r))).flatten
      = List.range' a ((List.range P).map n).sum
  | 0 => rfl
  | P + 1 => by
    rw [List.range_succ, List.map_append, List.flatten_append, flatten_blocks n a P,
      List.map_append, List.sum_append]
    simp only [List.map_cons, List.map_nil, List.flatten_cons, List.flatten_nil,
      List.append_nil, List.sum_cons, List.sum_nil, Nat.add_zero]
    rw [List.range'_append_1, Nat.add_comm (n P)]
/-- The maps and ids of `buildOperators` in closed form, when the global number of rows of
the source map is a value of `GO`. -/
theorem buildOperators_closed {α : Type} (ordMax DIM comm_size : Nat)
    (source_centers target_centers : List (List α)) (hP : 0 < comm_size)
    (hN : globalNumCenters DIM comm_size source_centers + DIM + 1 ≤ ordMax)
    (hM : globalNumCenters DIM comm_size target_centers ≤ ordMax) :
    (buildOperators ordMax DIM comm_size source_centers target_centers).source_map
      = ⟨globalNumCenters DIM comm_size source_centers + DIM + 1,
          (List.range comm_size).map (fun r =>
            numCenters DIM source_centers r + if r = 0 then DIM + 1 else 0)⟩ ∧
    (buildOperators ordMax DIM comm_size source_centers target_centers).source_gids
      = (List.range comm_size).map (fun r =>
          List.range' (DIM + 1 + ((List.range r).map (numCenters DIM source_centers)).sum)
            (numCenters DIM source_centers r)) ∧
    (buildOperators ordMax DIM comm_size source_centers target_centers).target_map
      = ⟨globalNumCenters DIM comm_size target_centers,
          (List.range comm_size).map (numCenters DIM target_centers)⟩ := by
  have hoff : ∀ r, sourceOffset ordMax DIM r = if r = 0 then DIM + 1 else 0 := by
    intro r
    rw [sourceOffset, Nat.mod_eq_of_lt (by omega)]
  have hn : ∀ r, r < comm_size →
      ((List.range r).map (numCenters DIM source_centers)).sum
        + numCenters DIM source_centers r ≤ globalNumCenters DIM comm_size source_centers :=
    fun r hr => sum_map_range_add_le _ comm_size r hr
  have hm : ∀ r, r < comm_size →
      ((List.range r).map (numCenters DIM target_centers)).sum
        + numCenters DIM target_centers r ≤ globalNumCenters DIM comm_size target_centers :=
    fun r hr => sum_map_range_add_le _ comm_size r hr
  have hloc : (List.range comm_size).map (fun r =>
      (((source_centers.getD r []).length / DIM) % (ordMax + 1) + sourceOffset ordMax DIM r)
        % (ordMax + 1))
      = (List.range comm_size).map (fun r =>
          numCenters DIM source_centers r + if r = 0 then DIM + 1 else 0) := by
    apply List.map_congr_left
    intro r hr
    have h1 := hn r (List.mem_range.mp hr)
    have h2 : (source_centers.getD r []).length / DIM = numCenters DIM source_centers r := rfl
    have e1 : numCenters DIM source_centers r % (ordMax + 1)
        = numCenters DIM source_centers r := Nat.mod_eq_of_lt (by omega)
    rw [hoff, h2, e1, Nat.mod_eq_of_lt]
    split <;> omega
  have hloct : (List.range comm_size).map (fun r =>
      ((target_centers.getD r []).length / DIM) % (ordMax + 1))
      = (List.range comm_size).map (numCenters DIM target_centers) := by
    apply List.map_congr_left
    intro r hr
    have h1 := hm r (List.mem_range.mp hr)
    have h2 : (target_centers.getD r []).length / DIM = numCenters DIM target_centers r := rfl
    have e1 : numCenters DIM target_centers r % (ordMax + 1)
        = numCenters DIM target_centers r := Nat.mod_eq_of_lt (by omega)
    rw [h2, e1]
  have hsum : ∀ r, ((List.range r).map (fun r =>
      numCenters DIM source_centers r + if r = 0 then DIM + 1 else 0)).sum
      = ((List.range r).map (numCenters DIM source_centers)).sum
        + if r = 0 then 0 else DIM + 1 := by
    intro r
    rw [sum_map_range_add, sum_offsets]
  have hglob : reduceAllSum ordMax ((List.range comm_size).map (fun r =>
      numCenters DIM source_centers r + if r = 0 then DIM + 1 else 0))
      = globalNumCenters DIM comm_size source_centers + DIM + 1 := by
    rw [reduceAllSum, hsum, if_neg (by omega), globalNumCenters, Nat.mod_eq_of_lt (by
      rw [globalNumCenters] at hN; omega)]
    omega
  simp only [buildOperators, hloc, hloct]
  refine ⟨?_, ?_, ?_⟩
  · rw [hglob]
  · apply List.map_congr_left
    intro r hr
    have hr1 := List.mem_range.mp hr
    have h1 := hn r hr1
    have hget : ((List.range comm_size).map (fun r =>
        numCenters DIM source_centers r + if r = 0 then DIM + 1 else 0)).getD r 0
        = numCenters DIM source_centers r + if r = 0 then DIM + 1 else 0 := by
      rw [List.getD_eq_getElem?_getD, List.getElem?_map, List.getElem?_range hr1]
      rfl
    have hmin : ContigMap.getMinGlobalIndex ordMax
        ⟨reduceAllSum ordMax ((List.range comm_size).map (fun r =>
            numCenters DIM source_centers r + if r = 0 then DIM + 1 else 0)),
          (List.range comm_size).map (fun r =>
            numCenters DIM source_centers r + if r = 0 then DIM + 1 else 0)⟩ r
        = ((List.range r).map (numCenters DIM source_centers)).sum
          + if r = 0 then 0 else DIM + 1 := by
      rw [ContigMap.getMinGlobalIndex]
      simp only
      rw [← List.map_take, List.take_range, Nat.min_eq_left (Nat.le_of_lt hr1), hsum,
        Nat.mod_eq_of_lt]
      split <;> omega
    rw [hget, hoff, hmin, Nat.add_sub_cancel, List.range'_eq_map_range]
    apply List.map_congr_left
    intro j hj
    have hj1 := List.mem_range.mp hj
    rw [Nat.mod_eq_of_lt]
    · split <;> omega
    · split <;> omega
  · rw [reduceAllSum, Nat.mod_eq_of_lt (by rw [globalNumCenters] at hM; omega)]
    rfl
/-- The first row of a rank in the source map: the centres of the lower ranks and, above
rank 0, the polynomial block. -/
theorem getMinGlobalIndex_source (ordMax DIM comm_size global_num : Nat) (n : Nat → Nat)
    (r : Nat) (hr : r ≤ comm_size)
    (hle : ((List.range r).map n).sum + DIM + 1 ≤ ordMax) :
    ContigMap.getMinGlobalIndex ordMax
        ⟨global_num, (List.range comm_size).map (fun r => n r + if r = 0 then DIM + 1 else 0)⟩
        r
      = ((List.range r).map n).sum + if r = 0 then 0 else DIM + 1 := by
  rw [ContigMap.getMinGlobalIndex]
  simp only
  rw [← List.map_take, List.take_range, Nat.min_eq_left hr, sum_map_range_add, sum_offsets,
    Nat.mod_eq_of_lt]
  split <;> omega

/-- C16: on a communicator of at least one rank, with `n_r` source centres and `m_r` target
centres on rank `r`, `N` and `M` their sums and `N + DIM + 1` a value of `GO`,
`buildOperators` makes a source map of `N + DIM + 1` rows whose first rows `0..DIM` belong
to rank 0 and to no centre: rank 0 starts at row 0 and owns `n_0 + DIM + 1` rows, and
centre `j` of rank `r` gets the id `getMinGlobalIndex() + offset + j` with `offset = DIM + 1`
on rank 0 and 0 elsewhere; the ids of all ranks are, in order, `DIM + 1, ..., N + DIM`,
hence pairwise distinct; the target map has `M` rows; `C` is `(N + DIM + 1)` square and `A`
is `M x (N + DIM + 1)`. -/
theorem buildOperators_maps {α : Type} (ordMax DIM comm_size : Nat)
    (source_centers target_centers : List (List α)) (hP : 0 < comm_size)
    (hN : globalNumCenters DIM comm_size source_centers + DIM + 1 ≤ ordMax)
    (hM : globalNumCenters DIM comm_size target_centers ≤ ordMax) :
    (buildOperators ordMax DIM comm_size source_centers target_centers).source_map.global_num
      = globalNumCenters DIM comm_size source_centers + DIM + 1 ∧
    (buildOperators ordMax DIM comm_size source_centers
      target_centers).source_map.getMinGlobalIndex ordMax 0 = 0 ∧
    (buildOperators ordMax DIM comm_size source_centers
      target_centers).source_map.local_num.getD 0 0
      = numCenters DIM source_centers 0 + (DIM + 1) ∧
    (∀ r, r < comm_size →
      ((buildOperators ordMax DIM comm_size source_centers target_centers).source_gids.getD
        r []).length = numCenters DIM source_centers r) ∧
    (∀ r j, r < comm_size → j < numCenters DIM source_centers r →
      ((buildOperators ordMax DIM comm_size source_centers target_centers).source_gids.getD
        r [])[j]?
        = some ((buildOperators ordMax DIM comm_size source_centers
            target_centers).source_map.getMinGlobalIndex ordMax r
          + (if r = 0 then DIM + 1 else 0) + j)) ∧
    (buildOperators ordMax DIM comm_size source_centers target_centers).source_gids.flatten
      = List.range' (DIM + 1) (globalNumCenters DIM comm_size source_centers) ∧
    (buildOperators ordMax DIM comm_size source_centers
      target_centers).source_gids.flatten.Nodup ∧
    (buildOperators ordMax DIM comm_size source_centers target_centers).target_map.global_num
      = globalNumCenters DIM comm_size target_centers ∧
    (buildOperators ordMax DIM comm_size source_centers target_centers).C_rows
      = globalNumCenters DIM comm_size source_centers + DIM + 1 ∧
    (buildOperators ordMax DIM comm_size source_centers target_centers).C_cols
      = globalNumCenters DIM comm_size source_centers + DIM + 1 ∧
    (buildOperators ordMax DIM comm_size source_centers target_centers).A_rows
      = globalNumCenters DIM comm_size target_centers ∧
    (buildOperators ordMax DIM comm_size source_centers target_centers).A_cols
      = globalNumCenters DIM comm_size source_centers + DIM + 1 := by
  obtain ⟨hs, hg, ht⟩ := buildOperators_closed ordMax DIM comm_size source_centers
    target_centers hP hN hM
  have hflat : (buildOperators ordMax DIM comm_size source_centers
      target_centers).source_gids.flatten
      = List.range' (DIM + 1) (globalNumCenters DIM comm_size source_centers) := by
    rw [hg, globalNumCenters]
    exact flatten_blocks _ _ comm_size
  have hC : (buildOperators ordMax DIM comm_size source_centers target_centers).C_rows
      = (buildOperators ordMax DIM comm_size source_centers
          target_centers).source_map.global_num := rfl
  have hC2 : (buildOperators ordMax DIM comm_size source_centers target_centers).C_cols
      = (buildOperators ordMax DIM comm_size source_centers
          target_centers).source_map.global_num := rfl
  have hA : (buildOperators ordMax DIM comm_size source_centers target_centers).A_rows
      = (buildOperators ordMax DIM comm_size source_centers
          target_centers).target_map.global_num := rfl
  have hA2 : (buildOperators ordMax DIM comm_size source_centers target_centers).A_cols
      = (buildOperators ordMax DIM comm_size source_centers
          target_centers).source_map.global_num := rfl
  have hgr : ∀ r, r < comm_size →
      (buildOperators ordMax DIM comm_size source_centers target_centers).source_gids.getD r []
        = List.range' (DIM + 1 + ((List.range r).map (numCenters DIM source_centers)).sum)
            (numCenters DIM source_centers r) := by
    intro r hr
    rw [hg, List.getD_eq_getElem?_getD, List.getElem?_map, List.getElem?_range hr]
    rfl
  refine ⟨by rw [hs], ?_, ?_, ?_, ?_, hflat, ?_, by rw [ht], by rw [hC, hs], by rw [hC2, hs],
    by rw [hA, ht], by rw [hA2, hs]⟩
  · rw [hs, getMinGlobalIndex_source ordMax DIM comm_size _ _ 0 (Nat.zero_le _) (by simp; omega)]
    rfl
  · rw [hs]
    simp only
    rw [List.getD_eq_getElem?_getD, List.getElem?_map, List.getElem?_range hP]
    rfl
  · intro r hr
    rw [hgr r hr, List.length_range']
  · intro r j hr hj
    have h1 : ((List.range r).map (numCenters DIM source_centers)).sum
        + numCenters DIM source_centers r ≤ globalNumCenters DIM comm_size source_centers :=
      sum_map_range_add_le (numCenters DIM source_centers) comm_size r hr
    rw [hgr r hr, hs, getMinGlobalIndex_source ordMax DIM comm_size _ _ r (Nat.le_of_lt hr)
      (by omega), List.getElem?_range' _ _ hj]
    congr 1
    split <;> omega
  · rw [hflat]
    exact List.nodup_range' _ _

/-- Witness for C16: two ranks in three dimensions with 2 and 3 source centres and 1 and 2
target centres, and 32-bit signed ordinals. -/
theorem buildOperators_maps_witness :
    buildOperators (2 ^ 31 - 1) 3 2 [[1, 1, 1, 2, 2, 2], [3, 3, 3, 4, 4, 4, 5, 5, 5]]
        [[0, 0, 0], [1, 1, 1, 2, 2, 2]]
      = ⟨⟨9, [6, 3]⟩, [[4, 5], [6, 7, 8]], ⟨3, [1, 2]⟩, [[0], [1, 2]], 9, 9, 3, 9⟩ ∧
    (buildOperators (2 ^ 31 - 1) 3 2 [[1, 1, 1, 2, 2, 2], [3, 3, 3, 4, 4, 4, 5, 5, 5]]
        [[0, 0, 0], [1, 1, 1, 2, 2, 2]]).source_gids.flatten
      = List.range' (3 + 1)
          (globalNumCenters 3 2 [[1, 1, 1, 2, 2, 2], [3, 3, 3, 4, 4, 4, 5, 5, 5]]) :=
  ⟨by decide,
    (buildOperators_maps (2 ^ 31 - 1) 3 2 [[1, 1, 1, 2, 2, 2], [3, 3, 3, 4, 4, 4, 5, 5, 5]]
      [[0, 0, 0], [1, 1, 1, 2, 2, 2]] (by decide) (by decide) (by decide)).2.2.2.2.2.1⟩

/-! ### The number of linear nodes -/

/-- C17: `numLinearNodes` returns 1 for a vertex, 2 for an edge, 3 for a triangle, 4 for a
quadrilateral, 4 for a tetrahedron, 8 for a hexahedron and 5 for a pyramid, and for every
other element topology it fails the precondition with the message
`"Invalid mesh topology"`. -/
theorem numLinearNodes_table (element_topology : EntityType) :
    numLinearNodes .MBVERTEX = .ok 1 ∧ numLinearNodes .MBEDGE = .ok 2 ∧
    numLinearNodes .MBTRI = .ok 3 ∧ numLinearNodes .MBQUAD = .ok 4 ∧
    numLinearNodes .MBTET = .ok 4 ∧ numLinearNodes .MBHEX = .ok 8 ∧
    numLinearNodes .MBPYRAMID = .ok 5 ∧
    (element_topology ∉ [EntityType.MBVERTEX, .MBEDGE, .MBTRI, .MBQUAD, .MBTET, .MBHEX,
        .MBPYRAMID] →
      numLinearNodes element_topology = .error (.precondition, "Invalid mesh topology")) := by
  refine ⟨rfl, rfl, rfl, rfl, rfl, rfl, rfl, ?_⟩
  cases element_topology <;> simp [numLinearNodes]

/-! ### Views and bounding boxes of mesh blocks -/

/-- The values between the begin and the end iterator of an array are the array. -/
theorem values_begin_end {β : Type} (l : List β) :
    ArrayIterator.values ⟨l, 0⟩ ⟨l, l.length⟩ = l := by
  simp only [ArrayIterator.values, ArrayIterator.advance, ArrayIterator.deref, Nat.sub_zero,
    Nat.zero_add]
  have h1 : ∀ n, n ≤ l.length → (List.range n).filterMap (fun i => l[i]?) = l.take n := by
    intro n
    induction n with
    | zero => intro _; rfl
    | succ n ih =>
      intro hn
      rw [List.range_succ, List.filterMap_append, ih (Nat.le_of_succ_le hn)]
      simp only [List.filterMap_cons, List.filterMap_nil]
      rw [List.getElem?_eq_getElem hn]
      simp only
      rw [List.take_succ, List.getElem?_eq_getElem hn]
      rfl
  rw [h1 l.length (le_refl _), List.take_length]

/-- The fold with `min` from `c` over `cs` is an entry of `c :: cs` below all entries. -/
theorem foldl_min_spec {α : Type} [LinearOrder α] :
    ∀ (cs : List α) (c : α), cs.foldl min c ∈ c :: cs ∧ ∀ x, x ∈ c :: cs → cs.foldl min c ≤ x
  | [], c => ⟨List.mem_singleton.mpr rfl, fun x hx => by
      rw [List.mem_singleton.mp hx]
      exact le_refl c⟩
  | d :: cs, c => by
    obtain ⟨h1, h2⟩ := foldl_min_spec cs (min c d)
    rw [List.foldl_cons]
    constructor
    · rcases List.mem_cons.mp h1 with h | h
      · rw [h]
        rcases min_choice c d with e | e
        · rw [e]; exact List.mem_cons_self _ _
        · rw [e]; exact List.mem_cons_of_mem _ (List.mem_cons_self _ _)
      · exact List.mem_cons_of_mem _ (List.mem_cons_of_mem _ h)
    · intro x hx
      rcases List.mem_cons.mp hx with h | h
      · rw [h]
        exact le_trans (h2 _ (List.mem_cons_self _ _)) (min_le_left c d)
      · rcases List.mem_cons.mp h with h | h
        · rw [h]
          exact le_trans (h2 _ (List.mem_cons_self _ _)) (min_le_right c d)
        · exact h2 x (List.mem_cons_of_mem _ h)

/-- The fold with `max` from `c` over `cs` is an entry of `c :: cs` above all entries. -/
theorem foldl_max_spec {α : Type} [LinearOrder α] :
    ∀ (cs : List α) (c : α), cs.foldl max c ∈ c :: cs ∧ ∀ x, x ∈ c :: cs → x ≤ cs.foldl max c
  | [], c => ⟨List.mem_singleton.mpr rfl, fun x hx => by
      rw [List.mem_singleton.mp hx]
      exact le_refl c⟩
  | d :: cs, c => by
    obtain ⟨h1, h2⟩ := foldl_max_spec cs (max c d)
    rw [List.foldl_cons]
    constructor
    · rcases List.mem_cons.mp h1 with h | h
      · rw [h]
        rcases max_choice c d with e | e
        · rw [e]; exact List.mem_cons_self _ _
        · rw [e]; exact List.mem_cons_of_mem _ (List.mem_cons_self _ _)
      · exact List.mem_cons_of_mem _ (List.mem_cons_of_mem _ h)
    · intro x hx
      rcases List.mem_cons.mp hx with h | h
      · rw [h]
        exact le_trans (le_max_left c d) (h2 _ (List.mem_cons_self _ _))
      · rcases List.mem_cons.mp h with h | h
        · rw [h]
          exact le_trans (le_max_right c d) (h2 _ (List.mem_cons_self _ _))
        · exact h2 x (List.mem_cons_of_mem _ h)

/-- The views of a mesh block are the arrays of the block. -/
theorem coordsView_eq {α : Type} (mesh : MeshContainer α) : coordsView mesh = mesh.d_coords :=
  values_begin_end mesh.d_coords

/-- The entries of the block `coords( a, n )` of an array are the entries of the array at
the positions `a, ..., a + n - 1`. -/
theorem mem_take_drop {α : Type} (l : List α) (a n : Nat) (c : α) :
    c ∈ (l.drop a).take n ↔ ∃ v, v < n ∧ l[a + v]? = some c := by
  rw [List.mem_iff_getElem?]
  constructor
  · rintro ⟨i, hi⟩
    rw [List.getElem?_take] at hi
    split at hi
    · rename_i hlt
      rw [List.getElem?_drop] at hi
      exact ⟨i, hlt, hi⟩
    · cases hi
  · rintro ⟨v, hv, hc⟩
    refine ⟨v, ?_⟩
    rw [List.getElem?_take, if_pos hv, List.getElem?_drop]
    exact hc

/-- C19: for a mesh block with at least one vertex, a vertex dimension `d` (1, 2 or 3, or
any other) and `d * Nv` block-strided coordinates, the bounds
`(xmin, ymin, zmin, xmax, ymax, zmax)` of `localBoundingBox` hold, in every dimension
`k < d`, the smallest and the largest of the `k`-th vertex coordinates of the block, the
`k`-th coordinate of the vertex `v` being the entry `k * Nv + v` of the coordinate array,
and in every dimension `k >= d` the values `-rmax` and `rmax`. -/
theorem localBoundingBox_bounds {α : Type} [LinearOrder α] [Neg α] (rmax : α)
    (mesh : MeshContainer α) (k : Nat) (hk : k < 3)
    (hne : 0 < mesh.d_vertices.length)
    (hlen : mesh.d_coords.length = mesh.d_vertex_dim * mesh.d_vertices.length) :
    (k < mesh.d_vertex_dim →
      ∃ lo hi, (localBoundingBox rmax mesh).getBounds[k]? = some lo ∧
        (localBoundingBox rmax mesh).getBounds[k + 3]? = some hi ∧
        (∃ v, v < mesh.d_vertices.length ∧
          mesh.d_coords[k * mesh.d_vertices.length + v]? = some lo) ∧
        (∃ v, v < mesh.d_vertices.length ∧
          mesh.d_coords[k * mesh.d_vertices.length + v]? = some hi) ∧
        ∀ v c, v < mesh.d_vertices.length →
          mesh.d_coords[k * mesh.d_vertices.length + v]? = some c → lo ≤ c ∧ c ≤ hi) ∧
    (mesh.d_vertex_dim ≤ k →
      (localBoundingBox rmax mesh).getBounds[k]? = some (-rmax) ∧
      (localBoundingBox rmax mesh).getBounds[k + 3]? = some rmax) := by
  have hb : (localBoundingBox rmax mesh).getBounds[k]?
        = some (if k < mesh.d_vertex_dim then minCoord rmax (vertexCoords mesh k) else -rmax) ∧
      (localBoundingBox rmax mesh).getBounds[k + 3]?
        = some (if k < mesh.d_vertex_dim then maxCoord rmax (vertexCoords mesh k)
            else rmax) := by
    interval_cases k <;> exact ⟨rfl, rfl⟩
  have hmem : ∀ c, c ∈ vertexCoords mesh k ↔
      ∃ v, v < mesh.d_vertices.length ∧
        mesh.d_coords[k * mesh.d_vertices.length + v]? = some c := by
    intro c
    rw [vertexCoords, dimBlock, coordsView_eq]
    exact mem_take_drop mesh.d_coords _ _ c
  constructor
  · intro hlt
    rw [if_pos hlt, if_pos hlt] at hb
    have hlen2 : 0 < (vertexCoords mesh k).length := by
      have h2 : numVertices mesh = mesh.d_vertices.length := rfl
      rw [vertexCoords, dimBlock, List.length_take, List.length_drop, coordsView_eq, hlen, h2]
      have h1 : (k + 1) * mesh.d_vertices.length
          ≤ mesh.d_vertex_dim * mesh.d_vertices.length := Nat.mul_le_mul_right _ hlt
      rw [Nat.add_mul, Nat.one_mul] at h1
      omega
    cases hvc : vertexCoords mesh k with
    | nil => rw [hvc] at hlen2; cases hlen2
    | cons c cs =>
      rw [hvc] at hb hmem
      obtain ⟨m1, m2⟩ := foldl_min_spec cs c
      obtain ⟨M1, M2⟩ := foldl_max_spec cs c
      refine ⟨cs.foldl min c, cs.foldl max c, hb.1, hb.2, (hmem _).mp m1, (hmem _).mp M1, ?_⟩
      intro v x hv hx
      have hxm := (hmem x).mpr ⟨v, hv, hx⟩
      exact ⟨m2 x hxm, M2 x hxm⟩
  · intro hge
    rw [if_neg (by omega), if_neg (by omega)] at hb
    exact hb

/-- Witness for C19: the hexahedron of rank 5 of the parallel mesh, whose third
coordinates lie between 5 and 6, in dimension 2, and the triangle of `buildTriContainer`
in its unused dimension 2, with `rmax = 1000`. -/
theorem localBoundingBox_bounds_witness :
    localBoundingBox 1000 (parallelHexContainer 5 : MeshContainer ℤ) = ⟨0, 0, 5, 1, 1, 6⟩ ∧
    localBoundingBox 1000 triContainer = ⟨0, 0, -1000, 1, 1, 1000⟩ ∧
    localBoundingBox 1000 lineContainer = ⟨0, -1000, -1000, 1, 1000, 1000⟩ ∧
    (∃ lo hi,
      (localBoundingBox 1000 (parallelHexContainer 5 : MeshContainer ℤ)).getBounds[2]?
        = some lo ∧
      (localBoundingBox 1000 (parallelHexContainer 5 : MeshContainer ℤ)).getBounds[2 + 3]?
        = some hi ∧
      (∃ v, v < (parallelHexContainer 5 : MeshContainer ℤ).d_vertices.length ∧
        (parallelHexContainer 5 : MeshContainer ℤ).d_coords[
          2 * (parallelHexContainer 5 : MeshContainer ℤ).d_vertices.length + v]? = some lo) ∧
      (∃ v, v < (parallelHexContainer 5 : MeshContainer ℤ).d_vertices.length ∧
        (parallelHexContainer 5 : MeshContainer ℤ).d_coords[
          2 * (parallelHexContainer 5 : MeshContainer ℤ).d_vertices.length + v]? = some hi) ∧
      ∀ v c, v < (parallelHexContainer 5 : MeshContainer ℤ).d_vertices.length →
        (parallelHexContainer 5 : MeshContainer ℤ).d_coords[
          2 * (parallelHexContainer 5 : MeshContainer ℤ).d_vertices.length + v]? = some c →
        lo ≤ c ∧ c ≤ hi) ∧
    ((localBoundingBox 1000 triContainer).getBounds[2]? = some (-1000) ∧
      (localBoundingBox 1000 triContainer).getBounds[2 + 3]? = some 1000) :=
  ⟨by decide, by decide, by decide,
    (localBoundingBox_bounds 1000 (parallelHexContainer 5 : MeshContainer ℤ) 2 (by decide)
      (by decide) (by decide)).1 (by decide),
    (localBoundingBox_bounds 1000 triContainer 2 (by decide) (by decide)
      (by decide)).2 (by decide)⟩

/-- The bounds of a reduction of boxes are the folds of the bounds of the boxes. -/
theorem reduceBoxes_foldl {α : Type} [LinearOrder α] (boxes : List (BoundingBox α)) :
    ∀ g : BoundingBox α,
      boxes.foldl (fun g b =>
        (⟨min g.x_min b.x_min, min g.y_min b.y_min, min g.z_min b.z_min,
          max g.x_max b.x_max, max g.y_max b.y_max, max g.z_max b.z_max⟩ : BoundingBox α)) g
      = ⟨(boxes.map (·.x_min)).foldl min g.x_min, (boxes.map (·.y_min)).foldl min g.y_min,
          (boxes.map (·.z_min)).foldl min g.z_min, (boxes.map (·.x_max)).foldl max g.x_max,
          (boxes.map (·.y_max)).foldl max g.y_max, (boxes.map (·.z_max)).foldl max g.z_max⟩ := by
  induction boxes with
  | nil => intro g; rfl
  | cons b boxes ih =>
    intro g
    rw [List.foldl_cons, ih]
    rfl

/-- The block of rank `r` of the parallel hexahedra has the box `(0, 0, r, 1, 1, r + 1)`. -/
theorem blockBox_parallelHex {α : Type} [LinearOrderedRing α] (rmax : α) (r : Nat) :
    blockBox rmax (parallelHexContainer r : MeshContainer α)
      = ⟨0, 0, (r : α), 1, 1, (r : α) + 1⟩ := by
  have h0 : ((0 : Nat) : α) ≤ ((1 : Nat) : α) := Nat.cast_le.mpr (Nat.zero_le 1)
  have h1 : ((r : Nat) : α) ≤ ((r + 1 : Nat) : α) := Nat.cast_le.mpr (Nat.le_succ r)
  have hv : ∀ k, vertexCoords (parallelHexContainer r : MeshContainer α) k
      = dimBlock (parallelHexContainer r : MeshContainer α).d_coords 8 k := by
    intro k
    rw [vertexCoords, coordsView_eq]
    rfl
  have hn : ¬ numVertices (parallelHexContainer r : MeshContainer α) = 0 := by
    intro h
    cases h
  rw [blockBox, if_neg hn, localBoundingBox]
  simp only [hv]
  simp [MT, MeshContainer.getVertexDim, parallelHexContainer, dimBlock, minCoord, maxCoord, h0,
    h1]

/-- C18: the global bounding box of `MeshTools::globalBoundingBox` (one block per rank) and
of `MeshManager::globalBoundingBox` (all blocks of all ranks) holds, bound by bound, the
minimum of the lower bounds and the maximum of the upper bounds of the boxes of the blocks:
every lower bound of a block is at least the global one, every upper bound at most the
global one, and each global bound is the bound of some block (or the neutral value when
there is none); for `P >= 1` ranks that hold the unit hexahedron with `z` from `r` to
`r + 1` the global box is `(0, 0, 0, 1, 1, P)`. -/
theorem globalBoundingBox_reduction {α : Type} [LinearOrderedRing α] (rmax : α)
    (meshes : List (MeshContainer α)) (mesh_blocks : List (List (MeshContainer α)))
    (P : Nat) :
    (∀ k, k < 3 →
      ∃ lo hi, (globalBoundingBox rmax meshes).getBounds[k]? = some lo ∧
        (globalBoundingBox rmax meshes).getBounds[k + 3]? = some hi ∧
        lo ∈ rmax :: meshes.map (fun m => (blockBox rmax m).getBounds.getD k rmax) ∧
        hi ∈ (-rmax) :: meshes.map (fun m => (blockBox rmax m).getBounds.getD (k + 3) rmax) ∧
        ∀ m, m ∈ meshes → lo ≤ (blockBox rmax m).getBounds.getD k rmax ∧
          (blockBox rmax m).getBounds.getD (k + 3) rmax ≤ hi) ∧
    managerGlobalBoundingBox rmax mesh_blocks = globalBoundingBox rmax mesh_blocks.flatten ∧
    (0 < P → (P : α) ≤ rmax →
      globalBoundingBox rmax ((List.range P).map parallelHexContainer)
        = ⟨0, 0, 0, 1, 1, (P : α)⟩) := by
  refine ⟨?_, rfl, ?_⟩
  · intro k hk
    have hg : globalBoundingBox rmax meshes
        = ⟨(meshes.map (fun m => (blockBox rmax m).x_min)).foldl min rmax,
            (meshes.map (fun m => (blockBox rmax m).y_min)).foldl min rmax,
            (meshes.map (fun m => (blockBox rmax m).z_min)).foldl min rmax,
            (meshes.map (fun m => (blockBox rmax m).x_max)).foldl max (-rmax),
            (meshes.map (fun m => (blockBox rmax m).y_max)).foldl max (-rmax),
            (meshes.map (fun m => (blockBox rmax m).z_max)).foldl max (-rmax)⟩ := by
      rw [globalBoundingBox, reduceBoxes, reduceBoxes_foldl]
      simp only [List.map_map]
      rfl
    rw [hg]
    interval_cases k
    · obtain ⟨m1, m2⟩ := foldl_min_spec (meshes.map (fun m => (blockBox rmax m).x_min)) rmax
      obtain ⟨M1, M2⟩ := foldl_max_spec (meshes.map (fun m => (blockBox rmax m).x_max)) (-rmax)
      exact ⟨_, _, rfl, rfl, m1, M1, fun m hm =>
        ⟨m2 _ (List.mem_cons_of_mem _ (List.mem_map.mpr ⟨m, hm, rfl⟩)),
          M2 _ (List.mem_cons_of_mem _ (List.mem_map.mpr ⟨m, hm, rfl⟩))⟩⟩
    · obtain ⟨m1, m2⟩ := foldl_min_spec (meshes.map (fun m => (blockBox rmax m).y_min)) rmax
      obtain ⟨M1, M2⟩ := foldl_max_spec (meshes.map (fun m => (blockBox rmax m).y_max)) (-rmax)
      exact ⟨_, _, rfl, rfl, m1, M1, fun m hm =>
        ⟨m2 _ (List.mem_cons_of_mem _ (List.mem_map.mpr ⟨m, hm, rfl⟩)),
          M2 _ (List.mem_cons_of_mem _ (List.mem_map.mpr ⟨m, hm, rfl⟩))⟩⟩
    · obtain ⟨m1, m2⟩ := foldl_min_spec (meshes.map (fun m => (blockBox rmax m).z_min)) rmax
      obtain ⟨M1, M2⟩ := foldl_max_spec (meshes.map (fun m => (blockBox rmax m).z_max)) (-rmax)
      exact ⟨_, _, rfl, rfl, m1, M1, fun m hm =>
        ⟨m2 _ (List.mem_cons_of_mem _ (List.mem_map.mpr ⟨m, hm, rfl⟩)),
          M2 _ (List.mem_cons_of_mem _ (List.mem_map.mpr ⟨m, hm, rfl⟩))⟩⟩
  · intro hP hr
    obtain ⟨Q, rfl⟩ : ∃ Q, P = Q + 1 := ⟨P - 1, by omega⟩
    clear hP
    induction Q with
    | zero =>
      have h1 : (1 : α) ≤ rmax := by simpa using hr
      have h2 : (0 : α) ≤ rmax := le_trans zero_le_one h1
      have h3 : -rmax ≤ (1 : α) := le_trans (neg_nonpos.mpr h2) zero_le_one
      simp [globalBoundingBox, reduceBoxes, blockBox_parallelHex, neutralBox, h1, h2, h3,
        List.range_succ]
    | succ Q ih =>
      have hQ : ((Q + 1 : Nat) : α) ≤ rmax := by
        refine le_trans (Nat.cast_le.mpr (Nat.le_succ (Q + 1))) hr
      have ih2 := ih hQ
      rw [globalBoundingBox, reduceBoxes] at ih2 ⊢
      rw [List.range_succ, List.map_append, List.map_append, List.foldl_append, ih2]
      have hq : (0 : α) ≤ (Q : α) + 1 := by positivity
      simp [blockBox_parallelHex, hq]

/-- Witness for C18: four ranks with integer coordinates and `rmax = 1000`. -/
theorem globalBoundingBox_reduction_witness :
    globalBoundingBox (1000 : ℤ) ((List.range 4).map parallelHexContainer)
      = ⟨0, 0, 0, 1, 1, ((4 : Nat) : ℤ)⟩ :=
  (globalBoundingBox_reduction (1000 : ℤ) [] [] 4).2.2 (by decide) (by decide)

/-- C20: for the mesh container built from a vertex dimension, vertex handles,
block-strided coordinates, a topology, the vertices per element, element handles, a
connectivity and a permutation list, the three scalar accessors return the arguments of the
constructor, every begin iterator advanced by `i` points to entry `i` of its array, the
traits return what the accessors of the container return, the const and non-const views of
`MeshTools` hold the arrays, and the field traits begin at the coordinates. -/
theorem meshContainer_accessors {α : Type} (vertex_dim : Nat) (vertices : List Nat)
    (coords : List α) (element_topology : ElementTopology) (vertices_per_element : Nat)
    (elements connectivity permutation_list : List Nat) (i : Nat) :
    ∃ mesh : MeshContainer α,
      mesh = ⟨vertex_dim, vertices, coords, element_topology, vertices_per_element, elements,
        connectivity, permutation_list⟩ ∧
      (mesh.getVertexDim = vertex_dim ∧ mesh.getVerticesPerElement = vertices_per_element ∧
        mesh.getElementTopology = element_topology) ∧
      ((mesh.verticesBegin.advance i).deref = vertices[i]? ∧
        (mesh.coordsBegin.advance i).deref = coords[i]? ∧
        (mesh.elementsBegin.advance i).deref = elements[i]? ∧
        (mesh.connectivityBegin.advance i).deref = connectivity[i]? ∧
        (mesh.permutationBegin.advance i).deref = permutation_list[i]?) ∧
      (MT.vertexDim mesh = mesh.getVertexDim ∧
        MT.verticesPerElement mesh = mesh.getVerticesPerElement ∧
        MT.elementTopology mesh = mesh.getElementTopology ∧
        MT.verticesBegin mesh = mesh.verticesBegin ∧ MT.coordsBegin mesh = mesh.coordsBegin ∧
        MT.elementsBegin mesh = mesh.elementsBegin ∧
        MT.connectivityBegin mesh = mesh.connectivityBegin ∧
        MT.permutationBegin mesh = mesh.permutationBegin) ∧
      (verticesView mesh = vertices ∧ verticesNonConstView mesh = vertices ∧
        coordsView mesh = coords ∧ coordsNonConstView mesh = coords ∧
        elementsView mesh = elements ∧ elementsNonConstView mesh = elements ∧
        connectivityView mesh = connectivity ∧ connectivityNonConstView mesh = connectivity ∧
        permutationView mesh = permutation_list ∧
        permutationNonConstView mesh = permutation_list) ∧
      (FT.dim mesh = vertex_dim ∧ FT.size mesh = coords.length ∧
        (FT.empty mesh = true ↔ coords = []) ∧
        ((FT.begin mesh).advance i).deref = (mesh.coordsBegin.advance i).deref) := by
  refine ⟨_, rfl, ⟨rfl, rfl, rfl⟩, ?_, ⟨rfl, rfl, rfl, rfl, rfl, rfl, rfl, rfl⟩, ?_, ?_⟩
  · simp [ArrayIterator.advance, ArrayIterator.deref, MeshContainer.verticesBegin,
      MeshContainer.coordsBegin, MeshContainer.elementsBegin, MeshContainer.connectivityBegin,
      MeshContainer.permutationBegin]
  · exact ⟨values_begin_end _, values_begin_end _, values_begin_end _, values_begin_end _,
      values_begin_end _, values_begin_end _, values_begin_end _, values_begin_end _,
      values_begin_end _, values_begin_end _⟩
  · refine ⟨rfl, rfl, ?_, rfl⟩
    simp [FT, MeshContainer.coordsEnd, MeshContainer.coordsBegin]

/-- The values that `line_container_test`, `line_tools_test` and `line_adapter_test` read
on the line of `buildLineContainer`. -/
theorem meshContainer_accessors_line :
    MT.vertexDim lineContainer = 1 ∧ lineContainer.getVertexDim = 1 ∧
    MT.verticesPerElement lineContainer = 2 ∧
    MT.elementTopology lineContainer = .DTK_LINE_SEGMENT ∧
    ((MT.verticesBegin lineContainer).advance 1).deref = some 1 ∧
    ((MT.coordsBegin lineContainer).advance 1).deref = some 1 ∧
    (MT.elementsBegin lineContainer).deref = some 12 ∧
    verticesView lineContainer = [0, 1] ∧ coordsNonConstView lineContainer = [0, 1] ∧
    elementsView lineContainer = [12] ∧ numVertices lineContainer = 2 ∧
    FT.dim lineContainer = 1 ∧ FT.size lineContainer = 1 * 2 ∧ FT.empty lineContainer = false ∧
    ((FT.begin lineContainer).advance 1).deref
      = (lineContainer.coordsBegin.advance 1).deref := by
  decide

/-! ### The two prunings of `setup` -/

/-- C24: for `N` target points with the block-strided coordinates `c d n` (`D >= 1`
dimensions), the rendezvous rank `proc n` of every point and the entries `ord n` of
`targets_in_box`, the removal loop over the reversed indices of the sentinel entries leaves
in `coords_copy` the block-strided coordinates of the points without sentinel, in their
order, and in `rendezvous_procs` their ranks; `std::remove` leaves in `targets_in_box` their
ordinals; so entry `k` of the three belongs to the same point, and the two checks that
follow the loop hold. -/
theorem outOfBoxPrune_aligned {α : Type} (ordMax D N : Nat) (ord : Nat → Nat)
    (proc : Nat → Int) (c : Nat → Nat → α) (hD : 0 < D) :
    pruneLoop D (indicesOf (invalidOrdinal ordMax) ((List.range N).map ord) 0).reverse
        ((List.range N).map proc) (blockStrided D (List.range N) c)
      = ((nonSentinel ordMax N ord).map proc, blockStrided D (nonSentinel ordMax N ord) c) ∧
    stdRemove (invalidOrdinal ordMax) ((List.range N).map ord)
      = (nonSentinel ordMax N ord).map ord ∧
    (pruneLoop D (indicesOf (invalidOrdinal ordMax) ((List.range N).map ord) 0).reverse
        ((List.range N).map proc) (blockStrided D (List.range N) c)).2.length % D = 0 ∧
    (pruneLoop D (indicesOf (invalidOrdinal ordMax) ((List.range N).map ord) 0).reverse
        ((List.range N).map proc) (blockStrided D (List.range N) c)).1.length
      = (pruneLoop D (indicesOf (invalidOrdinal ordMax) ((List.range N).map ord) 0).reverse
        ((List.range N).map proc) (blockStrided D (List.range N) c)).2.length / D := by
  have h := pruneLoop_blockStrided D (invalidOrdinal ordMax) ord proc c (List.range N) [] []
  simp only [List.append_nil] at h
  have hs := stdRemove_map (invalidOrdinal ordMax) ord (List.range N)
  refine ⟨h, hs, ?_, ?_⟩
  · rw [h]
    simp only
    rw [blockStrided_length, Nat.mul_mod_right]
  · rw [h]
    simp only
    rw [blockStrided_length, List.length_map, Nat.mul_div_cancel_left _ hD]

/-- Witness for C24: four points in two dimensions, the second and the fourth with the
sentinel. -/
theorem outOfBoxPrune_aligned_witness :
    pruneLoop 2 (indicesOf (invalidOrdinal 99) [10, 99, 12, 99] 0).reverse [(0 : Int), 1, 0, 1]
        [(1 : Int), 2, 3, 4, 5, 6, 7, 8] = ([0, 0], [1, 3, 5, 7]) ∧
    stdRemove (invalidOrdinal 99) [10, 99, 12, 99] = [10, 12] ∧
    pruneLoop 2 (indicesOf (invalidOrdinal 99)
        ((List.range 4).map (fun n => if n % 2 = 0 then 10 + n else 99)) 0).reverse
        ((List.range 4).map (fun n => ((n % 2 : Nat) : Int)))
        (blockStrided 2 (List.range 4) (fun d n => ((4 * d + n + 1 : Nat) : Int)))
      = ((nonSentinel 99 4 (fun n => if n % 2 = 0 then 10 + n else 99)).map
          (fun n => ((n % 2 : Nat) : Int)),
        blockStrided 2 (nonSentinel 99 4 (fun n => if n % 2 = 0 then 10 + n else 99))
          (fun d n => ((4 * d + n + 1 : Nat) : Int))) :=
  ⟨by decide, by decide,
    (outOfBoxPrune_aligned 99 2 4 (fun n => if n % 2 = 0 then 10 + n else 99)
      (fun n => ((n % 2 : Nat) : Int)) (fun d n => ((4 * d + n + 1 : Nat) : Int))
      (by decide)).1⟩

/-- C25: for `N` points on a rendezvous rank with the ordinals `ordf n`, the block-strided
coordinates `c d n` (`D >= 1` dimensions), the element handles `el n` and the source ranks
`sp n`, where `sp n = -1` exactly for the points whose handle is the sentinel, the pruning
completes and leaves in `rendezvous_points`, `rendezvous_coords`, `rendezvous_elements` and
`rendezvous_element_src_procs` the entries of the points with an element, in their order;
the four arrays hold as many points, and entry `k` of each belongs to the same point. -/
theorem rendezvousPrune_aligned {α : Type} (ordMax D N : Nat) (ordf el : Nat → Nat)
    (sp : Nat → Int) (c : Nat → Nat → α) (missed_ordinals : List Nat)
    (missed_procs : List Int) (hD : 0 < D)
    (hcons : ∀ n, n < N → (el n = invalidOrdinal ordMax ↔ sp n = -1)) :
    ∃ R : RendezvousSide α,
      rendezvousPrune ordMax D
          ⟨(List.range N).map el, (List.range N).map sp,
            indicesOf (invalidOrdinal ordMax) ((List.range N).map el) 0, missed_ordinals,
            missed_procs⟩
          ((List.range N).map ordf) (blockStrided D (List.range N) c) = .ok R ∧
      R.rendezvous_points = (nonSentinel ordMax N el).map ordf ∧
      R.rendezvous_coords = blockStrided D (nonSentinel ordMax N el) c ∧
      R.rendezvous_elements = (nonSentinel ordMax N el).map el ∧
      R.rendezvous_element_src_procs = (nonSentinel ordMax N el).map sp ∧
      R.rendezvous_coords.length = D * R.rendezvous_points.length ∧
      R.rendezvous_elements.length = R.rendezvous_points.length ∧
      R.rendezvous_element_src_procs.length = R.rendezvous_points.length := by
  have hp : pruneLoop D (indicesOf (invalidOrdinal ordMax) ((List.range N).map el) 0).reverse
      ((List.range N).map ordf) (blockStrided D (List.range N) c)
      = ((nonSentinel ordMax N el).map ordf, blockStrided D (nonSentinel ordMax N el) c) := by
    have := pruneLoop_blockStrided D (invalidOrdinal ordMax) el ordf c (List.range N) [] []
    simp only [List.append_nil] at this
    exact this
  have he : stdRemove (invalidOrdinal ordMax) ((List.range N).map el)
      = (nonSentinel ordMax N el).map el :=
    stdRemove_map (invalidOrdinal ordMax) el (List.range N)
  have hs : stdRemove (-1) ((List.range N).map sp) = (nonSentinel ordMax N el).map sp := by
    rw [stdRemove_map, nonSentinel]
    congr 1
    apply List.filter_congr
    intro n hn
    have := hcons n (List.mem_range.mp hn)
    by_cases h : el n = invalidOrdinal ordMax
    · rw [h, this.mp h, bne_self_eq_false, bne_self_eq_false]
    · have h2 : sp n ≠ -1 := fun e => h (this.mpr e)
      rw [bne_iff_ne.mpr h, bne_iff_ne.mpr h2]
  have key : rendezvousPrune ordMax D
      ⟨(List.range N).map el, (List.range N).map sp,
        indicesOf (invalidOrdinal ordMax) ((List.range N).map el) 0, missed_ordinals,
        missed_procs⟩
      ((List.range N).map ordf) (blockStrided D (List.range N) c)
      = .ok ⟨(nonSentinel ordMax N el).map ordf, blockStrided D (nonSentinel ordMax N el) c,
          (nonSentinel ordMax N el).map el, (nonSentinel ordMax N el).map sp⟩ := by
    have h1 : ¬ (blockStrided D (nonSentinel ordMax N el) c).length % D ≠ 0 := by
      rw [blockStrided_length, Nat.mul_mod_right]
      exact fun h => h rfl
    have h2 : ¬ ((nonSentinel ordMax N el).map ordf).length
        ≠ (blockStrided D (nonSentinel ordMax N el) c).length / D := by
      rw [blockStrided_length, List.length_map, Nat.mul_div_cancel_left _ hD]
      exact fun h => h rfl
    have h3 : ¬ ((nonSentinel ordMax N el).map el).length
        ≠ ((nonSentinel ordMax N el).map sp).length := by
      rw [List.length_map, List.length_map]
      exact fun h => h rfl
    simp only [rendezvousPrune, hp, he, hs]
    rw [if_neg h1, if_neg h2, if_neg h3]
  refine ⟨_, key, rfl, rfl, rfl, rfl, ?_, ?_, ?_⟩
  · simp only
    rw [blockStrided_length, List.length_map]
  · simp only [List.length_map]
  · simp only [List.length_map]

/-- Witness for C25: three points in one dimension on a rendezvous rank, the second found
in no element. -/
theorem rendezvousPrune_aligned_witness :
    rendezvousPrune 99 1 ⟨[7, 99, 8], [0, -1, 1], [1], [], []⟩ [20, 21, 22] [(5 : Int), 6, 7]
      = .ok ⟨[20, 22], [5, 7], [7, 8], [0, 1]⟩ ∧
    ∃ R : RendezvousSide Int,
      rendezvousPrune 99 1
          ⟨(List.range 3).map (fun n => if n = 1 then 99 else 7 + n / 2),
            (List.range 3).map (fun n => if n = 1 then (-1 : Int) else ((n / 2 : Nat) : Int)),
            indicesOf (invalidOrdinal 99)
              ((List.range 3).map (fun n => if n = 1 then 99 else 7 + n / 2)) 0, [], []⟩
          ((List.range 3).map (fun n => 20 + n))
          (blockStrided 1 (List.range 3) (fun _ n => ((5 + n : Nat) : Int))) = .ok R ∧
      R.rendezvous_points
        = (nonSentinel 99 3 (fun n => if n = 1 then 99 else 7 + n / 2)).map (fun n => 20 + n) :=
  ⟨by rfl,
    (rendezvousPrune_aligned 99 1 3 (fun n => 20 + n) (fun n => if n = 1 then 99 else 7 + n / 2)
      (fun n => if n = 1 then (-1 : Int) else ((n / 2 : Nat) : Int))
      (fun _ n => ((5 + n : Nat) : Int)) [] [] (by decide)
      (fun n hn => by
        interval_cases n <;> decide)).elim
      (fun R h => ⟨R, h.1, h.2.1⟩)⟩

/-! ### The coordinate reduction of `pointInElement` -/

/-- The interleaved coordinates have `m * j` entries. -/
theorem interleaved_length {α : Type} (j : Nat) (v : Nat → Nat → α) :
    ∀ m : Nat, (interleaved j m v).length = m * j
  | 0 => by simp [interleaved]
  | m + 1 => by
    have ih := interleaved_length j v m
    rw [interleaved] at ih ⊢
    rw [List.range_succ, List.flatMap_append, List.length_append, ih]
    simp [Nat.add_mul]

/-- One more vertex appends its coordinates. -/
theorem interleaved_succ {α : Type} (j m : Nat) (v : Nat → Nat → α) :
    interleaved j (m + 1) v = interleaved j m v ++ (List.range j).map (v m) := by
  rw [interleaved, interleaved, List.range_succ, List.flatMap_append]
  simp

/-- The inner loop with `i` removes coordinate `i` of every vertex, from the last vertex to
the first, and every erase position is inside the array. -/
theorem reduceDimInner_interleaved {α : Type} (i : Nat) (v : Nat → Nat → α) :
    ∀ (n : Nat) (T : List α),
      reduceDimInner i n (interleaved (i + 1) n v ++ T) = interleaved i n v ++ T ∧
      ∀ e, e ∈ reduceDimInnerTrace i n (interleaved (i + 1) n v ++ T) → e.1 < e.2
  | 0, T => ⟨rfl, fun e he => by cases he⟩
  | n + 1, T => by
    have hsplit : interleaved (i + 1) (n + 1) v ++ T
        = (interleaved (i + 1) n v ++ (List.range i).map (v n)) ++ v n i :: T := by
      rw [interleaved_succ, List.range_succ, List.map_append]
      simp
    have hlen : (interleaved (i + 1) n v ++ (List.range i).map (v n)).length
        = (i + 1) * n + i := by
      rw [List.length_append, interleaved_length, List.length_map, List.length_range,
        Nat.mul_comm]
    have herase : (interleaved (i + 1) (n + 1) v ++ T).eraseIdx ((i + 1) * n + i)
        = interleaved (i + 1) n v ++ ((List.range i).map (v n) ++ T) := by
      rw [hsplit, List.eraseIdx_append_of_length_le (by rw [hlen]), hlen, Nat.sub_self]
      simp
    obtain ⟨ih1, ih2⟩ := reduceDimInner_interleaved i v n ((List.range i).map (v n) ++ T)
    constructor
    · rw [reduceDimInner, herase, ih1, interleaved_succ]
      simp
    · intro e he
      rw [reduceDimInnerTrace, herase] at he
      rcases List.mem_cons.mp he with h | h
      · rw [h]
        simp only
        rw [hsplit, List.length_append, hlen, List.length_cons]
        omega
      · exact ih2 e h

/-- Entry `k * j + c` of the interleaved coordinates is coordinate `c` of vertex `k`. -/
theorem interleaved_getElem {α : Type} (j : Nat) (v : Nat → Nat → α) (k c : Nat) (hc : c < j) :
    ∀ m : Nat, k < m → (interleaved j m v)[k * j + c]? = some (v k c)
  | 0, h => by cases h
  | m + 1, h => by
    rw [interleaved_succ]
    rcases Nat.lt_or_ge k m with hk | hk
    · have hlt : k * j + c < (interleaved j m v).length := by
        rw [interleaved_length]
        have h1 : (k + 1) * j ≤ m * j := Nat.mul_le_mul_right _ hk
        rw [Nat.add_mul, Nat.one_mul] at h1
        omega
      rw [List.getElem?_append_left hlt]
      exact interleaved_getElem j v k c hc m hk
    · obtain rfl : k = m := by omega
      rw [List.getElem?_append_right (by rw [interleaved_length]; omega), interleaved_length,
        Nat.add_sub_cancel_left, List.getElem?_map, List.getElem?_range hc]
      rfl

/-- A pass of the inner loop makes one erasure per vertex. -/
theorem reduceDimInnerTrace_length {α : Type} (i : Nat) :
    ∀ (n : Nat) (xs : List α), (reduceDimInnerTrace i n xs).length = n
  | 0, _ => rfl
  | n + 1, xs => by
    rw [reduceDimInnerTrace, List.length_cons, reduceDimInnerTrace_length i n]

/-- The outer loop from `j` dimensions down to `vertex_dim`. -/
theorem reduceDim_interleaved {α : Type} (vertex_dim m : Nat) (v : Nat → Nat → α) :
    ∀ j : Nat, vertex_dim ≤ j →
      reduceDim vertex_dim m j (interleaved j m v) = interleaved vertex_dim m v ∧
      (reduceDimTrace vertex_dim m j (interleaved j m v)).length = j - vertex_dim ∧
      ∀ pass, pass ∈ reduceDimTrace vertex_dim m j (interleaved j m v) →
        pass.length = m ∧ ∀ e, e ∈ pass → e.1 < e.2
  | 0, h => by
    obtain rfl : vertex_dim = 0 := Nat.le_zero.mp h
    exact ⟨rfl, rfl, fun pass hp => by cases hp⟩
  | j + 1, h => by
    by_cases hj : j + 1 = vertex_dim
    · rw [reduceDim, reduceDimTrace, if_pos hj, if_pos hj, ← hj]
      exact ⟨rfl, by simp, fun pass hp => by cases hp⟩
    · have hle : vertex_dim ≤ j := by omega
      obtain ⟨h1, h2⟩ := reduceDimInner_interleaved j v m []
      rw [List.append_nil, List.append_nil] at h1
      rw [List.append_nil] at h2
      obtain ⟨ih1, ih2, ih3⟩ := reduceDim_interleaved vertex_dim m v j hle
      rw [reduceDim, reduceDimTrace, if_neg hj, if_neg hj, h1]
      refine ⟨ih1, ?_, ?_⟩
      · rw [List.length_cons, ih2]
        omega
      · intro pass hp
        rcases List.mem_cons.mp hp with e | e
        · rw [e]
          exact ⟨reduceDimInnerTrace_length j m _, h2⟩
        · exact ih3 pass e

/-- C26: in the non-pyramid case of `pointInElement`, for a vertex dimension `d` from 1 to 3
(and for 0) and `m` element vertices, the reduction loop turns the interleaved coordinates
`x, y, z` of the `m` vertices into an array of `m * d` entries that holds, for each vertex
in order, its first `d` coordinates; the outer loop makes `3 - d` passes of `m` erasures,
and every erase position is inside the array at the time of the erasure. -/
theorem reduceDim_first_coordinates {α : Type} (d m : Nat) (v : Nat → Nat → α) (hd : d ≤ 3) :
    reduceDim d m 3 ((List.range m).flatMap (fun k => [v k 0, v k 1, v k 2]))
      = interleaved d m v ∧
    (reduceDim d m 3 ((List.range m).flatMap (fun k => [v k 0, v k 1, v k 2]))).length
      = m * d ∧
    (∀ k c, k < m → c < d →
      (reduceDim d m 3 ((List.range m).flatMap (fun k => [v k 0, v k 1, v k 2])))[k * d + c]?
        = some (v k c)) ∧
    (reduceDimTrace d m 3 ((List.range m).flatMap (fun k => [v k 0, v k 1, v k 2]))).length
      = 3 - d ∧
    ∀ pass, pass ∈ reduceDimTrace d m 3
        ((List.range m).flatMap (fun k => [v k 0, v k 1, v k 2])) →
      pass.length = m ∧ ∀ e, e ∈ pass → e.1 < e.2 := by
  have hin : (List.range m).flatMap (fun k => [v k 0, v k 1, v k 2]) = interleaved 3 m v := rfl
  obtain ⟨h1, h2, h3⟩ := reduceDim_interleaved d m v 3 hd
  rw [hin, h1]
  exact ⟨rfl, interleaved_length d v m, fun k c hk hc => interleaved_getElem d v k c hc m hk,
    h2, h3⟩

/-- Witness for C26: two vertices reduced to dimension 1; the first pass erases the
positions 5 and 2 of arrays of 6 and 5 entries, the second the positions 3 and 1 of arrays
of 4 and 3 entries. -/
theorem reduceDim_first_coordinates_witness :
    reduceDim 1 2 3 [(10 : Int), 11, 12, 20, 21, 22] = [10, 20] ∧
    reduceDimTrace 1 2 3 [(10 : Int), 11, 12, 20, 21, 22]
      = [[(5, 6), (2, 5)], [(3, 4), (1, 3)]] ∧
    reduceDim 1 2 3 ((List.range 2).flatMap (fun k =>
        [((10 * (k + 1) + 0 : Nat) : Int), ((10 * (k + 1) + 1 : Nat) : Int),
          ((10 * (k + 1) + 2 : Nat) : Int)]))
      = interleaved 1 2 (fun k c => ((10 * (k + 1) + c : Nat) : Int)) :=
  ⟨by decide, by decide,
    (reduceDim_first_coordinates 1 2 (fun k c => ((10 * (k + 1) + c : Nat) : Int))
      (by decide)).1⟩

/-! ### The coordinate reduction of the MOAB version -/

/-- The first pass of the MOAB version (`i = 2`) removes the third coordinate of every
node. -/
theorem reduceNodeDimInner_two {α : Type} (v : Nat → Nat → α) :
    ∀ (n : Nat) (T : List α),
      reduceNodeDimInner 2 n (interleaved 3 n v ++ T) = some (interleaved 2 n v ++ T)
  | 0, T => rfl
  | n + 1, T => by
    have hsplit : interleaved 3 (n + 1) v ++ T
        = (interleaved 3 n v ++ (List.range 2).map (v n)) ++ v n 2 :: T := by
      rw [interleaved_succ, List.range_succ, List.map_append]
      simp
    have hlen : (interleaved 3 n v ++ (List.range 2).map (v n)).length = 3 * n + 2 := by
      rw [List.length_append, interleaved_length, List.length_map, List.length_range,
        Nat.mul_comm]
    have herase : eraseAt (interleaved 3 (n + 1) v ++ T) (3 * n + 2)
        = some (interleaved 3 n v ++ ((List.range 2).map (v n) ++ T)) := by
      rw [eraseAt, if_pos (by rw [hsplit, List.length_append, hlen, List.length_cons]; omega),
        hsplit, List.eraseIdx_append_of_length_le (by rw [hlen]), hlen, Nat.sub_self]
      simp
    rw [reduceNodeDimInner, herase]
    simp only
    rw [reduceNodeDimInner_two v n, interleaved_succ]
    simp

/-- C27, the MOAB version at one dimension: the reduction is right for `node_dim` 3 and 2,
but for `node_dim = 1` and an element of two or more nodes the second pass (`i = 1`) takes
its erase positions `3*n + 1` from the stride 3 of the full array although only two
coordinates per node are left: the first erasure of the pass is at position `3*m - 2` of an
array of `2*m` entries, outside the array.  For the two nodes `(10, 11, 12)` and
`(20, 21, 22)` it is position 4 of `[10, 11, 20, 21]`. -/
theorem reduceNodeDim_erases_outside {α : Type} (m : Nat) (v : Nat → Nat → α) :
    reduceNodeDim 3 m 3 (interleaved 3 m v) = some (interleaved 3 m v) ∧
    reduceNodeDim 2 m 3 (interleaved 3 m v) = some (interleaved 2 m v) ∧
    (2 ≤ m → reduceNodeDimInner 2 m (interleaved 3 m v) = some (interleaved 2 m v) ∧
      eraseAt (interleaved 2 m v) (3 * (m - 1) + 1) = none ∧
      reduceNodeDim 1 m 3 (interleaved 3 m v) = none) ∧
    reduceNodeDimInner 2 2 [(10 : Int), 11, 12, 20, 21, 22] = some [10, 11, 20, 21] ∧
    eraseAt [(10 : Int), 11, 20, 21] (3 * 1 + 1) = none ∧
    reduceNodeDim 1 2 3 [(10 : Int), 11, 12, 20, 21, 22] = none ∧
    reduceNodeDim 2 2 3 [(10 : Int), 11, 12, 20, 21, 22] = some [10, 11, 20, 21] ∧
    reduceDim 1 2 3 [(10 : Int), 11, 12, 20, 21, 22] = [10, 20] := by
  have h2 := reduceNodeDimInner_two v m []
  rw [List.append_nil, List.append_nil] at h2
  refine ⟨?_, ?_, ?_, by decide, by decide, by decide, by decide, by decide⟩
  · rw [reduceNodeDim, if_pos rfl]
  · rw [reduceNodeDim, if_neg (by decide), h2]
    simp only
    rw [reduceNodeDim, if_pos rfl]
  · intro hm
    have he : eraseAt (interleaved 2 m v) (3 * (m - 1) + 1) = none := by
      rw [eraseAt, if_neg]
      rw [interleaved_length]
      omega
    refine ⟨h2, he, ?_⟩
    rw [reduceNodeDim, if_neg (by decide), h2]
    simp only
    rw [reduceNodeDim, if_neg (by decide)]
    obtain ⟨k, rfl⟩ : ∃ k, m = k + 1 := ⟨m - 1, by omega⟩
    rw [Nat.add_sub_cancel] at he
    rw [reduceNodeDimInner, he]

/-! ### The copy loop of `interpolate` -/

/-- C28, the copy loop at two dimensions: on a rank with `n >= 1` source centres, whose
columns have `n + offset` entries (`offset = DIM + 1` on rank 0 and 0 elsewhere), and with
`source_data` of `n * num_source_dims` values, the loop copies the whole of `source_data`
into every column.  For `num_source_dims = 1` the copy fills the column behind the first
`offset` zeros; for `num_source_dims >= 2` it writes `n * (num_source_dims - 1)` values
past the end of the first column.  On the example interpolator (rank 0, `DIM = 1`, two
centres, columns of 4 entries) the 4 values of two dimensions are copied to the positions
2 to 5. -/
theorem rightHandSide_overflows {β : Type} [Zero β] (s : SplineInterpolator β)
    (source_data : List β) (n num_source_dims : Nat) :
    (s.domain_length = n + (if s.comm_rank = 0 then 1 + s.DIM else 0) →
      source_data.length = n * num_source_dims →
      (num_source_dims = 1 →
        rightHandSide s source_data num_source_dims
          = some [List.replicate (if s.comm_rank = 0 then 1 + s.DIM else 0) 0 ++ source_data]) ∧
      (2 ≤ num_source_dims → 0 < n → rightHandSide s source_data num_source_dims = none)) ∧
    exampleInterpolator.domain_length = 2 + (1 + exampleInterpolator.DIM) ∧
    rightHandSide exampleInterpolator [5, 6] 1 = some [[0, 0, 5, 6]] ∧
    copyInto [(0 : Int), 0, 0, 0] (1 + exampleInterpolator.DIM) [5, 6, 7, 8] = none ∧
    rightHandSide exampleInterpolator [5, 6, 7, 8] 2 = none ∧
    interpolate exampleInterpolator [5, 6, 7, 8] 2 2 [9, 9, 9, 9] 2 2
      = (.error .undefined, [9, 9, 9, 9]) := by
  refine ⟨?_, by decide, by decide, by decide, by decide, by rfl⟩
  intro hlen hdata
  constructor
  · intro h1
    subst h1
    rw [Nat.mul_one] at hdata
    rw [rightHandSide, hlen]
    simp only [List.replicate_succ, List.replicate_zero, copyColumns, copyInto,
      List.length_cons, List.length_replicate]
    rw [if_pos (by rw [hdata]; omega)]
    simp only [List.take_replicate, List.drop_replicate, hdata]
    congr 2
    rw [show n + (if s.comm_rank = 0 then 1 + s.DIM else 0)
        - ((if s.comm_rank = 0 then 1 + s.DIM else 0) + n) = 0 by omega]
    rw [show min (if s.comm_rank = 0 then 1 + s.DIM else 0)
        (n + (if s.comm_rank = 0 then 1 + s.DIM else 0))
        = (if s.comm_rank = 0 then 1 + s.DIM else 0) by omega]
    simp
  · intro h2 hn
    obtain ⟨k, rfl⟩ : ∃ k, num_source_dims = k + 1 := ⟨num_source_dims - 1, by omega⟩
    rw [rightHandSide, List.replicate_succ, copyColumns, copyInto, if_neg]
    rw [List.length_replicate, hlen, hdata]
    have : n * 2 ≤ n * (k + 1) := Nat.mul_le_mul_left n h2
    omega

/-! ### The missed points of `getTargetPointsInBox` -/

/-- The list of missed points after the loop of `getTargetPointsInBox`: the list before,
followed, when missed points are stored, by the indices whose entry is the invalid
ordinal. -/
theorem getTargetPointsInBoxLoop_snd {α : Type} [Inhabited α] [LinearOrder α] (ordMax : Nat)
    (store : Bool) (box : BoundingBox α) (view : List α) (field_dim dim_size : Nat)
    (ords : List Nat) :
    ∀ (count start : Nat) (missed : List Nat),
      (getTargetPointsInBoxLoop ordMax store box view field_dim dim_size ords count start
        missed).2
      = missed ++ (List.range' start count).filter (fun n =>
          store && (if box.pointInBox (pointAt view field_dim dim_size n) then ords.getD n 0
            else invalidOrdinal ordMax) == invalidOrdinal ordMax)
  | 0, _, missed => by simp [getTargetPointsInBoxLoop]
  | count + 1, start, missed => by
    rw [getTargetPointsInBoxLoop]
    simp only
    rw [getTargetPointsInBoxLoop_snd ordMax store box view field_dim dim_size ords count
      (start + 1), List.range'_succ, List.filter_cons]
    by_cases hc : (store && (if box.pointInBox (pointAt view field_dim dim_size start) then
        ords.getD start 0 else invalidOrdinal ordMax) == invalidOrdinal ordMax) = true
    · rw [if_pos hc, if_pos hc, List.append_assoc]
      rfl
    · rw [if_neg hc, if_neg hc]

/-- C30: when the ordinals fit the field and none of them is the invalid ordinal,
`getTargetPointsInBox` returns, with `store_missed_points = true`, the list of missed points
it was given, followed by the local indices `n` of the points outside the box in increasing
order, so the length grows by the number of these points; with
`store_missed_points = false` the list is returned as it was given. -/
theorem getTargetPointsInBox_missed {α : Type} [Inhabited α] [LinearOrder α] (ordMax : Nat)
    (store : Bool) (box : BoundingBox α) (target_coords : Field α)
    (target_ordinals missed : List Nat)
    (hsize : target_coords.dimSize = target_ordinals.length)
    (hord : ∀ n, n < target_coords.dimSize →
      target_ordinals.getD n 0 ≠ invalidOrdinal ordMax) :
    ∃ targets_in_box missed1,
      getTargetPointsInBox ordMax store box target_coords target_ordinals missed
        = .ok (targets_in_box, missed1) ∧
      (store = true →
        missed1 = missed ++ (List.range target_coords.dimSize).filter (fun n =>
          ! box.pointInBox
            (pointAt target_coords.values target_coords.dim target_coords.dimSize n)) ∧
        missed1.length = missed.length + ((List.range target_coords.dimSize).filter (fun n =>
          ! box.pointInBox
            (pointAt target_coords.values target_coords.dim target_coords.dimSize n))).length) ∧
      (store = false → missed1 = missed) := by
  refine ⟨(getTargetPointsInBoxLoop ordMax store box target_coords.values target_coords.dim
      target_coords.dimSize target_ordinals target_coords.dimSize 0 missed).1,
    (getTargetPointsInBoxLoop ordMax store box target_coords.values target_coords.dim
      target_coords.dimSize target_ordinals target_coords.dimSize 0 missed).2, ?_, ?_, ?_⟩
  · rw [getTargetPointsInBox, if_neg (by simpa using hsize)]
  · intro hs
    subst hs
    have e : (getTargetPointsInBoxLoop ordMax true box target_coords.values target_coords.dim
        target_coords.dimSize target_ordinals target_coords.dimSize 0 missed).2
        = missed ++ (List.range target_coords.dimSize).filter (fun n =>
          ! box.pointInBox
            (pointAt target_coords.values target_coords.dim target_coords.dimSize n)) := by
      rw [getTargetPointsInBoxLoop_snd, List.range_eq_range']
      congr 1
      apply List.filter_congr
      intro n hn
      have hn2 : n < target_coords.dimSize := by
        have := List.mem_range'_1.mp hn
        omega
      rw [Bool.true_and]
      by_cases hb : box.pointInBox
          (pointAt target_coords.values target_coords.dim target_coords.dimSize n) = true
      · rw [if_pos hb, hb]
        simpa using hord n hn2
      · rw [if_neg hb]
        simp [hb]
    refine ⟨e, ?_⟩
    rw [e, List.length_append]
  · intro hs
    subst hs
    rw [getTargetPointsInBoxLoop_snd]
    simp

/-- Witness for C30: three points in one dimension with the box `[0, 10]`; the points 0 and
2 lie outside, and the list held the index 7 before. -/
theorem getTargetPointsInBox_missed_witness :
    getTargetPointsInBox 99 true ⟨0, 0, 0, 10, 10, 10⟩ (⟨1, [20, 5, -3]⟩ : Field Int)
      [3, 4, 5] [7] = .ok ([99, 4, 99], [7, 0, 2]) ∧
    getTargetPointsInBox 99 false ⟨0, 0, 0, 10, 10, 10⟩ (⟨1, [20, 5, -3]⟩ : Field Int)
      [3, 4, 5] [7] = .ok ([99, 4, 99], [7]) ∧
    ∃ targets_in_box missed1,
      getTargetPointsInBox 99 true ⟨0, 0, 0, 10, 10, 10⟩ (⟨1, [20, 5, -3]⟩ : Field Int)
        [3, 4, 5] [7] = .ok (targets_in_box, missed1) ∧
      (true = true → missed1.length = [7].length
        + ((List.range 3).filter (fun n =>
          ! (⟨0, 0, 0, 10, 10, 10⟩ : BoundingBox Int).pointInBox
            (pointAt [20, 5, -3] 1 3 n))).length) :=
  ⟨by rfl, by rfl,
    (getTargetPointsInBox_missed 99 true ⟨0, 0, 0, 10, 10, 10⟩ (⟨1, [20, 5, -3]⟩ : Field Int)
      [3, 4, 5] [7] (by decide) (fun n hn => by
        have hn3 : n < 3 := hn
        interval_cases n <;> decide)).elim
      (fun tib h => h.elim (fun m1 h1 => ⟨tib, m1, h1.1, fun ht => (h1.2.1 ht).2⟩))⟩

/-! ### The global-to-local map of `computePointOrdinals` -/

/-- After `d_target_g2l[key] = value` the key is found with the value. -/
theorem g2lFind_insert_self (m : List (Nat × Nat)) (key value : Nat) :
    g2lFind (g2lInsert m key value) key = some value := by
  rw [g2lInsert, g2lFind]
  split
  · rename_i hany
    have h : ∀ l : List (Nat × Nat), l.any (fun kv => kv.1 == key) = true →
        (l.map (fun kv => if kv.1 == key then (key, value) else kv)).find?
          (fun kv => kv.1 == key) = some (key, value) := by
      intro l
      induction l with
      | nil => intro h; cases h
      | cons kv l ih =>
        intro h
        rw [List.map_cons]
        by_cases hk : (kv.1 == key) = true
        · rw [if_pos hk, List.find?_cons]
          simp
        · rw [if_neg hk, List.find?_cons]
          rw [List.any_cons] at h
          simp only [hk, Bool.false_or] at h
          simp only [hk]
          exact ih h
    rw [h m hany]
    rfl
  · rename_i hany
    rw [List.find?_append]
    have hnone : m.find? (fun kv => kv.1 == key) = none := by
      rw [List.find?_eq_none]
      intro x hx hxk
      exact hany (List.any_eq_true.mpr ⟨x, hx, hxk⟩)
    rw [hnone]
    simp

/-- The assignment `d_target_g2l[key] = value` changes no other key. -/
theorem g2lFind_insert_ne (m : List (Nat × Nat)) (key value other : Nat) (h : other ≠ key) :
    g2lFind (g2lInsert m key value) other = g2lFind m other := by
  rw [g2lInsert, g2lFind, g2lFind]
  have hko : (key == other) = false := by
    rw [beq_eq_false_iff_ne]
    exact fun e => h e.symm
  split
  · rename_i hany
    clear hany
    congr 1
    induction m with
    | nil => rfl
    | cons kv l ih =>
      rw [List.map_cons]
      by_cases hk : (kv.1 == key) = true
      · have hkv : (kv.1 == other) = false := by
          rw [beq_iff_eq] at hk
          rw [hk]
          exact hko
        rw [if_pos hk, List.find?_cons, List.find?_cons]
        simp only [hko, hkv]
        exact ih
      · rw [if_neg hk, List.find?_cons, List.find?_cons]
        split
        · rfl
        · exact ih
  · rw [List.find?_append]
    simp [hko]

/-- Two local indices of one rank have different ordinals when the local size does not
exceed the number of ordinals. -/
theorem pointOrdinal_local_ne (ordMax r M a b : Nat) (hab : a < b) (hb : b < ordMax + 1) :
    (r * M + a) % (ordMax + 1) ≠ (r * M + b) % (ordMax + 1) := by
  intro h
  have h1 : a ≡ b [MOD ordMax + 1] := Nat.ModEq.add_left_cancel' (r * M) h
  have h2 := Nat.ModEq.eq_of_lt_of_lt h1 (lt_trans hab hb) hb
  omega

/-- The loop of `computePointOrdinals` leaves the entry of a key that is no ordinal of the
loop as it was. -/
theorem computePointOrdinalsLoop_find_other (ordMax r M : Nat) (store : Bool) (key : Nat) :
    ∀ (count start : Nat) (g2l : List (Nat × Nat)),
      (∀ n, start ≤ n → n < start + count → (r * M + n) % (ordMax + 1) ≠ key) →
      g2lFind (computePointOrdinalsLoop ordMax r M store count start g2l).2 key
        = g2lFind g2l key
  | 0, _, _, _ => rfl
  | count + 1, start, g2l, h => by
    rw [computePointOrdinalsLoop]
    show g2lFind (computePointOrdinalsLoop ordMax r M store count (start + 1) _).2 key = _
    rw [computePointOrdinalsLoop_find_other ordMax r M store key count (start + 1) _
      (fun n h1 h2 => h n (by omega) (by omega))]
    split
    · exact g2lFind_insert_ne _ _ _ _ (fun e => h start (le_refl _) (by omega) e.symm)
    · rfl

/-- With `store_missed_points = true` the loop of `computePointOrdinals` maps the ordinal
of every index of the loop to that index, when the ordinals of the loop are distinct. -/
theorem computePointOrdinalsLoop_find (ordMax r M : Nat) :
    ∀ (count start : Nat) (g2l : List (Nat × Nat)) (n : Nat), start ≤ n → n < start + count →
      start + count ≤ ordMax + 1 →
      g2lFind (computePointOrdinalsLoop ordMax r M true count start g2l).2
        ((r * M + n) % (ordMax + 1)) = some n
  | 0, _, _, _, h1, h2, _ => by omega
  | count + 1, start, g2l, n, h1, h2, hfit => by
    rw [computePointOrdinalsLoop]
    show g2lFind (computePointOrdinalsLoop ordMax r M true count (start + 1) _).2 _ = _
    by_cases hn : n = start
    · subst hn
      rw [computePointOrdinalsLoop_find_other ordMax r M true _ count (n + 1) _
        (fun m hm1 hm2 e => pointOrdinal_local_ne ordMax r M n m (by omega) (by omega) e.symm)]
      exact g2lFind_insert_self _ _ _
    · exact computePointOrdinalsLoop_find ordMax r M count (start + 1) _ n (by omega)
        (by omega) (by omega)

/-- An offset view that starts at 0, grows by at most 1 from one entry to the next and ends
at `n` is `0, 1, ..., n`. -/
theorem offset_eq_index (f : Nat → Int) (n : Nat) (h0 : f 0 = 0)
    (hstep : ∀ i, i < n → f i ≤ f (i + 1) ∧ f (i + 1) ≤ f i + 1) (hn : f n = n) :
    ∀ i, i ≤ n → f i = i := by
  have hup : ∀ i, i ≤ n → f i ≤ i := by
    intro i
    induction i with
    | zero => intro _; simp [h0]
    | succ k ih =>
      intro hk
      have h1 := hstep k (by omega)
      have h2 := ih (by omega)
      push_cast
      omega
  have hdown : ∀ k, k ≤ n → f n ≤ f (n - k) + k := by
    intro k
    induction k with
    | zero => intro _; simp
    | succ k ih =>
      intro hk
      have h1 := hstep (n - (k + 1)) (by omega)
      have h2 := ih (by omega)
      have e : n - (k + 1) + 1 = n - k := by omega
      rw [e] at h1
      push_cast
      omega
  intro i hi
  have h1 := hup i hi
  have h2 := hdown (n - i) (by omega)
  have e : n - (n - i) = i := by omega
  rw [e, hn] at h2
  omega

theorem lastElement_of_length (v : List Int) (n : Nat) (h : v.length = n + 1) :
    lastElement v = .ok (v.getD n 0) := by
  rw [lastElement, List.getLast?_eq_getElem?, h, Nat.add_sub_cancel, List.getD_eq_getElem?_getD,
    List.getElem?_eq_getElem (by omega)]
  rfl

/-- C23: when the query of the search tree keeps its contract for one-neighbour queries,
the constructor of `NearestNeighborOperator` fails its check when the tree is empty, fails
its postcondition when the last offset is not the number of target points, and succeeds
otherwise; an operator it returns holds the indices and ranks of the query, the offsets
are `0, 1, ..., n`, so the operator stores exactly one (index, rank) pair per target point.
`apply` fails its precondition exactly when `target_values` does not have one entry per
stored index, and with such a `target_values` the constructed operator fills it with the
fetched values. -/
theorem NearestNeighborOperator_one_pair_per_target {Point β : Type} [Inhabited β]
    (search_tree : DistributedSearchTree Point) (target_points : List Point)
    (hquery : nearestQueryContract (search_tree.query target_points) target_points.length) :
    (search_tree.empty = true →
      NearestNeighborOperator.construct search_tree target_points
        = .error .invariant) ∧
    (search_tree.empty = false →
      lastElement (search_tree.query target_points).offset ≠ .ok (target_points.length : Int) →
      NearestNeighborOperator.construct search_tree target_points
        = .error .postcondition) ∧
    (search_tree.empty = false →
      lastElement (search_tree.query target_points).offset = .ok (target_points.length : Int) →
      NearestNeighborOperator.construct search_tree target_points
        = .ok { _indices := (search_tree.query target_points).indices
                _ranks := (search_tree.query target_points).ranks }) ∧
    (∀ op, NearestNeighborOperator.construct search_tree target_points = .ok op →
      search_tree.empty = false ∧
      (search_tree.query target_points).offset
        = (List.range (target_points.length + 1)).map Int.ofNat ∧
      op._indices = (search_tree.query target_points).indices ∧
      op._ranks = (search_tree.query target_points).ranks ∧
      op._indices.length = target_points.length ∧
      op._ranks.length = target_points.length ∧
      ∀ (source_values : List (List β)) (target_values : List β),
        target_values.length = target_points.length →
        op.apply source_values target_values
          = .ok (fetch op._ranks op._indices source_values)) ∧
    (∀ (op : NearestNeighborOperator) (source_values : List (List β)) (target_values : List β),
      op.apply source_values target_values = .error .precondition
        ↔ target_values.length ≠ op._indices.length) := by
  obtain ⟨hlen, h0, hstep, hind, hrank⟩ := hquery
  have hlast := lastElement_of_length _ _ hlen
  refine ⟨?_, ?_, ?_, ?_, ?_⟩
  · intro he
    rw [NearestNeighborOperator.construct, if_pos he]
  · intro he hl
    rw [NearestNeighborOperator.construct, if_neg (by simp [he])]
    simp only [hlast]
    rw [if_pos]
    intro e
    apply hl
    rw [hlast, e]
  · intro he hl
    rw [NearestNeighborOperator.construct, if_neg (by simp [he])]
    simp only [hl]
    rw [if_neg (by simp)]
  · intro op hop
    rw [NearestNeighborOperator.construct] at hop
    by_cases he : search_tree.empty = true
    · rw [if_pos he] at hop
      cases hop
    rw [if_neg he] at hop
    simp only [hlast] at hop
    by_cases hl : (search_tree.query target_points).offset.getD target_points.length 0
        = (target_points.length : Int)
    · rw [if_neg (by simpa using hl)] at hop
      injection hop with hop
      subst hop
      have hoff := offset_eq_index
        (fun i => (search_tree.query target_points).offset.getD i 0) target_points.length
        h0 hstep hl
      have hil : (search_tree.query target_points).indices.length = target_points.length := by
        rw [hl] at hind
        exact_mod_cast hind
      have hrl : (search_tree.query target_points).ranks.length = target_points.length := by
        rw [hl] at hrank
        exact_mod_cast hrank
      refine ⟨by simpa using he, ?_, rfl, rfl, hil, hrl, ?_⟩
      · apply List.ext_getElem
        · rw [hlen, List.length_map, List.length_range]
        · intro i h1 h2
          have : (search_tree.query target_points).offset.getD i 0 = (i : Int) :=
            hoff i (by rw [hlen] at h1; omega)
          rw [List.getD_eq_getElem _ _ h1] at this
          rw [this, List.getElem_map, List.getElem_range]
          rfl
      · intro source_values target_values ht
        rw [NearestNeighborOperator.apply, if_neg (by simp [hil, ht])]
        show deep_copy target_values _ = _
        rw [deep_copy, if_pos]
        simp [fetch, hil, hrl, ht]
    · rw [if_pos hl] at hop
      cases hop
  · intro op source_values target_values
    rw [NearestNeighborOperator.apply]
    by_cases h : op._indices.length = target_values.length
    · rw [if_neg (by simpa using h)]
      show deep_copy target_values _ = _ ↔ _
      rw [deep_copy]
      constructor
      · intro e
        split at e <;> cases e
      · intro e
        exact absurd h.symm e
    · rw [if_pos h]
      constructor
      · intro _ e
        exact h e.symm
      · intro _
        rfl

/-- Witness for C23: three target points on the example tree; the operator stores the three
pairs (1, 0), (0, 1), (1, 1), a target view with two entries is refused and one with three
entries is filled. -/
theorem NearestNeighborOperator_one_pair_per_target_witness :
    nearestQueryContract (exampleSearchTree.query [1, 2, 3]) [1, 2, 3].length ∧
    NearestNeighborOperator.construct exampleSearchTree [1, 2, 3]
      = .ok { _indices := [1, 0, 1], _ranks := [0, 1, 1] } ∧
    (NearestNeighborOperator.apply { _indices := [1, 0, 1], _ranks := [0, 1, 1] }
      [[10, 11], [20, 21]] [(0 : Int), 0] = .error .precondition) ∧
    NearestNeighborOperator.apply { _indices := [1, 0, 1], _ranks := [0, 1, 1] }
      [[10, 11], [20, 21]] [(0 : Int), 0, 0] = .ok [11, 20, 21] :=
  ⟨by decide,
    (@NearestNeighborOperator_one_pair_per_target Nat Int _ exampleSearchTree [1, 2, 3]
      (by decide)).2.2.1 rfl rfl,
    ((@NearestNeighborOperator_one_pair_per_target Nat Int _ exampleSearchTree [1, 2, 3]
      (by decide)).2.2.2.2
      { _indices := [1, 0, 1], _ranks := [0, 1, 1] } [[10, 11], [20, 21]] [(0 : Int), 0]).mpr
      (by decide),
    by rfl⟩

/-! ### The abstract iterator -/

/-- The elements skipped before the first one that satisfies the predicate hold no element
that satisfies it, and the element after them satisfies it. -/
theorem takeWhile_not_spec {T : Type} (p : T → Bool) (l : List T) :
    (l.takeWhile (fun x => !p x)).length ≤ l.length ∧
    (l.drop (l.takeWhile (fun x => !p x)).length).filter p = l.filter p ∧
    ∀ h : (l.takeWhile (fun x => !p x)).length < l.length,
      p l[(l.takeWhile (fun x => !p x)).length] = true := by
  induction l with
  | nil => simp
  | cons x t ih =>
    by_cases hx : p x = true
    · simp [List.takeWhile_cons, hx]
    · have hx2 : p x = false := by simpa using hx
      obtain ⟨h1, h2, h3⟩ := ih
      refine ⟨?_, ?_, ?_⟩
      · simp only [List.takeWhile_cons, hx2, Bool.not_false, if_true, List.length_cons]
        omega
      · simp only [List.takeWhile_cons, hx2, Bool.not_false, if_true, List.length_cons,
          List.drop_succ_cons]
        rw [h2, List.filter_cons_of_neg hx]
      · simp only [List.takeWhile_cons, hx2, Bool.not_false, if_true, List.length_cons]
        intro h
        exact h3 (by omega)

theorem advanceLoop_eq {T : Type} (p q : T → Bool) (vs : List T) :
    ∀ (fuel k : Nat), vs.length - k ≤ fuel →
      advanceLoop p fuel { d_values := vs, d_vec_it := k, b_predicate := q }
        = { d_values := vs
            d_vec_it := k + ((vs.drop k).takeWhile (fun x => !p x)).length
            b_predicate := q }
  | 0, k, h => by
    rw [List.drop_eq_nil_of_le (by omega)]
    rfl
  | fuel + 1, k, h => by
    rw [advanceLoop]
    by_cases hk : k < vs.length
    · have he : VectorIterator.equal { d_values := vs, d_vec_it := k, b_predicate := q }
          (VectorIterator.end_ { d_values := vs, d_vec_it := k, b_predicate := q }) = false := by
        simp only [VectorIterator.equal, VectorIterator.end_, beq_eq_false_iff_ne]
        omega
      have hd : VectorIterator.dereference { d_values := vs, d_vec_it := k, b_predicate := q }
          = some (vs[k]) := by
        simp only [VectorIterator.dereference]
        exact List.getElem?_eq_getElem hk
      rw [he, hd]
      simp only [Bool.false_eq_true, if_false]
      have hdrop : vs.drop k = vs[k] :: vs.drop (k + 1) := List.drop_eq_getElem_cons hk
      by_cases hp : p (vs[k]) = true
      · rw [if_pos hp, hdrop, List.takeWhile_cons]
        simp [hp]
      · rw [if_neg hp]
        have hp2 : p (vs[k]) = false := by simpa using hp
        show advanceLoop p fuel { d_values := vs, d_vec_it := k + 1, b_predicate := q } = _
        rw [advanceLoop_eq p q vs fuel (k + 1) (by omega), hdrop, List.takeWhile_cons]
        simp only [hp2, Bool.not_false, if_true, List.length_cons]
        congr 1
        omega
    · rw [List.drop_eq_nil_of_le (by omega)]
      have hd : VectorIterator.dereference { d_values := vs, d_vec_it := k, b_predicate := q }
          = none := by
        simp only [VectorIterator.dereference]
        exact List.getElem?_eq_none (by omega)
      rw [hd]
      simp

theorem increment_eq {T : Type} (p q : T → Bool) (vs : List T) (k : Nat) :
    AbstractIterator.increment
        { b_iterator_impl := { d_values := vs, d_vec_it := k, b_predicate := q }
          b_predicate := p }
      = { b_iterator_impl :=
            { d_values := vs
              d_vec_it := k + 1 + ((vs.drop (k + 1)).takeWhile (fun x => !p x)).length
              b_predicate := q }
          b_predicate := p } := by
  rw [AbstractIterator.increment]
  show AbstractIterator.mk
    (advanceLoop p vs.length { d_values := vs, d_vec_it := k + 1, b_predicate := q }) p = _
  rw [advanceLoop_eq p q vs vs.length (k + 1) (by omega)]

theorem begin_eq {T : Type} (it : AbstractIterator T) :
    it.begin
      = { b_iterator_impl :=
            { d_values := it.b_iterator_impl.d_values
              d_vec_it := (it.b_iterator_impl.d_values.takeWhile
                (fun x => !it.b_predicate x)).length
              b_predicate := it.b_iterator_impl.b_predicate }
          b_predicate := it.b_predicate } := by
  obtain ⟨⟨vs, k, q⟩, p⟩ := it
  show AbstractIterator.advanceToFirstValidElement
    { b_iterator_impl := { d_values := vs, d_vec_it := 0, b_predicate := q }
      b_predicate := p } = _
  cases vs with
  | nil => rfl
  | cons x t =>
    by_cases hp : p x = true
    · have e : AbstractIterator.advanceToFirstValidElement
          { b_iterator_impl := { d_values := x :: t, d_vec_it := 0, b_predicate := q }
            b_predicate := p }
          = { b_iterator_impl := { d_values := x :: t, d_vec_it := 0, b_predicate := q }
              b_predicate := p } := by
        simp [AbstractIterator.advanceToFirstValidElement, VectorIterator.equal,
          VectorIterator.end_, VectorIterator.dereference, hp]
      rw [e]
      simp [List.takeWhile_cons, hp]
    · have e : AbstractIterator.advanceToFirstValidElement
          { b_iterator_impl := { d_values := x :: t, d_vec_it := 0, b_predicate := q }
            b_predicate := p }
          = AbstractIterator.increment
            { b_iterator_impl := { d_values := x :: t, d_vec_it := 0, b_predicate := q }
              b_predicate := p } := by
        simp [AbstractIterator.advanceToFirstValidElement, VectorIterator.equal,
          VectorIterator.end_, VectorIterator.dereference, hp]
      rw [e, increment_eq]
      have hp2 : p x = false := by simpa using hp
      simp only [List.takeWhile_cons, hp2, Bool.not_false, if_true, List.length_cons,
        List.drop_succ_cons, List.drop_zero]
      congr 2
      omega

/-- One step of an iterator that is not at its end: the element it stands on, the position
after the increment and what is left to visit. -/
theorem increment_spec {T : Type} (p : T → Bool) (vs : List T) (k : Nat) (hk : k < vs.length)
    (hfirst : p vs[k] = true) :
    k + 1 + ((vs.drop (k + 1)).takeWhile (fun x => !p x)).length ≤ vs.length ∧
    (∀ h : k + 1 + ((vs.drop (k + 1)).takeWhile (fun x => !p x)).length < vs.length,
      p vs[k + 1 + ((vs.drop (k + 1)).takeWhile (fun x => !p x)).length] = true) ∧
    (vs.drop k).filter p
      = vs[k] :: (vs.drop (k + 1 + ((vs.drop (k + 1)).takeWhile (fun x => !p x)).length)).filter p
    := by
  obtain ⟨h1, h2, h3⟩ := takeWhile_not_spec p (vs.drop (k + 1))
  rw [List.length_drop] at h1
  refine ⟨by omega, ?_, ?_⟩
  · intro h
    have := h3 (by rw [List.length_drop]; omega)
    rw [List.getElem_drop] at this
    exact this
  · rw [List.drop_eq_getElem_cons hk, List.filter_cons_of_pos hfirst, ← h2, List.drop_drop]

theorem traversal_eq {T : Type} (p q q1 : T → Bool) (vs : List T) :
    ∀ (fuel k : Nat), vs.length - k ≤ fuel → k ≤ vs.length →
      (∀ h : k < vs.length, p vs[k] = true) →
      traversal fuel
          { b_iterator_impl := { d_values := vs, d_vec_it := k, b_predicate := q }
            b_predicate := p }
          { b_iterator_impl := { d_values := vs, d_vec_it := vs.length, b_predicate := q1 }
            b_predicate := p }
        = .ok ((vs.drop k).filter p)
  | 0, k, h1, h2, _ => by
    have e : k = vs.length := by omega
    subst e
    simp [traversal, AbstractIterator.equal, VectorIterator.equal]
  | fuel + 1, k, h1, h2, h3 => by
    rw [traversal]
    by_cases hk : k = vs.length
    · subst hk
      simp [AbstractIterator.equal, VectorIterator.equal]
    · have hlt : k < vs.length := by omega
      obtain ⟨s1, s2, s3⟩ := increment_spec p vs k hlt (h3 hlt)
      have he : AbstractIterator.equal
          { b_iterator_impl := { d_values := vs, d_vec_it := k, b_predicate := q }
            b_predicate := p }
          { b_iterator_impl := { d_values := vs, d_vec_it := vs.length, b_predicate := q1 }
            b_predicate := p } = false := by
        simp only [AbstractIterator.equal, VectorIterator.equal, beq_eq_false_iff_ne]
        omega
      have hd : AbstractIterator.dereference
          { b_iterator_impl := { d_values := vs, d_vec_it := k, b_predicate := q }
            b_predicate := p } = some vs[k] := by
        simp only [AbstractIterator.dereference, VectorIterator.dereference]
        exact List.getElem?_eq_getElem hlt
      have hi : AbstractIterator.preIncrement
          { b_iterator_impl := { d_values := vs, d_vec_it := k, b_predicate := q }
            b_predicate := p }
          = .ok { b_iterator_impl :=
                    { d_values := vs
                      d_vec_it := k + 1 + ((vs.drop (k + 1)).takeWhile (fun x => !p x)).length
                      b_predicate := q }
                  b_predicate := p } := by
        rw [AbstractIterator.preIncrement, if_neg, increment_eq]
        simp only [VectorIterator.equal, VectorIterator.end_, beq_iff_eq]
        omega
      rw [he, hd, hi]
      simp only [Bool.false_eq_true, if_false]
      rw [traversal_eq p q q1 vs fuel _ (by omega) s1 s2, s3]

theorem distance_eq {T : Type} (p q q1 : T → Bool) (vs : List T) :
    ∀ (fuel k : Nat), vs.length - k ≤ fuel → k ≤ vs.length →
      (∀ h : k < vs.length, p vs[k] = true) →
      distance fuel
          { b_iterator_impl := { d_values := vs, d_vec_it := k, b_predicate := q }
            b_predicate := p }
          { b_iterator_impl := { d_values := vs, d_vec_it := vs.length, b_predicate := q1 }
            b_predicate := p }
        = .ok ((vs.drop k).filter p).length
  | 0, k, h1, h2, _ => by
    have e : k = vs.length := by omega
    subst e
    simp [distance, AbstractIterator.equal, VectorIterator.equal]
  | fuel + 1, k, h1, h2, h3 => by
    rw [distance]
    by_cases hk : k = vs.length
    · subst hk
      simp [AbstractIterator.equal, VectorIterator.equal]
    · have hlt : k < vs.length := by omega
      obtain ⟨s1, s2, s3⟩ := increment_spec p vs k hlt (h3 hlt)
      have he : AbstractIterator.equal
          { b_iterator_impl := { d_values := vs, d_vec_it := k, b_predicate := q }
            b_predicate := p }
          { b_iterator_impl := { d_values := vs, d_vec_it := vs.length, b_predicate := q1 }
            b_predicate := p } = false := by
        simp only [AbstractIterator.equal, VectorIterator.equal, beq_eq_false_iff_ne]
        omega
      have hi : AbstractIterator.preIncrement
          { b_iterator_impl := { d_values := vs, d_vec_it := k, b_predicate := q }
            b_predicate := p }
          = .ok { b_iterator_impl :=
                    { d_values := vs
                      d_vec_it := k + 1 + ((vs.drop (k + 1)).takeWhile (fun x => !p x)).length
                      b_predicate := q }
                  b_predicate := p } := by
        rw [AbstractIterator.preIncrement, if_neg, increment_eq]
        simp only [VectorIterator.equal, VectorIterator.end_, beq_iff_eq]
        omega
      rw [he, hi]
      simp only [Bool.false_eq_true, if_false]
      rw [distance_eq p q q1 vs fuel _ (by omega) s1 s2, s3]
      rfl

/-- The size of an abstract iterator is the number of elements of its vector that satisfy
its predicate. -/
theorem size_eq {T : Type} (it : AbstractIterator T) :
    it.size = .ok (it.b_iterator_impl.d_values.filter it.b_predicate).length := by
  obtain ⟨h1, h2, h3⟩ := takeWhile_not_spec it.b_predicate it.b_iterator_impl.d_values
  rw [AbstractIterator.size, begin_eq]
  show distance _ _ { b_iterator_impl := { d_values := it.b_iterator_impl.d_values
                                           d_vec_it := it.b_iterator_impl.d_values.length
                                           b_predicate := it.b_iterator_impl.b_predicate }
                      b_predicate := it.b_predicate } = _
  rw [distance_eq it.b_predicate _ _ it.b_iterator_impl.d_values _ _ (by omega) h1 h3, h2]

/-- The loop from `begin()` to `end()` sees the elements of the vector that satisfy the
predicate, in the order of the vector, whenever the fuel is at least the length of the
vector. -/
theorem traversal_begin_end {T : Type} (it : AbstractIterator T) (extra : Nat) :
    traversal (it.b_iterator_impl.d_values.length + extra) it.begin it.end_
      = .ok (it.b_iterator_impl.d_values.filter it.b_predicate) := by
  obtain ⟨h1, h2, h3⟩ := takeWhile_not_spec it.b_predicate it.b_iterator_impl.d_values
  rw [begin_eq]
  show traversal _ _ { b_iterator_impl := { d_values := it.b_iterator_impl.d_values
                                            d_vec_it := it.b_iterator_impl.d_values.length
                                            b_predicate := it.b_iterator_impl.b_predicate }
                       b_predicate := it.b_predicate } = _
  rw [traversal_eq it.b_predicate _ _ it.b_iterator_impl.d_values _ _ (by omega) h1 h3, h2]

/-- C21: for every vector and every predicate `p`, the abstract iterator over the vector
with `p` has as size the number of elements that satisfy `p`, and the loop from `begin()`
to `end()` sees exactly the elements that satisfy `p`, in the order of the vector (each of
them satisfies `p`); without predicate the size is the length of the vector and the loop
sees every element in order.  On the vector 0, ..., 9 of the test the even, odd and
last-digit-two iterators have the sizes 5, 5 and 1 that the test expects. -/
theorem AbstractIterator_size_traversal {T : Type} (data : List T) (p : T → Bool)
    (extra : Nat) :
    (predicateIterator data p).size = .ok (data.filter p).length ∧
    traversal (data.length + extra) (predicateIterator data p).begin
      (predicateIterator data p).end_ = .ok (data.filter p) ∧
    (data.filter p).all p = true ∧
    (vectorIterator data).size = .ok data.length ∧
    traversal (data.length + extra) (vectorIterator data).begin (vectorIterator data).end_
      = .ok data ∧
    (predicateIterator testData even_func).size = .ok 5 ∧
    (predicateIterator testData odd_func).size = .ok 5 ∧
    (predicateIterator testData two_func).size = .ok 1 ∧
    traversal 10 (predicateIterator testData even_func).begin
      (predicateIterator testData even_func).end_ = .ok [0, 2, 4, 6, 8] := by
  have hall : data.filter selectAll = data := by
    rw [List.filter_eq_self]
    intro a _
    rfl
  refine ⟨size_eq _, traversal_begin_end (predicateIterator data p) extra, ?_, ?_, ?_,
    by rfl, by rfl, by rfl, by rfl⟩
  · rw [List.all_eq_true]
    intro x hx
    exact (List.mem_filter.mp hx).2
  · have := size_eq (vectorIterator data)
    rw [this]
    show Except.ok (data.filter selectAll).length = _
    rw [hall]
  · have := traversal_begin_end (vectorIterator data) extra
    rw [show data.length = (vectorIterator data).b_iterator_impl.d_values.length from rfl, this]
    show Except.ok (data.filter selectAll) = _
    rw [hall]

/-- C22: for two iterators over the same vector with predicates `p` and `q`, the size of
`setOperation` is the number of elements that satisfy `p` and `q` for the intersection,
`p` or `q` for the union, and `p` and not `q` for the subtraction; intersection and union
have the same size with the arguments swapped, an iterator intersected or united with
itself keeps its size and an iterator subtracted from itself is empty.  On the vector
0, ..., 9 the sizes are the ones the tests expect. -/
theorem setOperation_size {T : Type} (data : List T) (p q : T → Bool) :
    ((predicateIterator data p).setOperation (predicateIterator data q)
      .IteratorIntersectionTag).size
      = .ok (data.filter (fun value => p value && q value)).length ∧
    ((predicateIterator data p).setOperation (predicateIterator data q)
      .IteratorUnionTag).size
      = .ok (data.filter (fun value => p value || q value)).length ∧
    ((predicateIterator data p).setOperation (predicateIterator data q)
      .IteratorSubtractionTag).size
      = .ok (data.filter (fun value => p value && !q value)).length ∧
    ((predicateIterator data p).setOperation (predicateIterator data q)
      .IteratorIntersectionTag).size
      = ((predicateIterator data q).setOperation (predicateIterator data p)
        .IteratorIntersectionTag).size ∧
    ((predicateIterator data p).setOperation (predicateIterator data q)
      .IteratorUnionTag).size
      = ((predicateIterator data q).setOperation (predicateIterator data p)
        .IteratorUnionTag).size ∧
    ((predicateIterator data p).setOperation (predicateIterator data p)
      .IteratorIntersectionTag).size = (predicateIterator data p).size ∧
    ((predicateIterator data p).setOperation (predicateIterator data p)
      .IteratorUnionTag).size = (predicateIterator data p).size ∧
    ((predicateIterator data p).setOperation (predicateIterator data p)
      .IteratorSubtractionTag).size = .ok 0 ∧
    [(even_func, odd_func), (odd_func, even_func), (even_func, two_func),
      (two_func, even_func), (two_func, odd_func), (odd_func, two_func),
      (odd_func, odd_func)].map (fun pq =>
        ((predicateIterator testData pq.1).setOperation (predicateIterator testData pq.2)
          .IteratorIntersectionTag).size)
      = [.ok 0, .ok 0, .ok 1, .ok 1, .ok 0, .ok 0, .ok 5] ∧
    [(even_func, odd_func), (odd_func, even_func), (even_func, two_func),
      (two_func, even_func), (odd_func, odd_func), (two_func, odd_func),
      (odd_func, two_func)].map (fun pq =>
        ((predicateIterator testData pq.1).setOperation (predicateIterator testData pq.2)
          .IteratorUnionTag).size)
      = [.ok 10, .ok 10, .ok 5, .ok 5, .ok 5, .ok 6, .ok 6] ∧
    [(even_func, odd_func), (odd_func, even_func), (even_func, two_func),
      (two_func, even_func), (odd_func, odd_func), (odd_func, two_func),
      (two_func, odd_func)].map (fun pq =>
        ((predicateIterator testData pq.1).setOperation (predicateIterator testData pq.2)
          .IteratorSubtractionTag).size)
      = [.ok 5, .ok 5, .ok 4, .ok 0, .ok 0, .ok 5, .ok 1] := by
  refine ⟨size_eq _, size_eq _, size_eq _, ?_, ?_, ?_, ?_, ?_, by rfl, by rfl, by rfl⟩
  · rw [size_eq, size_eq]
    show Except.ok (data.filter (fun value => p value && q value)).length
      = Except.ok (data.filter (fun value => q value && p value)).length
    simp only [Bool.and_comm]
  · rw [size_eq, size_eq]
    show Except.ok (data.filter (fun value => p value || q value)).length
      = Except.ok (data.filter (fun value => q value || p value)).length
    simp only [Bool.or_comm]
  · rw [size_eq, size_eq]
    show Except.ok (data.filter (fun value => p value && p value)).length
      = Except.ok (data.filter p).length
    simp only [Bool.and_self]
  · rw [size_eq, size_eq]
    show Except.ok (data.filter (fun value => p value || p value)).length
      = Except.ok (data.filter p).length
    simp only [Bool.or_self]
  · rw [size_eq]
    show Except.ok (data.filter (fun value => p value && !p value)).length = Except.ok 0
    simp

/-! ### The missed points found in no element -/

/-- The entries of an array at the positions that `indicesOf` finds in a second array over
the same points. -/
theorem indicesOf_map_getD {κ β : Type} (v : Nat) (el : κ → Nat) (f : κ → β) (d : β) :
    ∀ (l pre : List κ),
      (indicesOf v (l.map el) pre.length).map (fun j => ((pre ++ l).map f).getD j d)
        = (l.filter (fun x => el x == v)).map f
  | [], _ => rfl
  | a :: l, pre => by
    have ih := indicesOf_map_getD v el f d l (pre ++ [a])
    rw [List.length_append, List.length_singleton, List.append_assoc, List.singleton_append]
      at ih
    rw [List.map_cons, indicesOf]
    have hget : ((pre ++ a :: l).map f).getD pre.length d = f a := by
      rw [List.getD_eq_getElem?_getD, List.getElem?_map,
        List.getElem?_append_right (le_refl _), Nat.sub_self]
      simp
    by_cases h : (el a == v) = true
    · rw [if_pos h, List.map_cons, ih, hget]
      simp only [List.filter_cons, h, if_true, List.map_cons]
    · rw [if_neg h, ih]
      simp [List.filter_cons, h]

/-- The ranks that send to a rank, each repeated as often as it sends, are the senders of
the received items in the order of arrival. -/
theorem replicate_images {κ : Type} (g : Nat → List κ) :
    ∀ (l : List Nat),
      ((l.map (fun r => (r, (g r).length))).filter (fun x => x.2 != 0)).flatMap
          (fun il => List.replicate il.2 (il.1 : Int))
        = (l.flatMap (fun r => (g r).map (fun k => (r, k)))).map (fun x => (x.1 : Int))
  | [] => rfl
  | r :: l => by
    rw [List.map_cons, List.flatMap_cons, List.map_append, ← replicate_images g l]
    have e : ((g r).map (fun k => (r, k))).map (fun x => ((x.1 : Nat) : Int))
        = List.replicate (g r).length (r : Int) := by
      rw [List.map_map]
      exact List.map_const' (g r) (r : Int)
    rw [e]
    by_cases h : (g r).length = 0
    · rw [List.filter_cons_of_neg (by simp [h]), h]
      rfl
    · rw [List.filter_cons_of_pos (by simpa using h), List.flatMap_cons]

theorem imagesAndLengthsFrom_tagged {κ : Type} (P q : Nat) (K : Nat → List κ)
    (pr : Nat → κ → Int) :
    (imagesAndLengthsFrom ((List.range P).map (fun r => (K r).map (pr r))) q).flatMap
        (fun il => List.replicate il.2 (il.1 : Int))
      = ((List.range P).flatMap (fun r =>
          ((K r).filter (fun k => pr r k == (q : Int))).map (fun k => (r, k)))).map
          (fun x => (x.1 : Int)) := by
  rw [← replicate_images (fun r => (K r).filter (fun k => pr r k == (q : Int))),
    imagesAndLengthsFrom, List.length_map, List.length_range]
  congr 2
  apply List.map_congr_left
  intro r hr
  rw [List.getD_eq_getElem?_getD, List.getElem?_map, List.getElem?_range (List.mem_range.mp hr),
    Option.map_some', Option.getD_some, recvFrom_map, List.length_map]

/-- With `store_missed_points = true` the search returns the ordinals and the target ranks
of the points found in no element. -/
theorem rendezvousSearch_missed {α : Type} [Inhabited α] (ordMax dim : Nat)
    (rv : Rendezvous α) (tol : α) (q : Nat) (il : List (Nat × Nat)) (num : Nat)
    (rp : List Nat) (coords : List α) (S : RendezvousSearch)
    (h : rendezvousSearch ordMax dim true rv tol q il num rp coords = .ok S) :
    S.missed_in_mesh_ordinal = S.not_in_mesh.map (fun i => rp.getD i 0) ∧
    S.missed_target_procs = S.not_in_mesh.map (fun i =>
      (il.flatMap (fun x => List.replicate x.2 (x.1 : Int))).getD i 0) := by
  rw [rendezvousSearch] at h
  simp only [if_true] at h
  split at h
  · cases h
  · have h1 := Except.ok.inj h
    subst h1
    exact ⟨rfl, rfl⟩


theorem setupDistribute_plan {α : Type} (dim : Nat) (tsides : List (TargetSide α))
    (received : Received α) (hd : setupDistribute dim tsides = .ok received) :
    received.plan = tsides.map (·.rendezvous_procs) := by
  rw [setupDistribute] at hd
  split at hd
  · have hd1 := Except.ok.inj hd
    subst hd1
    rfl
  · cases hd

/-- With `store_missed_points = true` every rendezvous rank sends back the ordinals of the
points it found in no element, each to the target rank the point came from. -/
theorem setupSearches_missed {α : Type} [Inhabited α] [LinearOrder α] (env : Env α)
    (map : SharedDomainMap α) (rv : Rendezvous α) (source : List (Option (MeshManager α)))
    (target : List (Option (Field α))) (tol : α) (tsides : List (TargetSide α))
    (received : Received α) (searches : List RendezvousSearch)
    (hagree : dimensionsAgree map source target = true)
    (hst : map.d_store_missed_points = true)
    (h : setupTargetSides env map rv target = .ok tsides)
    (hd : setupDistribute map.d_dimension tsides = .ok received)
    (hs : setupSearches env map rv tol received = .ok searches) :
    searches.map (·.missed_in_mesh_ordinal) = (List.range map.comm_size).map (fun q =>
      (missedAtRendezvous env.ordMax map.d_dimension map.comm_size
          (reduceAllMax (localSizes map.comm_size target)) rv target tol q).map
        (fun x => inBoxEntry env.ordMax map.d_dimension rv.getBox x.1
          (reduceAllMax (localSizes map.comm_size target)) (target.getD x.1 none) x.2)) ∧
    searches.map (·.missed_target_procs) = (List.range map.comm_size).map (fun q =>
      (missedAtRendezvous env.ordMax map.d_dimension map.comm_size
          (reduceAllMax (localSizes map.comm_size target)) rv target tol q).map
        (fun x => ((x.1 : Nat) : Int))) := by
  obtain ⟨_, hrec⟩ := setupDistribute_ok env map rv source target tsides received hagree h hd
  obtain ⟨_, _, h3, _⟩ := setupTargetSides_fields env map rv source target tsides hagree h
  have hplan := setupDistribute_plan map.d_dimension tsides received hd
  rw [h3] at hplan
  obtain ⟨s1, s2⟩ := allRanks_range map.comm_size _ searches ⟨[], [], [], [], []⟩ hs
  have hD : map.d_dimension ≠ 0 ∨ map.comm_size = 0 :=
    setupTargetSides_ok env map rv source target tsides hagree h
  have key : ∀ q, q < map.comm_size →
      (searches.getD q ⟨[], [], [], [], []⟩).missed_in_mesh_ordinal
        = (missedAtRendezvous env.ordMax map.d_dimension map.comm_size
            (reduceAllMax (localSizes map.comm_size target)) rv target tol q).map
          (fun x => inBoxEntry env.ordMax map.d_dimension rv.getBox x.1
            (reduceAllMax (localSizes map.comm_size target)) (target.getD x.1 none) x.2) ∧
      (searches.getD q ⟨[], [], [], [], []⟩).missed_target_procs
        = (missedAtRendezvous env.ordMax map.d_dimension map.comm_size
            (reduceAllMax (localSizes map.comm_size target)) rv target tol q).map
          (fun x => ((x.1 : Nat) : Int)) := by
    intro q hq
    have hd0 : map.d_dimension ≠ 0 := by
      rcases hD with hD | hD
      · exact hD
      · omega
    obtain ⟨r1, r2, _⟩ := hrec q hq
    have hsq := s2 q hq
    rw [r1, r2, hst] at hsq
    obtain ⟨_, _, n3⟩ := rendezvousSearch_ok env.ordMax map.d_dimension true rv tol q _ _ _ _ _
      hd0 _ hsq
    obtain ⟨m1, m2⟩ := rendezvousSearch_missed env.ordMax map.d_dimension rv tol q _ _ _ _ _ hsq
    rw [m1, m2, n3]
    constructor
    · exact indicesOf_map_getD (invalidOrdinal env.ordMax) _ _ 0 _ []
    · rw [hplan, imagesAndLengthsFrom_tagged]
      exact indicesOf_map_getD (invalidOrdinal env.ordMax) _ _ 0 _ []
  constructor
  · conv_lhs => rw [s1]
    rw [List.map_map]
    apply List.map_congr_left
    intro q hq
    exact (key q (List.mem_range.mp hq)).1
  · conv_lhs => rw [s1]
    rw [List.map_map]
    apply List.map_congr_left
    intro q hq
    exact (key q (List.mem_range.mp hq)).2


theorem targetSide_g2l {α : Type} [Inhabited α] [LinearOrder α] (ordMax dim : Nat)
    (store : Bool) (rv : Rendezvous α) (r M : Nat) (target : Option (Field α))
    (g2l : List (Nat × Nat)) (missed : List Nat) (ts : TargetSide α)
    (h : targetSide ordMax dim store rv r M target g2l missed = .ok ts) :
    ts.d_target_g2l = (computePointOrdinals ordMax r M store (targetCount target) g2l).2 := by
  obtain ⟨ts1, h1, _, _, _, _, h2⟩ :=
    targetSide_state ordMax dim store rv r M target g2l g2l missed missed ts h
  rw [h] at h1
  have e := Except.ok.inj h1
  subst e
  exact h2

/-- With `store_missed_points = true`, a target point in the box of the rendezvous
decomposition for which the search of its rendezvous rank finds no element has its local
index in the missed points of its rank. -/
theorem setupMissed_records {α : Type} [Inhabited α] [LinearOrder α] (env : Env α)
    (map : SharedDomainMap α) (rv : Rendezvous α) (source : List (Option (MeshManager α)))
    (target : List (Option (Field α))) (tol : α) (tsides : List (TargetSide α))
    (received : Received α) (searches : List RendezvousSearch) (missed : List (List Nat))
    (hagree : dimensionsAgree map source target = true)
    (hst : map.d_store_missed_points = true)
    (hfit : map.comm_size * reduceAllMax (localSizes map.comm_size target) ≤ env.ordMax)
    (h : setupTargetSides env map rv target = .ok tsides)
    (hd : setupDistribute map.d_dimension tsides = .ok received)
    (hs : setupSearches env map rv tol received = .ok searches)
    (hm : setupMissed map tsides searches = .ok missed)
    (r n : Nat) (hr : r < map.comm_size) (hn : n < targetCount (target.getD r none))
    (hb : rv.getBox.pointInBox (targetPoint (target.getD r none) map.d_dimension n) = true)
    (hnf : (searchResult map.d_dimension rv target tol
        (rendezvousRank map.d_dimension rv target r n) (r, n)).1 = invalidOrdinal env.ordMax) :
    n ∈ missed.getD r [] := by
  obtain ⟨o1, o2⟩ := pointOrdinal_of_fit env.ordMax map.comm_size target hfit r n hr hn
  have hentry : inBoxEntry env.ordMax map.d_dimension rv.getBox r
      (reduceAllMax (localSizes map.comm_size target)) (target.getD r none) n
      = pointOrdinal env.ordMax r (reduceAllMax (localSizes map.comm_size target)) n := by
    rw [inBoxEntry, if_pos hb]
  have hk : n ∈ keptPoints env.ordMax map.d_dimension rv.getBox r
      (reduceAllMax (localSizes map.comm_size target)) (target.getD r none) := by
    rw [mem_keptPoints]
    refine ⟨hn, ?_⟩
    rw [hentry, o1, invalidOrdinal]
    omega
  obtain ⟨p1, p2⟩ := setupDistribute_valid env map rv source target tsides received hagree h hd
    r n hr hk
  have hq : ((rendezvousRank map.d_dimension rv target r n : Nat) : Int)
      = rv.getDestinationProc (targetPoint (target.getD r none) map.d_dimension n) := by
    rw [rendezvousRank]; exact Int.toNat_of_nonneg p1
  have hqP : rendezvousRank map.d_dimension rv target r n < map.comm_size := by omega
  have hM : (r, n) ∈ missedAtRendezvous env.ordMax map.d_dimension map.comm_size
      (reduceAllMax (localSizes map.comm_size target)) rv target tol
      (rendezvousRank map.d_dimension rv target r n) := by
    rw [missedAtRendezvous, List.mem_filter, mem_atRendezvous]
    exact ⟨⟨hr, hk, hq.symm⟩, beq_iff_eq.mpr hnf⟩
  obtain ⟨e1, e2⟩ := setupSearches_missed env map rv source target tol tsides received searches
    hagree hst h hd hs
  obtain ⟨t1, t2⟩ := allRanks_range map.comm_size _ tsides ⟨[], [], [], [], [], []⟩ h
  have hg2l : (tsides.map (·.d_target_g2l)).getD r []
      = (computePointOrdinals env.ordMax r (reduceAllMax (localSizes map.comm_size target))
          true (targetCount (target.getD r none)) (map.d_target_g2l.getD r [])).2 := by
    have := targetSide_g2l _ _ _ _ _ _ _ _ _ _ (t2 r hr)
    rw [hst] at this
    rw [← this]
    conv_lhs => rw [t1]
    rw [List.map_map, List.getD_eq_getElem?_getD, List.getElem?_map, List.getElem?_range hr]
    rfl
  have hfind : g2lFind ((tsides.map (·.d_target_g2l)).getD r [])
      (inBoxEntry env.ordMax map.d_dimension rv.getBox r
        (reduceAllMax (localSizes map.comm_size target)) (target.getD r none) n) = some n := by
    rw [hg2l, hentry, pointOrdinal, computePointOrdinals]
    have hM1 := targetCount_le_globalMax map.comm_size target r hr
    have hM2 : 1 * reduceAllMax (localSizes map.comm_size target)
        ≤ map.comm_size * reduceAllMax (localSizes map.comm_size target) :=
      Nat.mul_le_mul_right _ (by omega)
    exact computePointOrdinalsLoop_find env.ordMax r _ _ 0 _ n (Nat.zero_le _) (by omega)
      (by omega)
  have hrecv : inBoxEntry env.ordMax map.d_dimension rv.getBox r
      (reduceAllMax (localSizes map.comm_size target)) (target.getD r none) n
      ∈ (doPostsAndWaits (searches.map (·.missed_target_procs))
          (searches.map (·.missed_in_mesh_ordinal))).getD r [] := by
    rw [e1, e2, doPostsAndWaits_range map.comm_size r hr
      (fun q => missedAtRendezvous env.ordMax map.d_dimension map.comm_size
        (reduceAllMax (localSizes map.comm_size target)) rv target tol q)
      (fun _ x => ((x.1 : Nat) : Int))
      (fun _ x => inBoxEntry env.ordMax map.d_dimension rv.getBox x.1
        (reduceAllMax (localSizes map.comm_size target)) (target.getD x.1 none) x.2),
      List.mem_flatMap]
    refine ⟨rendezvousRank map.d_dimension rv target r n, List.mem_range.mpr hqP, ?_⟩
    rw [List.mem_map]
    exact ⟨(r, n), List.mem_filter.mpr ⟨hM, by simp⟩, rfl⟩
  rw [setupMissed] at hm
  simp only [hst, if_true] at hm
  split at hm
  · obtain ⟨_, m2⟩ := allRanks_range map.comm_size _ missed [] hm
    have hmr := m2 r hr
    rw [addMissedPoints] at hmr
    split at hmr
    · have e := Except.ok.inj hmr
      rw [← e, List.mem_append]
      right
      rw [List.mem_map]
      refine ⟨_, hrecv, ?_⟩
      rw [hfind]
      rfl
    · cases hmr
  · cases hm


theorem setupFinish_missed {α : Type} (map map1 : SharedDomainMap α) (root : Option Nat)
    (tsides : List (TargetSide α)) (missed : List (List Nat)) (rsides : List (RendezvousSide α))
    (hf : setupFinish map root tsides missed rsides = .ok map1) :
    map1.d_missed_points = missed := by
  rw [setupFinish] at hf
  split at hf
  · have hf1 := Except.ok.inj hf
    subst hf1
    rfl
  · cases hf

/-- C5 (amended): after `setup` completes, the source maps of all ranks hold the ordinal
of a target point exactly once when the point lies in the box of the rendezvous
decomposition and the rendezvous search finds an element for it, and not at all
otherwise; no ordinal occurs twice in the source maps; the index that holds the
ordinal of a point holds, in `source_elements` and `target_coords`, the element found for
this point and the coordinates of this point, on the source rank of the element; and a
point in the box for which the search finds no element has, when the map stores missed
points, its local index in the missed points of its target rank.  The rendezvous search
is taken to give the source rank `-1` exactly with the invalid element, and the ordinals
are taken to be representable below the invalid ordinal. -/
theorem setup_maps_found_points_once {α : Type} [Inhabited α] [LinearOrder α] (env : Env α)
    (map map1 : SharedDomainMap α) (source : List (Option (MeshManager α)))
    (target : List (Option (Field α))) (tol : α)
    (hsetup : setup env map source target tol = .ok map1)
    (hfit : map.comm_size * reduceAllMax (localSizes map.comm_size target) ≤ env.ordMax)
    (hcons : ∀ box q p,
      ((env.buildRendezvous box).findElement q tol p).1 = invalidOrdinal env.ordMax ↔
      ((env.buildRendezvous box).findElement q tol p).2 = -1) :
    ∃ box, sharedDomainBox env map.d_dimension
        ((List.range map.comm_size).map (fun r => source.getD r none))
        ((List.range map.comm_size).map (fun r => target.getD r none)) = .ok box ∧
      map1.d_source_map.flatten.Nodup ∧
      ∀ r n, r < map.comm_size → n < targetCount (target.getD r none) →
        map1.d_source_map.flatten.count
            (r * reduceAllMax (localSizes map.comm_size target) + n)
          = (if isMapped env.ordMax map.d_dimension (env.buildRendezvous box) target tol r n
              then 1 else 0) ∧
        (∀ s i, s < map.comm_size →
          (map1.d_source_map.getD s [])[i]?
            = some (r * reduceAllMax (localSizes map.comm_size target) + n) →
          (map1.d_source_elements.getD s [])[i]?
            = some (searchResult map.d_dimension (env.buildRendezvous box) target tol
                (rendezvousRank map.d_dimension (env.buildRendezvous box) target r n) (r, n)).1 ∧
          (searchResult map.d_dimension (env.buildRendezvous box) target tol
              (rendezvousRank map.d_dimension (env.buildRendezvous box) target r n) (r, n)).2
            = (s : Int) ∧
          pointAt (map1.d_target_coords.getD s []) map.d_dimension
              (map1.d_source_elements.getD s []).length i
            = targetPoint (target.getD r none) map.d_dimension n) ∧
        (map.d_store_missed_points = true →
          (env.buildRendezvous box).getBox.pointInBox
            (targetPoint (target.getD r none) map.d_dimension n) = true →
          (searchResult map.d_dimension (env.buildRendezvous box) target tol
              (rendezvousRank map.d_dimension (env.buildRendezvous box) target r n) (r, n)).1
            = invalidOrdinal env.ordMax →
          n ∈ map1.d_missed_points.getD r []) := by
  obtain ⟨hagree, box, tsides, received, searches, missed, rsides, hbox, hts, hrec, hse, hmi,
    hrs, hfin⟩ := setup_ok_inv env map map1 source target tol hsetup
  refine ⟨box, hbox, ?_⟩
  obtain ⟨_, hsrc⟩ := setupFinish_ok env map map1 (env.buildRendezvous box) source target tol
    tsides received searches rsides missed _ hagree (hcons box) hts hrec hse hrs hfin
  have hv1 := setupDistribute_valid env map (env.buildRendezvous box) source target tsides
    received hagree hts hrec
  have hv2 := setupFinish_valid env map map1 (env.buildRendezvous box) source target tol
    tsides received searches rsides missed _ hagree (hcons box) hts hrec hse hrs hfin
  have hlen : map1.d_source_map.length = map.comm_size := by
    rw [(setupFinish_length map map1 _ tsides missed rsides hfin).1]
    exact setup_rsides_length env map received searches rsides hrs
  have hflat : map1.d_source_map.flatten
      = ((List.range map.comm_size).flatMap
          (atSource env.ordMax map.d_dimension map.comm_size
            (reduceAllMax (localSizes map.comm_size target)) (env.buildRendezvous box)
            target tol)).map
          (fun y => inBoxEntry env.ordMax map.d_dimension (env.buildRendezvous box).getBox y.2.1
            (reduceAllMax (localSizes map.comm_size target)) (target.getD y.2.1 none) y.2.2) := by
    rw [flatten_eq_flatMap_getD, hlen, List.map_flatMap]
    apply List.flatMap_congr
    intro s hs
    exact (hsrc s (List.mem_range.mp hs)).2.1
  have hnodup := allAtSource_nodup env.ordMax map.d_dimension map.comm_size
    (reduceAllMax (localSizes map.comm_size target)) (env.buildRendezvous box) target tol
  have hinj : ∀ y, y ∈ (List.range map.comm_size).flatMap
        (atSource env.ordMax map.d_dimension map.comm_size
          (reduceAllMax (localSizes map.comm_size target)) (env.buildRendezvous box)
          target tol) →
      ∀ r n, r < map.comm_size → n < targetCount (target.getD r none) →
      inBoxEntry env.ordMax map.d_dimension (env.buildRendezvous box).getBox y.2.1
          (reduceAllMax (localSizes map.comm_size target)) (target.getD y.2.1 none) y.2.2
        = r * reduceAllMax (localSizes map.comm_size target) + n →
      y = (rendezvousRank map.d_dimension (env.buildRendezvous box) target r n, r, n) := by
    intro y hy r n hr hn he
    obtain ⟨s, _, hys⟩ := List.mem_flatMap.mp hy
    exact atSource_ord_inj env.ordMax map.d_dimension map.comm_size (env.buildRendezvous box)
      target tol hfit s y hys r n hr hn he
  refine ⟨?_, ?_⟩
  · rw [hflat]
    refine List.Nodup.map_on ?_ hnodup
    intro y1 hy1 y2 hy2 he
    obtain ⟨s2, _, hys2⟩ := List.mem_flatMap.mp hy2
    obtain ⟨a1, a2, a3, _⟩ := atSource_facts env.ordMax map.d_dimension map.comm_size
      (env.buildRendezvous box) target tol hfit s2 y2 hys2
    rw [hinj y1 hy1 y2.2.1 y2.2.2 a1 a2 (he.trans a3), hinj y2 hy2 y2.2.1 y2.2.2 a1 a2 a3]
  · intro r n hr hn
    refine ⟨?_, ?_, ?_⟩
    · rw [hflat, List.count, List.countP_map]
      have hc : List.countP
          ((fun x => x == r * reduceAllMax (localSizes map.comm_size target) + n) ∘
            fun y => inBoxEntry env.ordMax map.d_dimension (env.buildRendezvous box).getBox y.2.1
              (reduceAllMax (localSizes map.comm_size target)) (target.getD y.2.1 none) y.2.2)
          ((List.range map.comm_size).flatMap
            (atSource env.ordMax map.d_dimension map.comm_size
              (reduceAllMax (localSizes map.comm_size target)) (env.buildRendezvous box)
              target tol))
          = List.countP
              (fun y => decide (y
                = (rendezvousRank map.d_dimension (env.buildRendezvous box) target r n, r, n)))
              ((List.range map.comm_size).flatMap
                (atSource env.ordMax map.d_dimension map.comm_size
                  (reduceAllMax (localSizes map.comm_size target)) (env.buildRendezvous box)
                  target tol)) := by
        apply List.countP_congr
        intro y hy
        simp only [Function.comp, beq_iff_eq, decide_eq_true_eq]
        constructor
        · intro he
          exact hinj y hy r n hr hn he
        · intro he
          obtain ⟨s, _, hys⟩ := List.mem_flatMap.mp hy
          have := (atSource_facts env.ordMax map.d_dimension map.comm_size
            (env.buildRendezvous box) target tol hfit s y hys).2.2.1
          rw [this, he]
      rw [hc]
      by_cases hm : isMapped env.ordMax map.d_dimension (env.buildRendezvous box) target tol r n
          = true
      · rw [if_pos hm]
        exact List.count_eq_one_of_mem hnodup
          (mapped_mem_atSource env.ordMax map.d_dimension map.comm_size
            (env.buildRendezvous box) target tol hfit hv1 hv2 r n hr hn hm)
      · rw [if_neg hm]
        have hnot : (rendezvousRank map.d_dimension (env.buildRendezvous box) target r n, r, n)
            ∉ (List.range map.comm_size).flatMap
              (atSource env.ordMax map.d_dimension map.comm_size
                (reduceAllMax (localSizes map.comm_size target)) (env.buildRendezvous box)
                target tol) := by
          intro hy
          obtain ⟨s, _, hys⟩ := List.mem_flatMap.mp hy
          exact hm (atSource_facts env.ordMax map.d_dimension map.comm_size
            (env.buildRendezvous box) target tol hfit s _ hys).2.2.2.2.1
        rw [List.countP_eq_zero]
        intro y hy hdec
        rw [of_decide_eq_true hdec] at hy
        exact hnot hy
    · intro s i hs hi
      obtain ⟨e1, e2, e3⟩ := hsrc s hs
      rw [e2, List.getElem?_map] at hi
      cases hyi : (atSource env.ordMax map.d_dimension map.comm_size
          (reduceAllMax (localSizes map.comm_size target)) (env.buildRendezvous box)
          target tol s)[i]? with
      | none => rw [hyi] at hi; cases hi
      | some y =>
        rw [hyi, Option.map_some', Option.some.injEq] at hi
        have hys := List.getElem?_mem hyi
        have hy0 := atSource_ord_inj env.ordMax map.d_dimension map.comm_size
          (env.buildRendezvous box) target tol hfit s y hys r n hr hn hi
        subst hy0
        obtain ⟨hilt, hget⟩ := List.getElem?_eq_some.mp hyi
        refine ⟨?_, ?_, ?_⟩
        · rw [e1, List.getElem?_map, hyi]
          rfl
        · exact (atSource_facts env.ordMax map.d_dimension map.comm_size
            (env.buildRendezvous box) target tol hfit s _ hys).2.2.2.2.2
        · rw [e1, e3, List.length_map, pointAt_blockStrided _ _ _ i hilt]
          have hg : (atSource env.ordMax map.d_dimension map.comm_size
              (reduceAllMax (localSizes map.comm_size target)) (env.buildRendezvous box)
              target tol s).get ⟨i, hilt⟩
              = (rendezvousRank map.d_dimension (env.buildRendezvous box) target r n, r, n) :=
            hget
          rw [hg]
          rfl
    · intro hst hb hnf
      rw [setupFinish_missed map map1 _ tsides missed rsides hfin]
      exact setupMissed_records env map (env.buildRendezvous box) source target tol tsides
        received searches missed hagree hst hfit hts hrec hse hmi r n hr hn hb hnf

/-- Witness for C5: the two-rank example; the ordinals of the source maps are distinct,
and the point (1,1,9) of rank 1 (local index 2), in the box and found in no element, is
among the missed points of rank 1. -/
theorem setup_maps_found_points_once_witness :
    setup exampleEnv (SharedDomainMap.new 2 3 true) exampleSource exampleTarget 0
      = .ok exampleMap ∧
    (SharedDomainMap.new 2 3 true : SharedDomainMap ℤ).comm_size
        * reduceAllMax (localSizes (SharedDomainMap.new 2 3 true : SharedDomainMap ℤ).comm_size
            exampleTarget) ≤ exampleEnv.ordMax ∧
    exampleMap.d_source_map.flatten.Nodup ∧
    exampleMap.d_source_map.flatten.count 4 = 1 ∧
    2 ∈ exampleMap.d_missed_points.getD 1 [] := by
  obtain ⟨box, hbox, hnodup, hpts⟩ := setup_maps_found_points_once exampleEnv
    (SharedDomainMap.new 2 3 true) exampleMap exampleSource exampleTarget 0 (by rfl)
    (by decide) (fun box q p => exampleRendezvous_consistent box q 0 p)
  have hb : box = ⟨1, 1, 3, 10, 10, 10⟩ := by
    have h0 : sharedDomainBox exampleEnv
        (SharedDomainMap.new 2 3 true : SharedDomainMap ℤ).d_dimension
        ((List.range (SharedDomainMap.new 2 3 true : SharedDomainMap ℤ).comm_size).map
          (fun r => exampleSource.getD r none))
        ((List.range (SharedDomainMap.new 2 3 true : SharedDomainMap ℤ).comm_size).map
          (fun r => exampleTarget.getD r none)) = .ok ⟨1, 1, 3, 10, 10, 10⟩ := by rfl
    rw [h0] at hbox
    exact (Except.ok.inj hbox).symm
  subst hb
  exact ⟨by rfl, by decide, hnodup, (hpts 1 0 (by decide) (by decide)).1,
    (hpts 1 2 (by decide) (by decide)).2.2 rfl (by rfl) (by rfl)⟩

end DTK
